import Mathlib

/-!
libpairwise and its Python binding: index mapping, work partitioning, the
bounded worker, the launcher, the two kernels, and the marshalling, exception
and entry-point layers of the binding.

A shallow embedding of `pairwise_index` (pairwise_index.c), of
`_pairwise_populate_argument_sets`, `_pairwise_launch_bounded` and
`_pairwise_launch` (pairwise_launch.c), of `pairwise_rmsds` and
`pairwise_distances` with their kernels (pairwise_rmsds.c,
pairwise_distances.c), of `pywise_build_collections_array` and
`pywise_build_points_array` (pywise_build_collections_array.c,
pywise_build_points_array.c), of the translation of return codes
(pywise_exception.c) and of the entry points `pywise_rmsds` and
`pywise_distances` (pywise_rmsds.c, pywise_distances.c).

Machine integers: `size_t` is a natural number below `WORD = 2 ^ 64` and every
`size_t` operation is reduced modulo `WORD`; `ssize_t` is an integer in
`[-2 ^ 63, 2 ^ 63)`. Doubles are an ordered field `R` with an exact square
root passed as a parameter (theorems instantiate `R` with the real numbers).
-/

namespace Pairwise

/-! ## Machine words -/

/-- Number of values of a `size_t` (64-bit). -/
def WORD : Nat := 2 ^ 64

/-- Addition of two `size_t`. -/
def wadd (x y : Nat) : Nat := (x + y) % WORD

/-- Subtraction of two `size_t` (wraps below zero). -/
def wsub (x y : Nat) : Nat := (x + (WORD - y % WORD)) % WORD

/-- Multiplication of two `size_t`. -/
def wmul (x y : Nat) : Nat := (x * y) % WORD

/-- Unary minus on a `size_t`. -/
def wneg (x : Nat) : Nat := (WORD - x % WORD) % WORD

/-- Conversion `ssize_t` to `size_t` (value modulo `WORD`). -/
def to_size (x : Int) : Nat := (x % (WORD : Int)).toNat

/-- Conversion `size_t` to `ssize_t` (two's complement). -/
def to_ssize (x : Nat) : Int :=
  if x % WORD < 2 ^ 63 then ((x % WORD : Nat) : Int) else ((x % WORD : Nat) : Int) - (WORD : Int)

/-! ## Return codes (pairwise_error.h) -/

def PAIRWISE_RETURN_SUCCESS : Nat := 0
def PAIRWISE_RETURN_MALLOC_FAIL : Nat := 1
def PAIRWISE_RETURN_PTHREAD_CREATE_EAGAIN : Nat := 2
def PAIRWISE_RETURN_PTHREAD_CREATE_EINVAL : Nat := 3
def PAIRWISE_RETURN_PTHREAD_CREATE_EPERM : Nat := 4
def PAIRWISE_RETURN_PTHREAD_CREATE_UNKNOWN : Nat := 5
def PAIRWISE_RETURN_PTHREAD_JOIN_EDEADLK : Nat := 6
def PAIRWISE_RETURN_PTHREAD_JOIN_EINVAL : Nat := 7
def PAIRWISE_RETURN_PTHREAD_JOIN_ESRCH : Nat := 8
def PAIRWISE_RETURN_PTHREAD_JOIN_UNKNOWN : Nat := 9
def PAIRWISE_RETURN_ERROR_NCOLLECTIONS : Nat := 10
def PAIRWISE_RETURN_ERROR_ICOLLECTIONA : Nat := 11
def PAIRWISE_RETURN_ERROR_ICOLLECTIONB : Nat := 12
def PAIRWISE_RETURN_ERROR_ICOLLECTIONSAME : Nat := 13
def PAIRWISE_RETURN_ERROR_NTHREADS : Nat := 14

/-! ## pairwise_index -/

/-- The statement `if (i < 0) i += n_collections;` on an `ssize_t` index: the
sum is formed in `size_t` and converted back. -/
def resolve_index (n_collections : Nat) (i_collection : Int) : Int :=
  if i_collection < 0 then to_ssize (wadd (to_size i_collection) n_collections)
  else i_collection

/-- The test `i < 0 || i >= n_collections` (the second comparison is made in
`size_t`). -/
def index_out_of_bounds (n_collections : Nat) (i_collection : Int) : Bool :=
  decide (i_collection < 0) || decide (n_collections ≤ to_size i_collection)

/-- The arithmetic of lines 105-109: the offset of the ordered pair
`(i_collection_min, i_collection_max)`, in `size_t`. -/
def index_working (n_collections i_collection_min i_collection_max : Nat) : Nat :=
  let i_working := wmul (wneg i_collection_min)
    (wadd (wsub i_collection_min (wmul 2 n_collections)) 1)
  let i_working := i_working / 2
  wadd i_working (wsub (wsub i_collection_max i_collection_min) 1)

/-- The function `pairwise_index(n_collections, i_collection_a, i_collection_b, &i_result)`:
returns the status and the content of `i_result` after the call (`i_result` is
its content before). -/
def pairwise_index (n_collections : Nat) (i_collection_a i_collection_b : Int)
    (i_result : Nat) : Nat × Nat :=
  if n_collections < 2 then (PAIRWISE_RETURN_ERROR_NCOLLECTIONS, i_result)
  else
    let a := resolve_index n_collections i_collection_a
    if index_out_of_bounds n_collections a then (PAIRWISE_RETURN_ERROR_ICOLLECTIONA, i_result)
    else
      let b := resolve_index n_collections i_collection_b
      if index_out_of_bounds n_collections b then (PAIRWISE_RETURN_ERROR_ICOLLECTIONB, i_result)
      else if a = b then (PAIRWISE_RETURN_ERROR_ICOLLECTIONSAME, i_result)
      else
        let i_collection_min := if a < b then to_size a else to_size b
        let i_collection_max := if a < b then to_size b else to_size a
        (PAIRWISE_RETURN_SUCCESS, index_working n_collections i_collection_min i_collection_max)

/-! ## The argument set and the bounded worker (pairwise_launch.c) -/

/-- The structure `_pairwise_as_t`. A read-only `double*` is the view of the values from its
address on; `a_results` is the position in the result buffer at which the
pointer stored in the structure points. -/
structure pairwise_as (D : Type) where
  f_calculation : Nat → Nat → (Nat → D) → (Nat → D) → D
  a_collections : Nat → D
  a_results : Nat
  n_collections : Nat
  n_points : Nat
  n_coordinates : Nat
  i_collection_lower : Nat
  i_collection_upper : Nat

/-- Pointer addition `p + k` on a read-only `double*`. -/
def ptr_add {D : Type} (p : Nat → D) (k : Nat) : Nat → D := fun t => p (k + t)

/-- The inner loop of `_pairwise_launch_bounded` for one `i_collection_a`
(`i_collection_b` runs from `i_collection_a + 1` while below `n_collections`).
The state is the write cursor `a_results` and the stores made so far, each
store `*(a_results ++) = v` recorded as `(position, v)`. -/
def launch_bounded_row {D : Type} (s : pairwise_as D) (i_collection_a : Nat)
    (st : Nat × List (Nat × D)) : Nat × List (Nat × D) :=
  (List.range' (i_collection_a + 1) (s.n_collections - (i_collection_a + 1))).foldl
    (fun st i_collection_b =>
      let collection_a :=
        ptr_add s.a_collections (wmul (wmul i_collection_a s.n_points) s.n_coordinates)
      let collection_b :=
        ptr_add s.a_collections (wmul (wmul i_collection_b s.n_points) s.n_coordinates)
      (st.1 + 1,
        st.2 ++ [(st.1, s.f_calculation s.n_points s.n_coordinates collection_a collection_b)]))
    st

/-- The two nested loops of `_pairwise_launch_bounded`: final write cursor and
the sequence of stores, in execution order. -/
def launch_bounded_stores {D : Type} (s : pairwise_as D) : Nat × List (Nat × D) :=
  (List.range' s.i_collection_lower (s.i_collection_upper - s.i_collection_lower)).foldl
    (fun st i_collection_a => launch_bounded_row s i_collection_a st)
    (s.a_results, [])

/-- One store into the result buffer. -/
def store {D : Type} (results : Nat → D) (w : Nat × D) : Nat → D :=
  fun p => if p = w.1 then w.2 else results p

/-- The function `_pairwise_launch_bounded(argument_set)`: the result buffer after the
call. -/
def _pairwise_launch_bounded {D : Type} (s : pairwise_as D) (results : Nat → D) : Nat → D :=
  (launch_bounded_stores s).2.foldl store results

/-- The argument set initialised by hand on the `n_threads == 1` path of
`_pairwise_launch` (lines 509-519). -/
def single_argument_set {D : Type} (f_calculation : Nat → Nat → (Nat → D) → (Nat → D) → D)
    (n_collections n_points n_coordinates : Nat) (a_collections : Nat → D) (a_results : Nat) :
    pairwise_as D :=
  { f_calculation := f_calculation
    a_collections := a_collections
    a_results := a_results
    n_collections := n_collections
    n_points := n_points
    n_coordinates := n_coordinates
    i_collection_lower := 0
    i_collection_upper := n_collections }

/-! ## The partitioner (pairwise_launch.c) -/

/-- The local variables of `_pairwise_populate_argument_sets` that live across
iterations, and the entries of `a_argument_sets` written so far (entry
`i_argument_set` is written by iteration `i_argument_set`). -/
structure populate_state (R : Type) where
  i_collection_lower : Nat
  i_collection_upper : Nat
  i_results_offset : Nat
  n_collections_remaining : R
  a_argument_sets : List (pairwise_as R)

/-- Line 111: the ideal number of calculations per argument set,
`(0.5 * n_collections * (n_collections - 1)) / n_argument_sets`, a `double`
(`n_collections - 1` is formed in `size_t`; `0.5` is written `1 / 2`). -/
def calculations_per_argument_set {R : Type} [LinearOrderedField R]
    (n_collections n_argument_sets : Nat) : R :=
  ((1 / 2 : R) * (n_collections : R) * ((wsub n_collections 1 : Nat) : R))
    / (n_argument_sets : R)

/-- Lines 222-223: `n_collections_used`, from the ideal share `c` and
`n_collections_remaining = r`; `_PAIRWISE_SQUARE(r)` is `r * r`. -/
def collections_used {R : Type} [LinearOrderedField R] (sqrt : R → R) (c r : R) : R :=
  (1 / 2 : R) * (-sqrt ((-8 * c) + (4 * (r * r)) - (4 * r) + 1) + (2 * r) - 1)

/-- Lines 174-176: the new `i_results_offset`. The difference and the bracket
are formed in `size_t`, the product and the sum in `double`, and the sum is
assigned back to the `size_t`. -/
def results_offset_next {R : Type} [LinearOrderedField R] [FloorSemiring R]
    (n_collections i_collection_lower i_collection_upper i_results_offset : Nat) : Nat :=
  let i_collection_delta := wsub i_collection_upper i_collection_lower
  Nat.floor ((i_results_offset : R) + (1 / 2 : R) * (i_collection_delta : R) *
    ((wsub (wsub (wmul 2 (wsub n_collections i_collection_lower)) i_collection_delta) 1
      : Nat) : R))

/-- One iteration of the loop of `_pairwise_populate_argument_sets`. A `double`
is an element of the ordered field `R`, `sqrt` is the library square root, and
the assignment of a `double` to a `size_t` truncates (`Nat.floor`). -/
def populate_step {R : Type} [LinearOrderedField R] [FloorSemiring R] (sqrt : R → R)
    (f_calculation : Nat → Nat → (Nat → R) → (Nat → R) → R)
    (n_collections n_points n_coordinates : Nat) (a_collections : Nat → R) (a_results : Nat)
    (n_argument_sets : Nat) (n_calculations_per_argument_set : R)
    (st : populate_state R) (i_argument_set : Nat) : populate_state R :=
  let i_results_offset :=
    if i_argument_set = 0 then 0
    else results_offset_next (R := R) n_collections st.i_collection_lower st.i_collection_upper
      st.i_results_offset
  let i_collection_lower := if i_argument_set = 0 then 0 else st.i_collection_upper
  let n_collections_used : R :=
    collections_used sqrt n_calculations_per_argument_set st.n_collections_remaining
  let n_collections_remaining := st.n_collections_remaining - n_collections_used
  let i_collection_upper :=
    if i_argument_set = wsub n_argument_sets 1 then n_collections
    else Nat.floor ((st.i_collection_upper : R) + n_collections_used)
  { i_collection_lower := i_collection_lower
    i_collection_upper := i_collection_upper
    i_results_offset := i_results_offset
    n_collections_remaining := n_collections_remaining
    a_argument_sets := st.a_argument_sets ++
      [{ f_calculation := f_calculation
         a_collections := a_collections
         a_results := a_results + i_results_offset
         n_collections := n_collections
         n_points := n_points
         n_coordinates := n_coordinates
         i_collection_lower := i_collection_lower
         i_collection_upper := i_collection_upper }] }

/-- The state of `_pairwise_populate_argument_sets` after `k` iterations of its
loop. `i_collection_lower` and `i_results_offset` are uninitialised before the
first iteration, which assigns both before any use; they are given as `0`. -/
def populate_loop {R : Type} [LinearOrderedField R] [FloorSemiring R] (sqrt : R → R)
    (f_calculation : Nat → Nat → (Nat → R) → (Nat → R) → R)
    (n_collections n_points n_coordinates : Nat) (a_collections : Nat → R) (a_results : Nat)
    (n_argument_sets : Nat) (k : Nat) : populate_state R :=
  (List.range k).foldl
    (populate_step sqrt f_calculation n_collections n_points n_coordinates a_collections
      a_results n_argument_sets (calculations_per_argument_set n_collections n_argument_sets))
    { i_collection_lower := 0
      i_collection_upper := 0
      i_results_offset := 0
      n_collections_remaining := (n_collections : R)
      a_argument_sets := [] }

/-- The function `_pairwise_populate_argument_sets`: the array `a_argument_sets` after the
call. -/
def _pairwise_populate_argument_sets {R : Type} [LinearOrderedField R] [FloorSemiring R]
    (sqrt : R → R) (f_calculation : Nat → Nat → (Nat → R) → (Nat → R) → R)
    (n_collections n_points n_coordinates : Nat) (a_collections : Nat → R) (a_results : Nat)
    (n_argument_sets : Nat) : List (pairwise_as R) :=
  (populate_loop sqrt f_calculation n_collections n_points n_coordinates a_collections
    a_results n_argument_sets n_argument_sets).a_argument_sets

/-! ## The launcher (pairwise_launch.c) -/

/-- Error numbers of `errno.h` returned by `pthread_create` and `pthread_join`
(the values of Linux). -/
def EPERM : Nat := 1
def ESRCH : Nat := 3
def EAGAIN : Nat := 11
def EINVAL : Nat := 22
def EDEADLK : Nat := 35

/-- What `_pairwise_launch` does to its surroundings, in the order it does it.
Arrays and threads are named by their index: `create i r` is the call
`pthread_create(a_threads + i, NULL, _pairwise_launch_bounded, a_argument_sets + i)`
returning `r`, `join i r` the call `pthread_join(a_threads[i], NULL)` returning
`r`, `cancel i` the call `pthread_cancel(a_threads[i])`, and `launch_bounded i`
the direct call `_pairwise_launch_bounded(a_argument_sets + i)` by the calling
thread. The flag of a `malloc` event tells whether the allocation succeeded. -/
inductive launch_event where
  | malloc_argument_sets (ok : Bool)
  | malloc_threads (ok : Bool)
  | free_argument_sets
  | free_threads
  | launch_bounded (i : Nat)
  | create (i : Nat) (n_return : Nat)
  | join (i : Nat) (n_return : Nat)
  | cancel (i : Nat)
  deriving DecidableEq

/-- The answers of the surroundings to one call of `_pairwise_launch`: whether
each `malloc` succeeds, and the value returned by `pthread_create` and
`pthread_join` for each thread index. -/
structure launch_env where
  malloc_argument_sets_ok : Bool
  malloc_threads_ok : Bool
  create_return : Nat → Nat
  join_return : Nat → Nat

/-- The observable result of one call of `_pairwise_launch`: the returned status,
the events, and the result buffer after the call. The buffer is `none` when the
call fails after a worker was started: the workers that were started may have
written any part of their results (the prologue of the function makes no
guarantee about `a_results` on failure). -/
structure launch_outcome (D : Type) where
  n_return : Nat
  events : List launch_event
  a_results : Option (Nat → D)

/-- The `switch` on the value returned by a failed `pthread_create`. -/
def create_status (n_return : Nat) : Nat :=
  if n_return = EAGAIN then PAIRWISE_RETURN_PTHREAD_CREATE_EAGAIN
  else if n_return = EINVAL then PAIRWISE_RETURN_PTHREAD_CREATE_EINVAL
  else if n_return = EPERM then PAIRWISE_RETURN_PTHREAD_CREATE_EPERM
  else PAIRWISE_RETURN_PTHREAD_CREATE_UNKNOWN

/-- The `switch` on the value returned by a failed `pthread_join`. -/
def join_status (n_return : Nat) : Nat :=
  if n_return = EDEADLK then PAIRWISE_RETURN_PTHREAD_JOIN_EDEADLK
  else if n_return = EINVAL then PAIRWISE_RETURN_PTHREAD_JOIN_EINVAL
  else if n_return = ESRCH then PAIRWISE_RETURN_PTHREAD_JOIN_ESRCH
  else PAIRWISE_RETURN_PTHREAD_JOIN_UNKNOWN

/-- The loop `for (i_thread = n_threads; i_thread; i_thread --)` around
`pthread_create`, entered with the given `i_thread`: the events, and on a
failing call the value of `i_thread` at that moment with the returned error. -/
def create_loop (env : launch_env) : Nat → List launch_event × Option (Nat × Nat)
  | 0 => ([], none)
  | i_thread + 1 =>
    if env.create_return i_thread ≠ 0 then
      ([launch_event.create i_thread (env.create_return i_thread)],
        some (i_thread + 1, env.create_return i_thread))
    else
      ((launch_event.create i_thread (env.create_return i_thread))
        :: (create_loop env i_thread).1, (create_loop env i_thread).2)

/-- The loop `for (i_thread = n_threads; i_thread; i_thread --)` around
`pthread_join`, entered with the given `i_thread`. -/
def join_loop (env : launch_env) : Nat → List launch_event × Option (Nat × Nat)
  | 0 => ([], none)
  | i_thread + 1 =>
    if env.join_return i_thread ≠ 0 then
      ([launch_event.join i_thread (env.join_return i_thread)],
        some (i_thread + 1, env.join_return i_thread))
    else
      ((launch_event.join i_thread (env.join_return i_thread))
        :: (join_loop env i_thread).1, (join_loop env i_thread).2)

/-- The clean-up loop `for (; i_thread < n_threads; i_thread ++)
pthread_cancel(*(a_threads + i_thread));`, entered with the given `i_thread`. -/
def cancel_loop (i_thread n_threads : Nat) : List launch_event :=
  (List.range' i_thread (n_threads - i_thread)).map launch_event.cancel

/-- The function `_pairwise_launch`. `results` is the result buffer before the
call (`a_results` points at its position `0`). After all joins have succeeded
every worker has run to its end; the workers store to pairwise different
positions, and the buffer is that of running them one after the other in the
order of the array. -/
def _pairwise_launch {R : Type} [LinearOrderedField R] [FloorSemiring R] (env : launch_env)
    (sqrt : R → R) (f_calculation : Nat → Nat → (Nat → R) → (Nat → R) → R)
    (n_collections n_points n_coordinates : Nat) (a_collections : Nat → R)
    (results : Nat → R) (n_threads : Nat) : launch_outcome R :=
  if n_collections < 2 ∨ n_points = 0 ∨ n_coordinates = 0 then
    { n_return := PAIRWISE_RETURN_SUCCESS, events := [], a_results := some results }
  else if n_threads = 0 then
    { n_return := PAIRWISE_RETURN_ERROR_NTHREADS, events := [], a_results := some results }
  else if env.malloc_argument_sets_ok = false then
    { n_return := PAIRWISE_RETURN_MALLOC_FAIL
      events := [launch_event.malloc_argument_sets false]
      a_results := some results }
  else if n_threads = 1 then
    { n_return := PAIRWISE_RETURN_SUCCESS
      events := [launch_event.malloc_argument_sets true, launch_event.launch_bounded 0,
        launch_event.free_argument_sets]
      a_results := some (_pairwise_launch_bounded
        (single_argument_set f_calculation n_collections n_points n_coordinates a_collections 0)
        results) }
  else if env.malloc_threads_ok = false then
    { n_return := PAIRWISE_RETURN_MALLOC_FAIL
      events := [launch_event.malloc_argument_sets true, launch_event.malloc_threads false,
        launch_event.free_argument_sets]
      a_results := some results }
  else
    match (create_loop env n_threads).2 with
    | some (i_thread, n_return) =>
      { n_return := create_status n_return
        events := [launch_event.malloc_argument_sets true, launch_event.malloc_threads true]
          ++ (create_loop env n_threads).1 ++ cancel_loop i_thread n_threads
          ++ [launch_event.free_argument_sets, launch_event.free_threads]
        a_results := if i_thread = n_threads then some results else none }
    | none =>
      match (join_loop env n_threads).2 with
      | some (i_thread, n_return) =>
        { n_return := join_status n_return
          events := [launch_event.malloc_argument_sets true, launch_event.malloc_threads true]
            ++ (create_loop env n_threads).1 ++ (join_loop env n_threads).1
            ++ cancel_loop i_thread n_threads
            ++ [launch_event.free_argument_sets, launch_event.free_threads]
          a_results := none }
      | none =>
        { n_return := PAIRWISE_RETURN_SUCCESS
          events := [launch_event.malloc_argument_sets true, launch_event.malloc_threads true]
            ++ (create_loop env n_threads).1 ++ (join_loop env n_threads).1
            ++ [launch_event.free_argument_sets, launch_event.free_threads]
          a_results := some ((_pairwise_populate_argument_sets sqrt f_calculation n_collections
            n_points n_coordinates a_collections 0 n_threads).foldl
            (fun r d => _pairwise_launch_bounded d r) results) }

/-! ## The kernels (pairwise_rmsds.c, pairwise_distances.c) -/

/-- The preprocessor definition `_PAIRWISE_SQUARE(x)`, that is `((x) * (x))`. -/
def _PAIRWISE_SQUARE {R : Type} [LinearOrderedField R] (x : R) : R := x * x

/-- The function `_pairwise_single_rmsd(n_points, n_coordinates, collection_a,
collection_b)`. The two loops accumulate from `0` in ascending order; the
product `i_point * n_coordinates` is formed in `size_t`; `working /= n_points`
divides by the `size_t` converted to a `double`. -/
def _pairwise_single_rmsd {R : Type} [LinearOrderedField R] (sqrt : R → R)
    (n_points n_coordinates : Nat) (collection_a collection_b : Nat → R) : R :=
  let working := (List.range n_points).foldl
    (fun working i_point =>
      let point_distance_squared := (List.range n_coordinates).foldl
        (fun point_distance_squared i_coordinate =>
          let coordinate_a := collection_a (wmul i_point n_coordinates + i_coordinate)
          let coordinate_b := collection_b (wmul i_point n_coordinates + i_coordinate)
          point_distance_squared + _PAIRWISE_SQUARE (coordinate_a - coordinate_b))
        0
      working + point_distance_squared)
    0
  let working := working / (n_points : R)
  sqrt working

/-- The function `_pairwise_single_distance(n_points, n_coordinates,
collection_a, collection_b)`; `n_points` is not read. -/
def _pairwise_single_distance {R : Type} [LinearOrderedField R] (sqrt : R → R)
    (_n_points n_coordinates : Nat) (collection_a collection_b : Nat → R) : R :=
  let point_distance_squared := (List.range n_coordinates).foldl
    (fun point_distance_squared i_coordinate =>
      let coordinate_a := collection_a i_coordinate
      let coordinate_b := collection_b i_coordinate
      point_distance_squared + _PAIRWISE_SQUARE (coordinate_a - coordinate_b))
    0
  sqrt point_distance_squared

/-- The function `pairwise_rmsds(n_collections, n_points, n_coordinates,
a_collections, a_rmsds, n_threads)`; `results` is the buffer at `a_rmsds` before
the call. -/
def pairwise_rmsds {R : Type} [LinearOrderedField R] [FloorSemiring R] (env : launch_env)
    (sqrt : R → R) (n_collections n_points n_coordinates : Nat) (a_collections : Nat → R)
    (results : Nat → R) (n_threads : Nat) : launch_outcome R :=
  _pairwise_launch env sqrt (_pairwise_single_rmsd sqrt) n_collections n_points n_coordinates
    a_collections results n_threads

/-- The function `pairwise_distances(n_points, n_coordinates, a_points,
a_distances, n_threads)`: every point is a collection of one point; `results` is
the buffer at `a_distances` before the call. -/
def pairwise_distances {R : Type} [LinearOrderedField R] [FloorSemiring R] (env : launch_env)
    (sqrt : R → R) (n_points n_coordinates : Nat) (a_points : Nat → R)
    (results : Nat → R) (n_threads : Nat) : launch_outcome R :=
  _pairwise_launch env sqrt (_pairwise_single_distance sqrt) n_points 1 n_coordinates
    a_points results n_threads

/-! ## Marshalling of the input (pywise_build_collections_array.c) -/

/-- A Python object as `pywise_build_collections_array` tells them apart:
`float x` passes `PyFloat_Check` and `PyFloat_AS_DOUBLE` gives `x`; `int z`
passes `PyInt_Check` and `PyInt_AS_LONG` gives `z`; for `sequence items`
`PySequence_Fast` succeeds and `PySequence_Fast_ITEMS` are `items`; `other` is
any object for which all three fail. -/
inductive PyObject (R : Type) where
  | float (x : R)
  | int (z : Int)
  | sequence (items : List (PyObject R))
  | other

/-- The exceptions set by the marshalling functions, by the translation of
return codes (pywise_exception.c) and by the entry points. -/
inductive py_exception where
  | MemoryError
  | RuntimeError
  | IndexError
  | TypeError
  | ValueError
  | NotImplementedError
  deriving DecidableEq

/-- Whether each of the two `malloc` calls of `pywise_build_collections_array`
succeeds. -/
structure build_env where
  malloc_error_buffer_ok : Bool
  malloc_collections_ok : Bool

/-- The variables of `pywise_build_collections_array` that live across
iterations: the three out-parameters, the array `a_collections` (`none` is the
null pointer, `some s` a block of `s` bytes), the values stored through
`a_collections_temp` so far, in order, and the exception set by a `goto
exception`. -/
structure build_state (R : Type) where
  n_collections : Nat
  n_points : Nat
  n_coordinates : Nat
  s_a_collections : Option Nat
  stored : List R
  exception : Option py_exception

/-- Lines 419-425: the conversion of one coordinate to a `double`, or nothing
for an object that is neither a float nor an integer. -/
def coordinate_value {R : Type} [IntCast R] : PyObject R → Option R
  | PyObject.float x => some x
  | PyObject.int z => some (z : R)
  | _ => none

/-- The loop over the coordinates of one point (lines 398-438). -/
def build_coordinates {R : Type} [IntCast R] : List (PyObject R) → build_state R → build_state R
  | [], st => st
  | o_coordinate :: rest, st =>
    match coordinate_value o_coordinate with
    | some v => build_coordinates rest { st with stored := st.stored ++ [v] }
    | none => { st with exception := some py_exception.TypeError }

/-- The body of the loop over the points of one collection (lines 272-438). The
length product is formed in `Py_ssize_t` and the byte count in `size_t`, both
taken modulo `2 ^ 64`; `sizeof(double)` is `8`. -/
def build_point {R : Type} [IntCast R] (env : build_env) (n_collections_temp n_points_temp : Nat)
    (i_collection i_point : Nat) (o_point : PyObject R) (st : build_state R) : build_state R :=
  match o_point with
  | PyObject.sequence a_o_coordinates =>
    if a_o_coordinates.length = 0 then { st with exception := some py_exception.IndexError }
    else if i_point = 0 then
      if i_collection = 0 then
        if env.malloc_collections_ok = false then
          { st with n_coordinates := a_o_coordinates.length
                    exception := some py_exception.MemoryError }
        else
          build_coordinates a_o_coordinates
            { st with n_coordinates := a_o_coordinates.length
                      s_a_collections := some (wmul
                        (wmul (wmul n_collections_temp n_points_temp) a_o_coordinates.length) 8) }
      else
        build_coordinates a_o_coordinates { st with n_coordinates := a_o_coordinates.length }
    else if a_o_coordinates.length ≠ st.n_coordinates then
      { st with exception := some py_exception.IndexError }
    else build_coordinates a_o_coordinates st
  | _ => { st with exception := some py_exception.RuntimeError }

/-- The loop over the points of one collection (line 265), entered with the
given `i_point`; a `goto exception` leaves it. -/
def build_points {R : Type} [IntCast R] (env : build_env) (n_collections_temp n_points_temp : Nat)
    (i_collection : Nat) : List (PyObject R) → Nat → build_state R → build_state R
  | [], _, st => st
  | o_point :: rest, i_point, st =>
    if (build_point env n_collections_temp n_points_temp i_collection i_point o_point
        st).exception.isSome then
      build_point env n_collections_temp n_points_temp i_collection i_point o_point st
    else
      build_points env n_collections_temp n_points_temp i_collection rest (i_point + 1)
        (build_point env n_collections_temp n_points_temp i_collection i_point o_point st)

/-- The body of the loop over the collections (lines 182-440). -/
def build_collection {R : Type} [IntCast R] (env : build_env) (n_collections_temp : Nat)
    (i_collection : Nat) (o_collection : PyObject R) (st : build_state R) : build_state R :=
  match o_collection with
  | PyObject.sequence a_o_points =>
    if a_o_points.length = 0 then { st with exception := some py_exception.IndexError }
    else if i_collection = 0 then
      build_points env n_collections_temp a_o_points.length i_collection a_o_points 0
        { st with n_points := a_o_points.length }
    else if a_o_points.length ≠ st.n_points then
      { st with exception := some py_exception.IndexError }
    else
      build_points env n_collections_temp a_o_points.length i_collection a_o_points 0 st
  | _ => { st with exception := some py_exception.RuntimeError }

/-- The loop over the collections (line 175), entered with the given
`i_collection`. -/
def build_collections {R : Type} [IntCast R] (env : build_env) (n_collections_temp : Nat) :
    List (PyObject R) → Nat → build_state R → build_state R
  | [], _, st => st
  | o_collection :: rest, i_collection, st =>
    if (build_collection env n_collections_temp i_collection o_collection
        st).exception.isSome then
      build_collection env n_collections_temp i_collection o_collection st
    else
      build_collections env n_collections_temp rest (i_collection + 1)
        (build_collection env n_collections_temp i_collection o_collection st)

/-- What a call of `pywise_build_collections_array` leaves: the returned pointer
(`none` is the null pointer; `some (s, values)` is a block of `s` bytes whose
first doubles are `values`, in order), the three out-parameters, and the
exception that was set. -/
structure build_result (R : Type) where
  returned : Option (Nat × List R)
  n_collections : Nat
  n_points : Nat
  n_coordinates : Nat
  exception : Option py_exception

/-- The exit of `pywise_build_collections_array`: the array on the normal path,
the null pointer (after `free(a_collections)`) on the `exception` path. -/
def build_exit {R : Type} (st : build_state R) : build_result R :=
  { returned :=
      match st.exception with
      | some _ => none
      | none => st.s_a_collections.map (fun s => (s, st.stored))
    n_collections := st.n_collections
    n_points := st.n_points
    n_coordinates := st.n_coordinates
    exception := st.exception }

/-- The function `pywise_build_collections_array(o_source, &n_collections,
&n_points, &n_coordinates)`; the last three arguments are the contents of the
out-parameters before the call. -/
def pywise_build_collections_array {R : Type} [IntCast R] (env : build_env)
    (o_source : PyObject R) (n_collections n_points n_coordinates : Nat) : build_result R :=
  if env.malloc_error_buffer_ok = false then
    build_exit { n_collections := n_collections, n_points := n_points,
                 n_coordinates := n_coordinates, s_a_collections := none, stored := [],
                 exception := some py_exception.MemoryError }
  else
    match o_source with
    | PyObject.sequence a_o_collections =>
      if a_o_collections.length = 0 then
        build_exit { n_collections := n_collections, n_points := n_points,
                     n_coordinates := n_coordinates, s_a_collections := none, stored := [],
                     exception := some py_exception.IndexError }
      else
        build_exit (build_collections env a_o_collections.length a_o_collections 0
          { n_collections := a_o_collections.length, n_points := n_points,
            n_coordinates := n_coordinates, s_a_collections := none, stored := [],
            exception := none })
    | _ =>
      build_exit { n_collections := n_collections, n_points := n_points,
                   n_coordinates := n_coordinates, s_a_collections := none, stored := [],
                   exception := some py_exception.RuntimeError }

/-! ## Marshalling of points (pywise_build_points_array.c) -/

/-- Whether each of the two `malloc` calls of `pywise_build_points_array`
succeeds. -/
structure points_env where
  malloc_error_buffer_ok : Bool
  malloc_points_ok : Bool

/-- The variables of `pywise_build_points_array` that live across iterations:
the two out-parameters, the array `a_points` (`none` is the null pointer,
`some s` a block of `s` bytes), the values stored through `a_points_temp` so
far, in order, and the exception set by a `goto exception`. -/
structure points_state (R : Type) where
  n_points : Nat
  n_coordinates : Nat
  s_a_points : Option Nat
  stored : List R
  exception : Option py_exception

/-- The loop over the coordinates of one point. -/
def points_coordinates {R : Type} [IntCast R] :
    List (PyObject R) → points_state R → points_state R
  | [], st => st
  | o_coordinate :: rest, st =>
    match coordinate_value o_coordinate with
    | some v => points_coordinates rest { st with stored := st.stored ++ [v] }
    | none => { st with exception := some py_exception.TypeError }

/-- The body of the loop over the points. The length product is formed in
`Py_ssize_t` and the byte count in `size_t`, both taken modulo `2 ^ 64`;
`sizeof(double)` is `8`. -/
def points_point {R : Type} [IntCast R] (env : points_env) (n_points_temp i_point : Nat)
    (o_point : PyObject R) (st : points_state R) : points_state R :=
  match o_point with
  | PyObject.sequence a_o_coordinates =>
    if a_o_coordinates.length = 0 then { st with exception := some py_exception.IndexError }
    else if i_point = 0 then
      if env.malloc_points_ok = false then
        { st with n_coordinates := a_o_coordinates.length
                  exception := some py_exception.MemoryError }
      else
        points_coordinates a_o_coordinates
          { st with n_coordinates := a_o_coordinates.length
                    s_a_points := some (wmul (wmul n_points_temp a_o_coordinates.length) 8) }
    else if a_o_coordinates.length ≠ st.n_coordinates then
      { st with exception := some py_exception.IndexError }
    else points_coordinates a_o_coordinates st
  | _ => { st with exception := some py_exception.RuntimeError }

/-- The loop over the points, entered with the given `i_point`; a
`goto exception` leaves it. -/
def points_loop {R : Type} [IntCast R] (env : points_env) (n_points_temp : Nat) :
    List (PyObject R) → Nat → points_state R → points_state R
  | [], _, st => st
  | o_point :: rest, i_point, st =>
    if (points_point env n_points_temp i_point o_point st).exception.isSome then
      points_point env n_points_temp i_point o_point st
    else
      points_loop env n_points_temp rest (i_point + 1)
        (points_point env n_points_temp i_point o_point st)

/-- What a call of `pywise_build_points_array` leaves: the returned pointer
(`none` is the null pointer; `some (s, values)` is a block of `s` bytes whose
first doubles are `values`, in order), the two out-parameters, and the exception
that was set. -/
structure points_result (R : Type) where
  returned : Option (Nat × List R)
  n_points : Nat
  n_coordinates : Nat
  exception : Option py_exception

/-- The exit of `pywise_build_points_array`: the array on the normal path, the
null pointer (after `free(a_points)`) on the `exception` path. -/
def points_exit {R : Type} (st : points_state R) : points_result R :=
  { returned :=
      match st.exception with
      | some _ => none
      | none => st.s_a_points.map (fun s => (s, st.stored))
    n_points := st.n_points
    n_coordinates := st.n_coordinates
    exception := st.exception }

/-- The function `pywise_build_points_array(o_source, &n_points,
&n_coordinates)`; the last two arguments are the contents of the out-parameters
before the call. -/
def pywise_build_points_array {R : Type} [IntCast R] (env : points_env)
    (o_source : PyObject R) (n_points n_coordinates : Nat) : points_result R :=
  if env.malloc_error_buffer_ok = false then
    points_exit { n_points := n_points, n_coordinates := n_coordinates, s_a_points := none,
                  stored := [], exception := some py_exception.MemoryError }
  else
    match o_source with
    | PyObject.sequence a_o_points =>
      if a_o_points.length = 0 then
        points_exit { n_points := n_points, n_coordinates := n_coordinates,
                      s_a_points := none, stored := [],
                      exception := some py_exception.IndexError }
      else
        points_exit (points_loop env a_o_points.length a_o_points 0
          { n_points := a_o_points.length, n_coordinates := n_coordinates,
            s_a_points := none, stored := [], exception := none })
    | _ =>
      points_exit { n_points := n_points, n_coordinates := n_coordinates, s_a_points := none,
                    stored := [], exception := some py_exception.RuntimeError }

/-! ## Translation of return codes (pywise_exception.c) -/

/-- The function
`pywise_set_python_exception_from_pairwise_calculations_return_code(n_return)`:
the exceptions it sets with `PyErr_Format`, in order (the messages are left
out). The argument is a C `int`. -/
def pywise_set_python_exception_from_pairwise_calculations_return_code (n_return : Int) :
    List py_exception :=
  if n_return = (PAIRWISE_RETURN_MALLOC_FAIL : Int) then [py_exception.MemoryError]
  else if n_return = (PAIRWISE_RETURN_PTHREAD_CREATE_EAGAIN : Int) then
    [py_exception.RuntimeError]
  else if n_return = (PAIRWISE_RETURN_PTHREAD_CREATE_EINVAL : Int) then
    [py_exception.RuntimeError]
  else if n_return = (PAIRWISE_RETURN_PTHREAD_CREATE_EPERM : Int) then
    [py_exception.RuntimeError]
  else if n_return = (PAIRWISE_RETURN_PTHREAD_CREATE_UNKNOWN : Int) then
    [py_exception.RuntimeError]
  else if n_return = (PAIRWISE_RETURN_PTHREAD_JOIN_EDEADLK : Int) then
    [py_exception.RuntimeError]
  else if n_return = (PAIRWISE_RETURN_PTHREAD_JOIN_EINVAL : Int) then
    [py_exception.RuntimeError]
  else if n_return = (PAIRWISE_RETURN_PTHREAD_JOIN_ESRCH : Int) then
    [py_exception.RuntimeError]
  else if n_return = (PAIRWISE_RETURN_PTHREAD_JOIN_UNKNOWN : Int) then
    [py_exception.RuntimeError]
  else if n_return = (PAIRWISE_RETURN_ERROR_NTHREADS : Int) then [py_exception.ValueError]
  else []

/-- The function
`pywise_set_python_exception_from_pairwise_index_return_code(n_return)`: the
exceptions it sets with `PyErr_Format`, in order. -/
def pywise_set_python_exception_from_pairwise_index_return_code (n_return : Int) :
    List py_exception :=
  if n_return = (PAIRWISE_RETURN_ERROR_NCOLLECTIONS : Int) then [py_exception.ValueError]
  else if n_return = (PAIRWISE_RETURN_ERROR_ICOLLECTIONA : Int) then [py_exception.IndexError]
  else if n_return = (PAIRWISE_RETURN_ERROR_ICOLLECTIONB : Int) then [py_exception.IndexError]
  else if n_return = (PAIRWISE_RETURN_ERROR_ICOLLECTIONSAME : Int) then
    [py_exception.IndexError]
  else []

/-! ## Specification-side definitions -/

/-- An `ssize_t` value. -/
def in_ssize (x : Int) : Prop := -(2 ^ 63 : Int) ≤ x ∧ x < (2 ^ 63 : Int)

instance (x : Int) : Decidable (in_ssize x) := by
  unfold in_ssize
  infer_instance

/-- The resolved value of a signed index as the specification words it:
`a + n` when `a < 0`, else `a`. -/
def spec_resolved (n : Nat) (a : Int) : Int := if a < 0 then a + (n : Int) else a

/-- Number of pairs `(r, j)`, `r < j < n`, whose first index `r` is below `i`:
`i * (2 n - i - 1) / 2`. -/
def tri (n i : Nat) : Nat := i * (2 * n - i - 1) / 2

/-- The closed-form offset `min * (2 n - min - 1) / 2 + (max - min - 1)`. -/
def pair_offset (n i j : Nat) : Nat := tri n i + (j - i - 1)

/-- The scalar stored for the pair `(i, j)` by the worker body: the kernel
applied to the two collection pointers `a_collections + i * n_points *
n_coordinates` and `a_collections + j * n_points * n_coordinates`. -/
def kernel_at {D : Type} (s : pairwise_as D) (i j : Nat) : D :=
  s.f_calculation s.n_points s.n_coordinates
    (ptr_add s.a_collections (wmul (wmul i s.n_points) s.n_coordinates))
    (ptr_add s.a_collections (wmul (wmul j s.n_points) s.n_coordinates))

/-- The pairs `(i, j)` with `lo <= i < hi` and `i < j < n`, by ascending `i`
and, within each `i`, ascending `j`. -/
def row_pairs (n lo hi : Nat) : List (Nat × Nat) :=
  (List.range' lo (hi - lo)).flatMap
    (fun i => (List.range' (i + 1) (n - (i + 1))).map (fun j => (i, j)))

/-- The caller's contract on `a_collections`: an array of
`n_collections * n_points * n_coordinates` doubles (8 bytes each) is an object
of the 64-bit address space. -/
def collections_fit (n_collections n_points n_coordinates : Nat) : Prop :=
  8 * (n_collections * n_points * n_coordinates) < WORD

/-- The caller's contract on `a_results`: an array of
`n_collections * (n_collections - 1) / 2` doubles (8 bytes each) is an object of
the 64-bit address space. -/
def results_fit (n_collections : Nat) : Prop :=
  8 * (n_collections * (n_collections - 1) / 2) < WORD

instance (n np nc : Nat) : Decidable (collections_fit n np nc) := by
  unfold collections_fit
  infer_instance

instance (n : Nat) : Decidable (results_fit n) := by
  unfold results_fit
  infer_instance

/-- An exact square root on the non-negative elements of `R`. -/
def exact_sqrt {R : Type} [LinearOrderedField R] (sqrt : R → R) : Prop :=
  ∀ x : R, 0 ≤ x → 0 ≤ sqrt x ∧ sqrt x * sqrt x = x

/-- The loop invariant of `_pairwise_populate_argument_sets` before iteration
`k` (`c` is the ideal share, `T` the number of argument sets). -/
def populate_inv {R : Type} [LinearOrderedField R] (n T : Nat) (c : R) (k : Nat)
    (st : populate_state R) : Prop :=
  1 ≤ st.n_collections_remaining ∧
  (2 * st.n_collections_remaining - 1) * (2 * st.n_collections_remaining - 1) =
    1 + 8 * ((T : R) - (k : R)) * c ∧
  (st.i_collection_upper : R) + st.n_collections_remaining ≤ (n : R) ∧
  st.i_collection_lower ≤ st.i_collection_upper ∧
  (2 * n < WORD → st.i_results_offset = tri n st.i_collection_lower)

/-- The argument set written for the rows `[lo, hi)`, whose results start at
the offset of row `lo`. -/
def argument_set_of {D : Type} (f_calculation : Nat → Nat → (Nat → D) → (Nat → D) → D)
    (n_collections n_points n_coordinates : Nat) (a_collections : Nat → D) (a_results : Nat)
    (off lo hi : Nat) : pairwise_as D :=
  { f_calculation := f_calculation
    a_collections := a_collections
    a_results := a_results + off
    n_collections := n_collections
    n_points := n_points
    n_coordinates := n_coordinates
    i_collection_lower := lo
    i_collection_upper := hi }

/-- Row bounds `L k <= U k <= n` of `T` consecutive ranges that start at row `0`
and end at row `n`. -/
def is_chain (n T : Nat) (L U : Nat → Nat) : Prop :=
  L 0 = 0 ∧ (∀ k, k + 1 < T → L (k + 1) = U k) ∧ (∀ k, k < T → L k ≤ U k ∧ U k ≤ n) ∧
  (1 ≤ T → U (T - 1) = n)

/-- The `T` argument sets with result offsets `O k` and row bounds `L k`, `U k`. -/
def partition_of {D : Type} (f_calculation : Nat → Nat → (Nat → D) → (Nat → D) → D)
    (n_collections n_points n_coordinates : Nat) (a_collections : Nat → D) (a_results : Nat)
    (O L U : Nat → Nat) (T : Nat) : List (pairwise_as D) :=
  (List.range T).map (fun k => argument_set_of f_calculation n_collections n_points
    n_coordinates a_collections a_results (O k) (L k) (U k))

/-- Rows covered by the first `k` ranges of a chain: `[0, covered U k)`. -/
def covered (U : Nat → Nat) (k : Nat) : Nat := if k = 0 then 0 else U (k - 1)

/-- Number of pairs `(i, j)`, `i < j < n`, with `lo <= i < hi`. -/
def pair_count (n lo hi : Nat) : Nat :=
  ((Finset.range n ×ˢ Finset.range n).filter
    (fun p : Nat × Nat => lo ≤ p.1 ∧ p.1 < hi ∧ p.1 < p.2)).card

/-- The calls that `_pairwise_launch` makes on threads. -/
def is_thread_call : launch_event → Bool
  | launch_event.create _ _ => true
  | launch_event.join _ _ => true
  | launch_event.cancel _ => true
  | _ => false

/-- Every scratch array that was allocated is released exactly once, after its
allocation, and no array is released that was not allocated: for each of the
two arrays the events hold as many `free` as successful `malloc`, at most one,
and a `free` comes after the `malloc`. -/
def scratch_released (ev : List launch_event) : Prop :=
  (ev.count launch_event.free_argument_sets = ev.count (launch_event.malloc_argument_sets true) ∧
    ev.count (launch_event.malloc_argument_sets true) ≤ 1 ∧
    (launch_event.free_argument_sets ∈ ev →
      [launch_event.malloc_argument_sets true, launch_event.free_argument_sets].Sublist ev)) ∧
  (ev.count launch_event.free_threads = ev.count (launch_event.malloc_threads true) ∧
    ev.count (launch_event.malloc_threads true) ≤ 1 ∧
    (launch_event.free_threads ∈ ev →
      [launch_event.malloc_threads true, launch_event.free_threads].Sublist ev))

/-- The Python object `[[[k, ...], ...], ...]` made of three levels of
sequences over the given coordinate objects. -/
def py_source {R : Type} (vals : List (List (List (PyObject R)))) : PyObject R :=
  PyObject.sequence (vals.map (fun c => PyObject.sequence (c.map PyObject.sequence)))

/-- The values of the coordinates of a point, of a collection and of a set of
collections, in row-major order. -/
def point_values {R : Type} [IntCast R] (p : List (PyObject R)) : List R :=
  p.filterMap coordinate_value

def collection_values {R : Type} [IntCast R] (c : List (List (PyObject R))) : List R :=
  c.flatMap point_values

def flat_values {R : Type} [IntCast R] (vals : List (List (List (PyObject R)))) : List R :=
  vals.flatMap collection_values

/-- The view of a buffer of doubles that holds the values `l` from its start
(`0` beyond them). -/
def flat_buffer {R : Type} [LinearOrderedField R] (l : List R) : Nat → R :=
  fun t => l.getD t 0

/-- The root-mean-square deviation as the specification writes it:
`sqrt((1 / n_points) * sum over p, k of (A[p * n_coordinates + k] -
B[p * n_coordinates + k]) ^ 2)`. -/
def rmsd_spec {R : Type} [LinearOrderedField R] (sqrt : R → R) (n_points n_coordinates : Nat)
    (A B : Nat → R) : R :=
  sqrt ((1 / (n_points : R)) * ∑ p in Finset.range n_points, ∑ k in Finset.range n_coordinates,
    (A (p * n_coordinates + k) - B (p * n_coordinates + k)) ^ 2)

/-- The Euclidean distance as the specification writes it:
`sqrt(sum over k of (a_k - b_k) ^ 2)`. -/
def distance_spec {R : Type} [LinearOrderedField R] (sqrt : R → R) (n_coordinates : Nat)
    (a b : Nat → R) : R :=
  sqrt (∑ k in Finset.range n_coordinates, (a k - b k) ^ 2)

/-! ## The Python entry points (pywise_rmsds.c, pywise_distances.c) -/

/-- The preprocessor constant `PYWISE_DEFAULT_THREADS` (pywise_common.h). -/
def PYWISE_DEFAULT_THREADS : Int := 1

/-- The answer of `PyArg_ParseTupleAndKeywords` with the format `"O|n"`: a
failure (the interpreter has set its exception), or the first argument and the
optional `threads` as a `Py_ssize_t` (`none` when the argument is left out). -/
inductive py_arguments (R : Type) where
  | parse_failure
  | parsed (o : PyObject R) (threads : Option Int)

/-- What an entry point does to its surroundings, in the order it does it:
the call of the marshalling function (`pywise_build_collections_array` or
`pywise_build_points_array`), the allocation of the result array with its byte
count, the call into libpairwise (`pairwise_rmsds` or `pairwise_distances`)
with the extents and the number of threads it is given, the releases of the two
arrays, and the wrapping of the result array into a NumPy array of the given
length. -/
inductive entry_event where
  | build_array
  | malloc_results (s : Nat) (ok : Bool)
  | calculate (n_collections n_points n_coordinates n_threads : Nat)
  | free_input
  | free_results
  | new_array (l : Nat)
  deriving DecidableEq

/-- The answers of the surroundings to one call of `pywise_rmsds`: those to the
marshalling and to the launcher, whether the allocation of the result array
succeeds, the content of the allocated block, and the contents of the locals
`n_collections`, `n_points`, `n_coordinates` before they are assigned. -/
structure rmsds_env (R : Type) where
  build : build_env
  malloc_results_ok : Bool
  launch : launch_env
  results : Nat → R
  n_collections : Nat
  n_points : Nat
  n_coordinates : Nat

/-- The answers of the surroundings to one call of `pywise_distances`. -/
structure distances_env (R : Type) where
  build : points_env
  malloc_results_ok : Bool
  launch : launch_env
  results : Nat → R
  n_points : Nat
  n_coordinates : Nat

/-- The observable result of an entry point: the returned NumPy array (`none` is
`NULL`), the exception set by the code of pywise on the way (`none` also on a
parse failure, where the exception is the interpreter's), and the events. -/
structure entry_outcome (R : Type) where
  returned : Option (List R)
  exception : Option py_exception
  events : List entry_event

/-- The function `pywise_rmsds(self, values, keys)`, from the answer of the
argument parser on. The length `0.5 * n_collections * (n_collections - 1)` is
formed in `double` and truncated to a `size_t`; the marshalled block is passed
on as a view (`flat_buffer`); `PyArray_SimpleNewFromData` is taken to succeed. -/
def pywise_rmsds {R : Type} [LinearOrderedField R] [FloorSemiring R] (env : rmsds_env R)
    (sqrt : R → R) (args : py_arguments R) : entry_outcome R :=
  match args with
  | py_arguments.parse_failure => { returned := none, exception := none, events := [] }
  | py_arguments.parsed o_collections threads =>
    let n_threads : Int :=
      match threads with
      | some t => t
      | none => PYWISE_DEFAULT_THREADS
    if n_threads < 0 then
      { returned := none, exception := some py_exception.ValueError, events := [] }
    else if n_threads = 0 then
      { returned := none, exception := some py_exception.NotImplementedError, events := [] }
    else
      let built := pywise_build_collections_array env.build o_collections env.n_collections
        env.n_points env.n_coordinates
      match built.returned with
      | none =>
        { returned := none, exception := built.exception, events := [entry_event.build_array] }
      | some (_, values) =>
        let l_a_rmsds : Nat := Nat.floor ((1 / 2 : R) * (built.n_collections : R) *
          ((wsub built.n_collections 1 : Nat) : R))
        let s_a_rmsds := wmul l_a_rmsds 8
        if env.malloc_results_ok = false then
          { returned := none
            exception := some py_exception.MemoryError
            events := [entry_event.build_array, entry_event.malloc_results s_a_rmsds false,
              entry_event.free_input] }
        else
          let out := pairwise_rmsds env.launch sqrt built.n_collections built.n_points
            built.n_coordinates (flat_buffer values) env.results (to_size n_threads)
          if out.n_return = 0 then
            { returned := some ((List.range l_a_rmsds).map (out.a_results.getD env.results))
              exception := none
              events := [entry_event.build_array, entry_event.malloc_results s_a_rmsds true,
                entry_event.calculate built.n_collections built.n_points built.n_coordinates
                  (to_size n_threads),
                entry_event.free_input, entry_event.new_array l_a_rmsds] }
          else
            { returned := none
              exception := (pywise_set_python_exception_from_pairwise_calculations_return_code
                (out.n_return : Int)).getLast?
              events := [entry_event.build_array, entry_event.malloc_results s_a_rmsds true,
                entry_event.calculate built.n_collections built.n_points built.n_coordinates
                  (to_size n_threads),
                entry_event.free_input, entry_event.free_results] }

/-- The function `pywise_distances(self, values, keys)`, from the answer of the
argument parser on; every point is passed to libpairwise as a collection of one
point (`calculate n_points 1 n_coordinates n_threads`). -/
def pywise_distances {R : Type} [LinearOrderedField R] [FloorSemiring R]
    (env : distances_env R) (sqrt : R → R) (args : py_arguments R) : entry_outcome R :=
  match args with
  | py_arguments.parse_failure => { returned := none, exception := none, events := [] }
  | py_arguments.parsed o_points threads =>
    let n_threads : Int :=
      match threads with
      | some t => t
      | none => PYWISE_DEFAULT_THREADS
    if n_threads < 0 then
      { returned := none, exception := some py_exception.ValueError, events := [] }
    else if n_threads = 0 then
      { returned := none, exception := some py_exception.NotImplementedError, events := [] }
    else
      let built := pywise_build_points_array env.build o_points env.n_points env.n_coordinates
      match built.returned with
      | none =>
        { returned := none, exception := built.exception, events := [entry_event.build_array] }
      | some (_, values) =>
        let l_a_distances : Nat := Nat.floor ((1 / 2 : R) * (built.n_points : R) *
          ((wsub built.n_points 1 : Nat) : R))
        let s_a_distances := wmul l_a_distances 8
        if env.malloc_results_ok = false then
          { returned := none
            exception := some py_exception.MemoryError
            events := [entry_event.build_array, entry_event.malloc_results s_a_distances false,
              entry_event.free_input] }
        else
          let out := pairwise_distances env.launch sqrt built.n_points built.n_coordinates
            (flat_buffer values) env.results (to_size n_threads)
          if out.n_return = 0 then
            { returned := some ((List.range l_a_distances).map
                (out.a_results.getD env.results))
              exception := none
              events := [entry_event.build_array,
                entry_event.malloc_results s_a_distances true,
                entry_event.calculate built.n_points 1 built.n_coordinates (to_size n_threads),
                entry_event.free_input, entry_event.new_array l_a_distances] }
          else
            { returned := none
              exception := (pywise_set_python_exception_from_pairwise_calculations_return_code
                (out.n_return : Int)).getLast?
              events := [entry_event.build_array,
                entry_event.malloc_results s_a_distances true,
                entry_event.calculate built.n_points 1 built.n_coordinates (to_size n_threads),
                entry_event.free_input, entry_event.free_results] }

/-! ## Lemmas on machine words -/

theorem WORD_eq : WORD = 18446744073709551616 := by decide

theorem to_size_of_nonneg {x : Int} (h0 : 0 ≤ x) (h1 : x < (WORD : Int)) :
    to_size x = x.toNat := by
  unfold to_size
  rw [Int.emod_eq_of_lt h0 h1]

theorem to_size_natCast {k : Nat} (h : k < WORD) : to_size (k : Int) = k := by
  rw [to_size_of_nonneg (Int.natCast_nonneg k) (by exact_mod_cast h)]
  simp

theorem to_size_of_neg {x : Int} (h0 : x < 0) (h1 : -(WORD : Int) ≤ x) :
    to_size x = (x + (WORD : Int)).toNat := by
  unfold to_size
  have h : x % (WORD : Int) = x + (WORD : Int) := by
    rw [← Int.add_mul_emod_self (a := x) (b := 1) (c := (WORD : Int))]
    rw [one_mul]
    exact Int.emod_eq_of_lt (by omega) (by omega)
  rw [h]

theorem to_ssize_of_lt {x : Nat} (h : x < 2 ^ 63) : to_ssize x = (x : Int) := by
  have hW : x < WORD := by rw [WORD_eq]; omega
  unfold to_ssize
  rw [Nat.mod_eq_of_lt hW, if_pos h]

theorem to_ssize_of_ge {x : Nat} (h : 2 ^ 63 ≤ x) (hW : x < WORD) :
    to_ssize x = (x : Int) - (WORD : Int) := by
  unfold to_ssize
  rw [Nat.mod_eq_of_lt hW, if_neg (by omega)]

theorem wsub_of_le {x y : Nat} (h : y ≤ x) (hx : x < WORD) : wsub x y = x - y := by
  unfold wsub
  have hy : y < WORD := lt_of_le_of_lt h hx
  rw [Nat.mod_eq_of_lt hy]
  have : x + (WORD - y) = (x - y) + WORD := by omega
  rw [this, Nat.add_mod_right, Nat.mod_eq_of_lt (by omega)]

theorem wsub_of_lt {x y : Nat} (h : x < y) (hy : y < WORD) : wsub x y = x + WORD - y := by
  unfold wsub
  rw [Nat.mod_eq_of_lt hy, Nat.mod_eq_of_lt (by omega)]
  omega

theorem wadd_of_lt {x y : Nat} (h : x + y < WORD) : wadd x y = x + y := by
  unfold wadd
  exact Nat.mod_eq_of_lt h

theorem wmul_of_lt {x y : Nat} (h : x * y < WORD) : wmul x y = x * y := by
  unfold wmul
  exact Nat.mod_eq_of_lt h

/-- The product of two negated words is the product of the words, modulo `WORD`. -/
theorem wmul_neg_neg {m k : Nat} (hm : m ≤ WORD) (hk : k ≤ WORD) (hmk : m + k ≤ WORD) :
    ((WORD - m) * (WORD - k)) % WORD = (m * k) % WORD := by
  have h : (WORD - m) * (WORD - k) = m * k + WORD * (WORD - m - k) := by
    zify [hm, hk, hmk, (by omega : m ≤ WORD - 0), (by omega : k ≤ WORD - m)]
    ring
  rw [h, Nat.add_mul_mod_self_left]

/-! ## The triangular count -/

theorem tri_zero (n : Nat) : tri n 0 = 0 := by simp [tri]

theorem tri_succ {n i : Nat} (h : i < n) : tri n (i + 1) = tri n i + (n - 1 - i) := by
  unfold tri
  have e : (i + 1) * (2 * n - (i + 1) - 1) = i * (2 * n - i - 1) + 2 * (n - 1 - i) := by
    obtain ⟨d, rfl⟩ : ∃ d, n = i + 1 + d := ⟨n - (i + 1), by omega⟩
    have h1 : 2 * (i + 1 + d) - (i + 1) - 1 = i + 2 * d := by omega
    have h2 : 2 * (i + 1 + d) - i - 1 = i + 1 + 2 * d := by omega
    have h3 : i + 1 + d - 1 - i = d := by omega
    rw [h1, h2, h3]
    ring
  rw [e, Nat.add_mul_div_left _ _ (by decide : 0 < 2)]

theorem tri_mono {n i k : Nat} (hik : i ≤ k) (hk : k ≤ n) : tri n i ≤ tri n k := by
  induction k with
  | zero =>
    have : i = 0 := by omega
    subst this
    exact le_refl _
  | succ k ih =>
    rcases Nat.eq_or_lt_of_le hik with h | h
    · rw [h]
    · have := ih (by omega) (by omega)
      rw [tri_succ (by omega : k < n)]
      omega

theorem tri_top (n : Nat) : tri n (n - 1) = n * (n - 1) / 2 := by
  unfold tri
  rcases n with _ | n
  · simp
  · have : 2 * (n + 1) - (n + 1 - 1) - 1 = n + 1 := by omega
    rw [this]
    simp [Nat.mul_comm]

theorem tri_self (n : Nat) : tri n n = n * (n - 1) / 2 := by
  unfold tri
  have : 2 * n - n - 1 = n - 1 := by omega
  rw [this]

/-- Twice the triangular count, without the division. -/
theorem two_mul_tri {n i : Nat} (h : i ≤ n) : 2 * tri n i = i * (2 * n - i - 1) := by
  induction i with
  | zero => simp [tri]
  | succ i ih =>
    rw [tri_succ (by omega : i < n), Nat.mul_add, ih (by omega)]
    obtain ⟨d, rfl⟩ : ∃ d, n = i + 1 + d := ⟨n - (i + 1), by omega⟩
    have h1 : 2 * (i + 1 + d) - (i + 1) - 1 = i + 2 * d := by omega
    have h2 : 2 * (i + 1 + d) - i - 1 = i + 1 + 2 * d := by omega
    have h3 : i + 1 + d - 1 - i = d := by omega
    rw [h1, h2, h3]
    ring

theorem pair_offset_lt_row {n i j : Nat} (hij : i < j) (hj : j < n) :
    pair_offset n i j < tri n (i + 1) := by
  rw [tri_succ (by omega : i < n)]
  unfold pair_offset
  omega

theorem pair_offset_lt {n i j : Nat} (hij : i < j) (hj : j < n) :
    pair_offset n i j < n * (n - 1) / 2 := by
  have h1 := pair_offset_lt_row hij hj
  have h2 : tri n (i + 1) ≤ tri n (n - 1) := tri_mono (by omega) (by omega)
  rw [tri_top] at h2
  omega

theorem pair_offset_inj {n i j k l : Nat} (hij : i < j) (hj : j < n) (hkl : k < l) (hl : l < n)
    (h : pair_offset n i j = pair_offset n k l) : i = k ∧ j = l := by
  have key : ∀ {i j k l : Nat}, i < j → j < n → k < l → l < n → i < k →
      pair_offset n i j < pair_offset n k l := by
    intro i j k l hij hj hkl hl hik
    have h1 := pair_offset_lt_row hij hj
    have h2 : tri n (i + 1) ≤ tri n k := tri_mono (by omega) (by omega)
    have h3 : tri n k ≤ pair_offset n k l := Nat.le_add_right _ _
    omega
  rcases Nat.lt_trichotomy i k with hlt | heq | hgt
  · have := key hij hj hkl hl hlt
    omega
  · subst heq
    unfold pair_offset at h
    omega
  · have := key hkl hl hij hj hgt
    omega

theorem pair_offset_surj {n : Nat} (i : Nat) (hi : i ≤ n - 1) :
    ∀ p, p < tri n i → ∃ r j, r < j ∧ j < n ∧ r < i ∧ pair_offset n r j = p := by
  induction i with
  | zero => intro p hp; rw [tri_zero] at hp; omega
  | succ i ih =>
    intro p hp
    rw [tri_succ (by omega : i < n)] at hp
    by_cases hlt : p < tri n i
    · obtain ⟨r, j, h1, h2, h3, h4⟩ := ih (by omega) p hlt
      exact ⟨r, j, h1, h2, by omega, h4⟩
    · refine ⟨i, i + 1 + (p - tri n i), by omega, by omega, by omega, ?_⟩
      unfold pair_offset
      omega

/-! ## Lemmas on `pairwise_index` -/

theorem to_ssize_range (x : Nat) : in_ssize (to_ssize x) := by
  have hlt : x % WORD < WORD := Nat.mod_lt _ (by decide)
  unfold to_ssize in_ssize
  generalize x % WORD = y at hlt
  rw [WORD_eq] at hlt ⊢
  split
  · constructor <;> omega
  · constructor <;> push_cast <;> omega

theorem resolve_index_range {n : Nat} {a : Int} (ha : in_ssize a) :
    in_ssize (resolve_index n a) := by
  unfold resolve_index
  split
  · exact to_ssize_range _
  · exact ha

theorem resolve_index_of_nonneg {n : Nat} {a : Int} (ha : 0 ≤ a) : resolve_index n a = a := by
  unfold resolve_index
  rw [if_neg (by omega)]

/-- For a negative index whose shifted value is a non-negative `ssize_t`, the
machine shift is the mathematical sum. -/
theorem resolve_index_of_neg {n : Nat} {a : Int} (ha : a < 0) (hlo : -(2 ^ 63 : Int) ≤ a)
    (h0 : 0 ≤ a + (n : Int)) (h1 : a + (n : Int) < 2 ^ 63) :
    resolve_index n a = a + (n : Int) := by
  unfold resolve_index
  rw [if_pos ha, to_size_of_neg ha (by rw [WORD_eq]; push_cast; omega)]
  have e : wadd (a + (WORD : Int)).toNat n = (a + (n : Int)).toNat := by
    unfold wadd
    have : (a + (WORD : Int)).toNat + n = (a + (n : Int)).toNat + WORD := by
      rw [WORD_eq]; push_cast; omega
    rw [this, Nat.add_mod_right]
    apply Nat.mod_eq_of_lt
    rw [WORD_eq]
    omega
  rw [e, to_ssize_of_lt (by omega)]
  omega

theorem resolve_index_eq_spec {n : Nat} {a : Int} (hn : n ≤ 2 ^ 63)
    (h0 : 0 ≤ spec_resolved n a) (h1 : spec_resolved n a < (n : Int)) :
    resolve_index n a = spec_resolved n a := by
  unfold spec_resolved at *
  by_cases ha : a < 0
  · rw [if_pos ha] at h0 h1 ⊢
    exact resolve_index_of_neg ha (by omega) h0 (by omega)
  · rw [if_neg ha]
    exact resolve_index_of_nonneg (by omega)

theorem index_out_of_bounds_eq_false {n : Nat} {r : Int} (hr : in_ssize r) :
    index_out_of_bounds n r = false ↔ 0 ≤ r ∧ r < (n : Int) := by
  unfold index_out_of_bounds
  unfold in_ssize at hr
  by_cases h0 : r < 0
  · simp [h0]
  · have hs : to_size r = r.toNat := to_size_of_nonneg (by omega) (by rw [WORD_eq]; push_cast; omega)
    simp [h0, hs]
    omega

/-- The value returned on the success path. -/
theorem pairwise_index_success {n : Nat} {a b : Int} (old : Nat) (hn : 2 ≤ n)
    (ha : index_out_of_bounds n (resolve_index n a) = false)
    (hb : index_out_of_bounds n (resolve_index n b) = false)
    (hab : resolve_index n a ≠ resolve_index n b) :
    pairwise_index n a b old =
      (PAIRWISE_RETURN_SUCCESS,
        index_working n
          (if resolve_index n a < resolve_index n b then to_size (resolve_index n a)
            else to_size (resolve_index n b))
          (if resolve_index n a < resolve_index n b then to_size (resolve_index n b)
            else to_size (resolve_index n a))) := by
  unfold pairwise_index
  rw [if_neg (by omega : ¬ n < 2)]
  simp [ha, hb, hab]

/-- Below `2 ^ 32` collections no intermediate value of the offset arithmetic
wraps: the machine result is the closed form. -/
theorem index_working_exact {n m M : Nat} (hn : n ≤ 2 ^ 32) (hmM : m < M) (hM : M < n) :
    index_working n m M = pair_offset n m M := by
  have hW := WORD_eq
  obtain ⟨d, rfl⟩ : ∃ d, n = m + 2 + d := ⟨n - (m + 2), by omega⟩
  have hk : 2 * (m + 2 + d) - m - 1 = m + 3 + 2 * d := by omega
  have hprod : m * (m + 3 + 2 * d) < WORD := by
    have h1 : m * (m + 3 + 2 * d) < (m + 2 + d) * (m + 2 + d) := by nlinarith
    have h2 : (m + 2 + d) * (m + 2 + d) ≤ 2 ^ 32 * 2 ^ 32 := Nat.mul_le_mul hn hn
    rw [hW]
    omega
  have hoff : pair_offset (m + 2 + d) m M < WORD := by
    have h1 := pair_offset_lt hmM hM
    have h2 : (m + 2 + d) * (m + 2 + d - 1) ≤ 2 ^ 32 * 2 ^ 32 :=
      Nat.mul_le_mul hn (by omega)
    rw [hW]
    omega
  unfold index_working
  have e1 : wmul 2 (m + 2 + d) = 2 * (m + 2 + d) := wmul_of_lt (by omega)
  have e2 : wsub m (2 * (m + 2 + d)) = m + WORD - 2 * (m + 2 + d) :=
    wsub_of_lt (by omega) (by omega)
  have e3 : wadd (m + WORD - 2 * (m + 2 + d)) 1 = WORD - (m + 3 + 2 * d) := by
    rw [wadd_of_lt (by omega)]
    omega
  have e4 : wmul (wneg m) (WORD - (m + 3 + 2 * d)) = m * (m + 3 + 2 * d) := by
    unfold wmul wneg
    rw [Nat.mod_eq_of_lt (by omega : m < WORD)]
    rcases Nat.eq_zero_or_pos m with h0 | h0
    · subst h0
      simp
    · rw [Nat.mod_eq_of_lt (by omega : WORD - m < WORD),
        wmul_neg_neg (by omega) (by omega) (by omega), Nat.mod_eq_of_lt hprod]
  have e5 : wsub (wsub M m) 1 = M - m - 1 := by
    have h1 : wsub M m = M - m := wsub_of_le (by omega) (by omega)
    rw [h1]
    exact wsub_of_le (by omega) (by omega)
  simp only [e1, e2, e3, e4, e5]
  have e6 : m * (m + 3 + 2 * d) / 2 = tri (m + 2 + d) m := by
    unfold tri
    rw [hk]
  rw [e6]
  exact wadd_of_lt hoff

/-- On ordered in-range indices below `2 ^ 32` collections. -/
theorem pairwise_index_of_lt {n i j : Nat} (old : Nat) (hn : n ≤ 2 ^ 32) (hij : i < j)
    (hj : j < n) :
    pairwise_index n (i : Int) (j : Int) old = (PAIRWISE_RETURN_SUCCESS, pair_offset n i j) := by
  have hW := WORD_eq
  have ri : resolve_index n (i : Int) = (i : Int) := resolve_index_of_nonneg (by omega)
  have rj : resolve_index n (j : Int) = (j : Int) := resolve_index_of_nonneg (by omega)
  have si : in_ssize (i : Int) := by unfold in_ssize; omega
  have sj : in_ssize (j : Int) := by unfold in_ssize; omega
  rw [pairwise_index_success old (by omega)
    (by rw [ri, index_out_of_bounds_eq_false si]; omega)
    (by rw [rj, index_out_of_bounds_eq_false sj]; omega)
    (by rw [ri, rj]; omega)]
  rw [ri, rj, if_pos (by omega), if_pos (by omega), to_size_natCast (by omega),
    to_size_natCast (by omega), index_working_exact hn hij hj]

/-- The result depends on the signed indices only through their resolved values. -/
theorem pairwise_index_congr {n : Nat} {a b c d : Int} (old : Nat)
    (h1 : resolve_index n a = resolve_index n c) (h2 : resolve_index n b = resolve_index n d) :
    pairwise_index n a b old = pairwise_index n c d old := by
  unfold pairwise_index
  simp only [h1, h2]

/-- On the success path the two argument orders compute the same pair. -/
theorem pairwise_index_swap {n : Nat} {a b : Int} (old : Nat) (hn : 2 ≤ n)
    (ha : index_out_of_bounds n (resolve_index n a) = false)
    (hb : index_out_of_bounds n (resolve_index n b) = false)
    (hab : resolve_index n a ≠ resolve_index n b) :
    pairwise_index n a b old = pairwise_index n b a old := by
  rw [pairwise_index_success old hn ha hb hab, pairwise_index_success old hn hb ha (Ne.symm hab)]
  rcases lt_or_gt_of_ne hab with h | h
  · rw [if_pos h, if_pos h, if_neg (by omega), if_neg (by omega)]
  · rw [if_neg (by omega), if_neg (by omega), if_pos h, if_pos h]

theorem pair_offset_cast {n i j : Nat} (hij : i < j) (hj : j < n) :
    ((pair_offset n i j : Nat) : Int) =
      (i : Int) * (2 * (n : Int) - (i : Int) - 1) / 2 + ((j : Int) - (i : Int) - 1) := by
  have h1 : ((2 * n - i - 1 : Nat) : Int) = 2 * (n : Int) - (i : Int) - 1 := by omega
  have h2 : ((j - i - 1 : Nat) : Int) = (j : Int) - (i : Int) - 1 := by omega
  unfold pair_offset tri
  rw [Nat.cast_add, Int.natCast_div, Nat.cast_mul, h1, h2]
  rfl

/-- The smallest collection count at which the 64-bit product wraps. -/
theorem pairwise_index_wraps :
    pairwise_index 4294967297 4294967295 4294967296 0 = (PAIRWISE_RETURN_SUCCESS, 2147483647) := by
  decide

theorem pairwise_index_wraps_collision :
    pairwise_index 4294967297 0 2147483648 0 = (PAIRWISE_RETURN_SUCCESS, 2147483647) := by
  decide

/-! ## Results on `pairwise_index` -/

/-- C1 (as stated, refuted): for every `size_t` count `n >= 2` and `ssize_t` indices whose
resolved values lie in `[0, n)` and differ, the stored offset would be the closed
form; at `n = 2 ^ 32 + 1`, `a = 2 ^ 32 - 1`, `b = 2 ^ 32` the 64-bit product wraps
and the stored offset is `2 ^ 31 - 1`. -/
theorem pairwise_index_closed_form_unbounded_fails :
    ¬ ∀ (n : Nat) (a b : Int) (old : Nat), 2 ≤ n → n < WORD → in_ssize a → in_ssize b →
      0 ≤ spec_resolved n a → spec_resolved n a < (n : Int) →
      0 ≤ spec_resolved n b → spec_resolved n b < (n : Int) →
      spec_resolved n a ≠ spec_resolved n b →
      (pairwise_index n a b old).1 = PAIRWISE_RETURN_SUCCESS ∧
      ((pairwise_index n a b old).2 : Int) =
        min (spec_resolved n a) (spec_resolved n b) *
            (2 * (n : Int) - min (spec_resolved n a) (spec_resolved n b) - 1) / 2 +
          (max (spec_resolved n a) (spec_resolved n b) -
            min (spec_resolved n a) (spec_resolved n b) - 1) := by
  intro h
  have h1 := h 4294967297 4294967295 4294967296 0 (by decide) (by decide) (by decide)
    (by decide) (by decide) (by decide) (by decide) (by decide) (by decide)
  revert h1
  decide

/-- C1 (amended): for every `n` with `2 <= n <= 2 ^ 32` and every pair of signed
indices `a`, `b` whose resolved values (`a + n` when `a < 0`, `b + n` when `b < 0`)
lie in `[0, n)` and differ, `pairwise_index` returns success and stores
`min * (2 n - min - 1) / 2 + (max - min - 1)`. -/
theorem pairwise_index_closed_form (n : Nat) (a b : Int) (old : Nat)
    (hn : 2 ≤ n) (hbound : n ≤ 2 ^ 32)
    (ha0 : 0 ≤ spec_resolved n a) (ha1 : spec_resolved n a < (n : Int))
    (hb0 : 0 ≤ spec_resolved n b) (hb1 : spec_resolved n b < (n : Int))
    (hab : spec_resolved n a ≠ spec_resolved n b) :
    (pairwise_index n a b old).1 = PAIRWISE_RETURN_SUCCESS ∧
    ((pairwise_index n a b old).2 : Int) =
      min (spec_resolved n a) (spec_resolved n b) *
          (2 * (n : Int) - min (spec_resolved n a) (spec_resolved n b) - 1) / 2 +
        (max (spec_resolved n a) (spec_resolved n b) -
          min (spec_resolved n a) (spec_resolved n b) - 1) := by
  have ra := resolve_index_eq_spec (by omega : n ≤ 2 ^ 63) ha0 ha1
  have rb := resolve_index_eq_spec (by omega : n ≤ 2 ^ 63) hb0 hb1
  obtain ⟨i, hi⟩ := Int.eq_ofNat_of_zero_le ha0
  obtain ⟨j, hj⟩ := Int.eq_ofNat_of_zero_le hb0
  rw [hi] at ra ha1 hab
  rw [hj] at rb hb1 hab
  rw [hi, hj]
  have ri : resolve_index n (i : Int) = (i : Int) := resolve_index_of_nonneg (by omega)
  have rj : resolve_index n (j : Int) = (j : Int) := resolve_index_of_nonneg (by omega)
  have e : pairwise_index n a b old = pairwise_index n (i : Int) (j : Int) old :=
    pairwise_index_congr old (by rw [ra, ri]) (by rw [rb, rj])
  rw [e]
  have si : in_ssize (i : Int) := by unfold in_ssize; omega
  have sj : in_ssize (j : Int) := by unfold in_ssize; omega
  rcases lt_or_gt_of_ne hab with h | h
  · have hij : i < j := by omega
    rw [pairwise_index_of_lt old hbound hij (by omega), min_eq_left (by omega),
      max_eq_right (by omega)]
    exact ⟨rfl, pair_offset_cast hij (by omega)⟩
  · have hji : j < i := by omega
    rw [pairwise_index_swap old hn
      (by rw [ri, index_out_of_bounds_eq_false si]; omega)
      (by rw [rj, index_out_of_bounds_eq_false sj]; omega)
      (by rw [ri, rj]; omega),
      pairwise_index_of_lt old hbound hji (by omega), min_eq_right (by omega),
      max_eq_left (by omega)]
    exact ⟨rfl, pair_offset_cast hji (by omega)⟩

theorem pairwise_index_closed_form_witness :
    (pairwise_index 4 (-1) 0 7).1 = PAIRWISE_RETURN_SUCCESS ∧
    ((pairwise_index 4 (-1) 0 7).2 : Int) =
      min (spec_resolved 4 (-1)) (spec_resolved 4 0) *
          (2 * ((4 : Nat) : Int) - min (spec_resolved 4 (-1)) (spec_resolved 4 0) - 1) / 2 +
        (max (spec_resolved 4 (-1)) (spec_resolved 4 0) -
          min (spec_resolved 4 (-1)) (spec_resolved 4 0) - 1) :=
  pairwise_index_closed_form 4 (-1) 0 7 (by decide) (by decide) (by decide) (by decide)
    (by decide) (by decide) (by decide)

/-- C2 (as stated, refuted): for every `size_t` count `n >= 2` the map would be a
bijection onto `{0, ..., n (n - 1) / 2 - 1}`; at `n = 2 ^ 32 + 1` the pairs
`(0, 2 ^ 31)` and `(2 ^ 32 - 1, 2 ^ 32)` share the offset `2 ^ 31 - 1`. -/
theorem pairwise_index_bijective_unbounded_fails :
    ¬ ∀ (n old : Nat), 2 ≤ n → n < WORD →
      (∀ i j : Nat, i < j → j < n →
        (pairwise_index n (i : Int) (j : Int) old).1 = PAIRWISE_RETURN_SUCCESS ∧
        (pairwise_index n (i : Int) (j : Int) old).2 < n * (n - 1) / 2) ∧
      (∀ i j k l : Nat, i < j → j < n → k < l → l < n →
        (pairwise_index n (i : Int) (j : Int) old).2 =
          (pairwise_index n (k : Int) (l : Int) old).2 → i = k ∧ j = l) ∧
      (∀ p, p < n * (n - 1) / 2 → ∃ i j : Nat, i < j ∧ j < n ∧
        pairwise_index n (i : Int) (j : Int) old = (PAIRWISE_RETURN_SUCCESS, p)) := by
  intro h
  have h1 := (h 4294967297 0 (by decide) (by decide)).2.1 0 2147483648 4294967295 4294967296
    (by decide) (by decide) (by decide) (by decide) (by decide)
  exact absurd h1.1 (by decide)

/-- C2 (amended): for every `n <= 2 ^ 32` (in particular `2 <= n <= 2 ^ 32`), the map
`(i, j) -> pairwise_index(n, i, j)` restricted to `0 <= i < j < n` is a bijection
onto `{0, ..., n (n - 1) / 2 - 1}`: every call succeeds with an offset below
`n (n - 1) / 2`, distinct pairs have distinct offsets, every offset is hit. -/
theorem pairwise_index_bijective (n old : Nat) (hbound : n ≤ 2 ^ 32) :
    (∀ i j : Nat, i < j → j < n →
      (pairwise_index n (i : Int) (j : Int) old).1 = PAIRWISE_RETURN_SUCCESS ∧
      (pairwise_index n (i : Int) (j : Int) old).2 < n * (n - 1) / 2) ∧
    (∀ i j k l : Nat, i < j → j < n → k < l → l < n →
      (pairwise_index n (i : Int) (j : Int) old).2 =
        (pairwise_index n (k : Int) (l : Int) old).2 → i = k ∧ j = l) ∧
    (∀ p, p < n * (n - 1) / 2 → ∃ i j : Nat, i < j ∧ j < n ∧
      pairwise_index n (i : Int) (j : Int) old = (PAIRWISE_RETURN_SUCCESS, p)) := by
  refine ⟨?_, ?_, ?_⟩
  · intro i j hij hj
    rw [pairwise_index_of_lt old hbound hij hj]
    exact ⟨rfl, pair_offset_lt hij hj⟩
  · intro i j k l hij hj hkl hl h
    rw [pairwise_index_of_lt old hbound hij hj, pairwise_index_of_lt old hbound hkl hl] at h
    exact pair_offset_inj hij hj hkl hl h
  · intro p hp
    rw [← tri_top] at hp
    obtain ⟨r, j, h1, h2, _, h4⟩ := pair_offset_surj (n - 1) (le_refl _) p hp
    exact ⟨r, j, h1, h2, by rw [pairwise_index_of_lt old hbound h1 h2, h4]⟩

theorem pairwise_index_bijective_witness :
    (∀ i j : Nat, i < j → j < 4 →
      (pairwise_index 4 (i : Int) (j : Int) 0).1 = PAIRWISE_RETURN_SUCCESS ∧
      (pairwise_index 4 (i : Int) (j : Int) 0).2 < 4 * (4 - 1) / 2) ∧
    (∀ i j k l : Nat, i < j → j < 4 → k < l → l < 4 →
      (pairwise_index 4 (i : Int) (j : Int) 0).2 =
        (pairwise_index 4 (k : Int) (l : Int) 0).2 → i = k ∧ j = l) ∧
    (∀ p, p < 4 * (4 - 1) / 2 → ∃ i j : Nat, i < j ∧ j < 4 ∧
      pairwise_index 4 (i : Int) (j : Int) 0 = (PAIRWISE_RETURN_SUCCESS, p)) :=
  pairwise_index_bijective 4 0 (by decide)

/-- The machine shift of every `ssize_t` index is the mathematical one as long as
the collection count does not exceed `2 ^ 63`. -/
theorem resolve_index_eq_spec_of_le {n : Nat} {a : Int} (hn : n ≤ 2 ^ 63) (ha : in_ssize a) :
    resolve_index n a = spec_resolved n a := by
  unfold in_ssize at ha
  unfold spec_resolved
  by_cases h : a < 0
  · rw [if_pos h]
    by_cases h0 : 0 ≤ a + (n : Int)
    · exact resolve_index_of_neg h ha.1 h0 (by omega)
    · unfold resolve_index
      rw [if_pos h, to_size_of_neg h (by rw [WORD_eq]; push_cast; omega)]
      have e : wadd (a + (WORD : Int)).toNat n = (a + (WORD : Int) + (n : Int)).toNat := by
        unfold wadd
        have : (a + (WORD : Int)).toNat + n = (a + (WORD : Int) + (n : Int)).toNat := by
          rw [WORD_eq]; push_cast; omega
        rw [this]
        apply Nat.mod_eq_of_lt
        rw [WORD_eq]
        push_cast
        omega
      rw [e, to_ssize_of_ge (by rw [WORD_eq]; push_cast; omega)
        (by rw [WORD_eq]; push_cast; omega)]
      rw [WORD_eq]
      push_cast
      omega
  · rw [if_neg h]
    exact resolve_index_of_nonneg (by omega)

/-- The status of `pairwise_index`, branch by branch. -/
theorem pairwise_index_status_cases (n : Nat) (a b : Int) (old : Nat) :
    (n < 2 ∧ pairwise_index n a b old = (PAIRWISE_RETURN_ERROR_NCOLLECTIONS, old)) ∨
    (2 ≤ n ∧ index_out_of_bounds n (resolve_index n a) = true ∧
      pairwise_index n a b old = (PAIRWISE_RETURN_ERROR_ICOLLECTIONA, old)) ∨
    (2 ≤ n ∧ index_out_of_bounds n (resolve_index n a) = false ∧
      index_out_of_bounds n (resolve_index n b) = true ∧
      pairwise_index n a b old = (PAIRWISE_RETURN_ERROR_ICOLLECTIONB, old)) ∨
    (2 ≤ n ∧ index_out_of_bounds n (resolve_index n a) = false ∧
      index_out_of_bounds n (resolve_index n b) = false ∧
      resolve_index n a = resolve_index n b ∧
      pairwise_index n a b old = (PAIRWISE_RETURN_ERROR_ICOLLECTIONSAME, old)) ∨
    (2 ≤ n ∧ index_out_of_bounds n (resolve_index n a) = false ∧
      index_out_of_bounds n (resolve_index n b) = false ∧
      resolve_index n a ≠ resolve_index n b ∧
      (pairwise_index n a b old).1 = PAIRWISE_RETURN_SUCCESS) := by
  by_cases hn : n < 2
  · left
    exact ⟨hn, by unfold pairwise_index; rw [if_pos hn]⟩
  · right
    have hn2 : 2 ≤ n := by omega
    cases ha : index_out_of_bounds n (resolve_index n a) with
    | true =>
      left
      exact ⟨hn2, rfl, by unfold pairwise_index; rw [if_neg hn]; simp [ha]⟩
    | false =>
      right
      cases hb : index_out_of_bounds n (resolve_index n b) with
      | true =>
        left
        exact ⟨hn2, rfl, rfl, by unfold pairwise_index; rw [if_neg hn]; simp [ha, hb]⟩
      | false =>
        right
        by_cases hab : resolve_index n a = resolve_index n b
        · left
          exact ⟨hn2, rfl, rfl, hab, by unfold pairwise_index; rw [if_neg hn]; simp [ha, hb, hab]⟩
        · right
          exact ⟨hn2, rfl, rfl, hab, by rw [pairwise_index_success old hn2 ha hb hab]⟩

/-- C8: for every `n` and all `ssize_t` indices `a`, `b` that are valid (both
resolve into `[0, n)` and resolve to different collections),
`pairwise_index(n, a, b)` and `pairwise_index(n, b, a)` both succeed and return
the same offset. An index resolves by the function's own shift `i += n`, which
is `a + n` for negative `a` (and `a` otherwise) whenever `n <= 2 ^ 63`. -/
theorem pairwise_index_symmetric (n : Nat) (a b : Int) (old old' : Nat)
    (ha : in_ssize a) (hb : in_ssize b)
    (hra0 : 0 ≤ resolve_index n a) (hra1 : resolve_index n a < (n : Int))
    (hrb0 : 0 ≤ resolve_index n b) (hrb1 : resolve_index n b < (n : Int))
    (hab : resolve_index n a ≠ resolve_index n b) :
    ((pairwise_index n a b old).1 = PAIRWISE_RETURN_SUCCESS ∧
      (pairwise_index n b a old').1 = PAIRWISE_RETURN_SUCCESS ∧
      (pairwise_index n a b old).2 = (pairwise_index n b a old').2) ∧
    (n ≤ 2 ^ 63 → resolve_index n a = spec_resolved n a ∧
      resolve_index n b = spec_resolved n b) := by
  refine ⟨?_, fun hn => ⟨resolve_index_eq_spec_of_le hn ha, resolve_index_eq_spec_of_le hn hb⟩⟩
  have hn : 2 ≤ n := by omega
  have oa : index_out_of_bounds n (resolve_index n a) = false :=
    (index_out_of_bounds_eq_false (resolve_index_range ha)).2 ⟨hra0, hra1⟩
  have ob : index_out_of_bounds n (resolve_index n b) = false :=
    (index_out_of_bounds_eq_false (resolve_index_range hb)).2 ⟨hrb0, hrb1⟩
  rw [pairwise_index_swap old hn oa ob hab, pairwise_index_success old hn ob oa (Ne.symm hab),
    pairwise_index_success old' hn ob oa (Ne.symm hab)]
  exact ⟨rfl, rfl, rfl⟩

theorem pairwise_index_symmetric_witness :
    ((pairwise_index 4 (-1) 0 7).1 = PAIRWISE_RETURN_SUCCESS ∧
      (pairwise_index 4 0 (-1) 9).1 = PAIRWISE_RETURN_SUCCESS ∧
      (pairwise_index 4 (-1) 0 7).2 = (pairwise_index 4 0 (-1) 9).2) ∧
    (4 ≤ 2 ^ 63 → resolve_index 4 (-1) = spec_resolved 4 (-1) ∧
      resolve_index 4 0 = spec_resolved 4 0) :=
  pairwise_index_symmetric 4 (-1) 0 7 9 (by decide) (by decide) (by decide) (by decide)
    (by decide) (by decide) (by decide)

/-- C9: negative indices address from the end. For every `n`, every `ssize_t`
index `a` with `-n <= a <= -1` whose shifted value `a + n` is again an `ssize_t`,
and every `b`, `pairwise_index(n, a, b)` returns the same status and the same
offset as `pairwise_index(n, a + n, b)`, and symmetrically when the negative
index is the second one (`a = -1` denotes collection `n - 1`). -/
theorem pairwise_index_negative (n : Nat) (a b : Int) (old : Nat)
    (hlo : -(n : Int) ≤ a) (hhi : a ≤ -1) (ha : in_ssize a) (han : in_ssize (a + (n : Int))) :
    pairwise_index n a b old = pairwise_index n (a + (n : Int)) b old ∧
    pairwise_index n b a old = pairwise_index n b (a + (n : Int)) old := by
  unfold in_ssize at ha han
  have e : resolve_index n a = resolve_index n (a + (n : Int)) := by
    rw [resolve_index_of_neg (by omega) ha.1 (by omega) han.2,
      resolve_index_of_nonneg (by omega)]
  exact ⟨pairwise_index_congr old e rfl, pairwise_index_congr old rfl e⟩

theorem pairwise_index_negative_witness :
    pairwise_index 4 (-1) 0 7 = pairwise_index 4 (-1 + ((4 : Nat) : Int)) 0 7 ∧
    pairwise_index 4 0 (-1) 7 = pairwise_index 4 0 (-1 + ((4 : Nat) : Int)) 7 :=
  pairwise_index_negative 4 (-1) 0 7 (by decide) (by decide) (by decide) (by decide)

/-- C10: for `ssize_t` indices, `pairwise_index(n, a, b)` returns success if and
only if `n >= 2`, both resolved indices lie in `[0, n)` and the two resolved
indices differ; otherwise the status is non-zero and is one of
`PAIRWISE_RETURN_ERROR_NCOLLECTIONS` (exactly when `n < 2`),
`PAIRWISE_RETURN_ERROR_ICOLLECTIONA`, `PAIRWISE_RETURN_ERROR_ICOLLECTIONB`,
`PAIRWISE_RETURN_ERROR_ICOLLECTIONSAME`. The resolved index is the function's
own shift `i += n`, which is `a + n` for negative `a` (and `a` otherwise)
whenever `n <= 2 ^ 63`. -/
theorem pairwise_index_status (n : Nat) (a b : Int) (old : Nat)
    (ha : in_ssize a) (hb : in_ssize b) :
    ((pairwise_index n a b old).1 = PAIRWISE_RETURN_SUCCESS ↔
      (2 ≤ n ∧ (0 ≤ resolve_index n a ∧ resolve_index n a < (n : Int)) ∧
        (0 ≤ resolve_index n b ∧ resolve_index n b < (n : Int)) ∧
        resolve_index n a ≠ resolve_index n b)) ∧
    ((pairwise_index n a b old).1 ≠ PAIRWISE_RETURN_SUCCESS →
      (pairwise_index n a b old).1 ≠ 0 ∧
      (((pairwise_index n a b old).1 = PAIRWISE_RETURN_ERROR_NCOLLECTIONS ∧ n < 2) ∨
        ((pairwise_index n a b old).1 = PAIRWISE_RETURN_ERROR_ICOLLECTIONA ∧ 2 ≤ n) ∨
        ((pairwise_index n a b old).1 = PAIRWISE_RETURN_ERROR_ICOLLECTIONB ∧ 2 ≤ n) ∨
        ((pairwise_index n a b old).1 = PAIRWISE_RETURN_ERROR_ICOLLECTIONSAME ∧ 2 ≤ n))) ∧
    (n ≤ 2 ^ 63 → resolve_index n a = spec_resolved n a ∧
      resolve_index n b = spec_resolved n b) := by
  have ia := index_out_of_bounds_eq_false (n := n) (resolve_index_range (n := n) ha)
  have ib := index_out_of_bounds_eq_false (n := n) (resolve_index_range (n := n) hb)
  refine ⟨?_, ?_, fun hn => ⟨resolve_index_eq_spec_of_le hn ha,
    resolve_index_eq_spec_of_le hn hb⟩⟩
  · rcases pairwise_index_status_cases n a b old with
      ⟨h1, h2⟩ | ⟨h1, h2, h3⟩ | ⟨h1, h2, h3, h4⟩ | ⟨h1, h2, h3, h4, h5⟩ | ⟨h1, h2, h3, h4, h5⟩
    · rw [h2]
      constructor
      · intro h; exact absurd h
          (by simp [PAIRWISE_RETURN_SUCCESS, PAIRWISE_RETURN_ERROR_NCOLLECTIONS, PAIRWISE_RETURN_ERROR_ICOLLECTIONA, PAIRWISE_RETURN_ERROR_ICOLLECTIONB, PAIRWISE_RETURN_ERROR_ICOLLECTIONSAME])
      · intro h; omega
    · rw [h3]
      constructor
      · intro h; exact absurd h
          (by simp [PAIRWISE_RETURN_SUCCESS, PAIRWISE_RETURN_ERROR_NCOLLECTIONS, PAIRWISE_RETURN_ERROR_ICOLLECTIONA, PAIRWISE_RETURN_ERROR_ICOLLECTIONB, PAIRWISE_RETURN_ERROR_ICOLLECTIONSAME])
      · intro h
        have := ia.2 h.2.1
        rw [h2] at this
        exact absurd this (by decide)
    · rw [h4]
      constructor
      · intro h; exact absurd h
          (by simp [PAIRWISE_RETURN_SUCCESS, PAIRWISE_RETURN_ERROR_NCOLLECTIONS, PAIRWISE_RETURN_ERROR_ICOLLECTIONA, PAIRWISE_RETURN_ERROR_ICOLLECTIONB, PAIRWISE_RETURN_ERROR_ICOLLECTIONSAME])
      · intro h
        have := ib.2 h.2.2.1
        rw [h3] at this
        exact absurd this (by decide)
    · rw [h5]
      constructor
      · intro h; exact absurd h
          (by simp [PAIRWISE_RETURN_SUCCESS, PAIRWISE_RETURN_ERROR_NCOLLECTIONS, PAIRWISE_RETURN_ERROR_ICOLLECTIONA, PAIRWISE_RETURN_ERROR_ICOLLECTIONB, PAIRWISE_RETURN_ERROR_ICOLLECTIONSAME])
      · intro h
        exact absurd h4 h.2.2.2
    · constructor
      · intro _
        exact ⟨h1, ia.1 h2, ib.1 h3, h4⟩
      · intro _
        exact h5
  · intro hne
    rcases pairwise_index_status_cases n a b old with
      ⟨h1, h2⟩ | ⟨h1, h2, h3⟩ | ⟨h1, h2, h3, h4⟩ | ⟨h1, h2, h3, h4, h5⟩ | ⟨h1, h2, h3, h4, h5⟩
    · rw [h2]
      exact ⟨by
        simp [PAIRWISE_RETURN_SUCCESS, PAIRWISE_RETURN_ERROR_NCOLLECTIONS, PAIRWISE_RETURN_ERROR_ICOLLECTIONA, PAIRWISE_RETURN_ERROR_ICOLLECTIONB, PAIRWISE_RETURN_ERROR_ICOLLECTIONSAME],
        Or.inl ⟨rfl, h1⟩⟩
    · rw [h3]
      exact ⟨by
        simp [PAIRWISE_RETURN_SUCCESS, PAIRWISE_RETURN_ERROR_NCOLLECTIONS, PAIRWISE_RETURN_ERROR_ICOLLECTIONA, PAIRWISE_RETURN_ERROR_ICOLLECTIONB, PAIRWISE_RETURN_ERROR_ICOLLECTIONSAME],
        Or.inr (Or.inl ⟨rfl, h1⟩)⟩
    · rw [h4]
      exact ⟨by
        simp [PAIRWISE_RETURN_SUCCESS, PAIRWISE_RETURN_ERROR_NCOLLECTIONS, PAIRWISE_RETURN_ERROR_ICOLLECTIONA, PAIRWISE_RETURN_ERROR_ICOLLECTIONB, PAIRWISE_RETURN_ERROR_ICOLLECTIONSAME],
        Or.inr (Or.inr (Or.inl ⟨rfl, h1⟩))⟩
    · rw [h5]
      exact ⟨by
        simp [PAIRWISE_RETURN_SUCCESS, PAIRWISE_RETURN_ERROR_NCOLLECTIONS, PAIRWISE_RETURN_ERROR_ICOLLECTIONA, PAIRWISE_RETURN_ERROR_ICOLLECTIONB, PAIRWISE_RETURN_ERROR_ICOLLECTIONSAME],
        Or.inr (Or.inr (Or.inr ⟨rfl, h1⟩))⟩
    · exact absurd h5 hne

theorem pairwise_index_status_witness :
    ((pairwise_index 4 4 0 7).1 = PAIRWISE_RETURN_SUCCESS ↔
      (2 ≤ 4 ∧ (0 ≤ resolve_index 4 4 ∧ resolve_index 4 4 < ((4 : Nat) : Int)) ∧
        (0 ≤ resolve_index 4 0 ∧ resolve_index 4 0 < ((4 : Nat) : Int)) ∧
        resolve_index 4 4 ≠ resolve_index 4 0)) ∧
    ((pairwise_index 4 4 0 7).1 ≠ PAIRWISE_RETURN_SUCCESS →
      (pairwise_index 4 4 0 7).1 ≠ 0 ∧
      (((pairwise_index 4 4 0 7).1 = PAIRWISE_RETURN_ERROR_NCOLLECTIONS ∧ 4 < 2) ∨
        ((pairwise_index 4 4 0 7).1 = PAIRWISE_RETURN_ERROR_ICOLLECTIONA ∧ 2 ≤ 4) ∨
        ((pairwise_index 4 4 0 7).1 = PAIRWISE_RETURN_ERROR_ICOLLECTIONB ∧ 2 ≤ 4) ∨
        ((pairwise_index 4 4 0 7).1 = PAIRWISE_RETURN_ERROR_ICOLLECTIONSAME ∧ 2 ≤ 4))) ∧
    (4 ≤ 2 ^ 63 → resolve_index 4 4 = spec_resolved 4 4 ∧
      resolve_index 4 0 = spec_resolved 4 0) :=
  pairwise_index_status 4 4 0 7 (by decide) (by decide)

/-! ## The bounded worker: its stores -/

theorem mem_row_pairs {n lo hi i j : Nat} :
    (i, j) ∈ row_pairs n lo hi ↔ lo ≤ i ∧ i < hi ∧ i < j ∧ j < n := by
  unfold row_pairs
  simp only [List.mem_flatMap, List.mem_map, List.mem_range'_1, Prod.mk.injEq]
  constructor
  · rintro ⟨r, ⟨h1, h2⟩, c, ⟨h3, h4⟩, rfl, rfl⟩
    omega
  · rintro ⟨h1, h2, h3, h4⟩
    exact ⟨i, ⟨h1, by omega⟩, j, ⟨by omega, by omega⟩, rfl, rfl⟩

theorem row_pairs_succ (n lo cnt : Nat) :
    row_pairs n lo (lo + (cnt + 1)) = row_pairs n lo (lo + cnt) ++
      (List.range' (lo + cnt + 1) (n - (lo + cnt + 1))).map (fun j => (lo + cnt, j)) := by
  unfold row_pairs
  have h1 : lo + (cnt + 1) - lo = cnt + 1 := by omega
  have h2 : lo + cnt - lo = cnt := by omega
  rw [h1, h2, List.range'_1_concat, List.flatMap_append, List.flatMap_singleton]

theorem row_pairs_self (n lo : Nat) : row_pairs n lo lo = [] := by
  unfold row_pairs
  simp

/-- The inner loop appends one store per `i_collection_b` and advances the
cursor by one each time. -/
theorem foldl_row_aux {D : Type} (K : Nat → D) :
    ∀ (len a c : Nat) (acc : List (Nat × D)),
      (List.range' a len).foldl
          (fun (st : Nat × List (Nat × D)) j => (st.1 + 1, st.2 ++ [(st.1, K j)])) (c, acc) =
        (c + len, acc ++ (List.range' a len).map (fun j => (c + (j - a), K j))) := by
  intro len
  induction len with
  | zero => intro a c acc; simp
  | succ len ih =>
    intro a c acc
    rw [List.range'_succ, List.foldl_cons, ih (a + 1) (c + 1) (acc ++ [(c, K a)])]
    have hm : (List.range' (a + 1) len).map (fun j => (c + 1 + (j - (a + 1)), K j)) =
        (List.range' (a + 1) len).map (fun j => (c + (j - a), K j)) := by
      apply List.map_congr_left
      intro j hj
      rw [List.mem_range'_1] at hj
      have : c + 1 + (j - (a + 1)) = c + (j - a) := by omega
      rw [this]
    rw [hm, List.map_cons, List.append_assoc]
    simp only [List.singleton_append, Nat.sub_self, Nat.add_zero]
    congr 1
    omega

theorem launch_bounded_row_eq {D : Type} (s : pairwise_as D) (i c : Nat)
    (acc : List (Nat × D)) :
    launch_bounded_row s i (c, acc) =
      (c + (s.n_collections - (i + 1)),
        acc ++ (List.range' (i + 1) (s.n_collections - (i + 1))).map
          (fun j => (c + (j - (i + 1)), kernel_at s i j))) := by
  unfold launch_bounded_row
  exact foldl_row_aux (fun j => kernel_at s i j) _ _ _ _

/-- After the rows `lo, ..., lo + cnt - 1` the cursor stands at the offset of
row `lo + cnt` and the stores are those of the pairs of these rows, each at its
closed-form offset. -/
theorem foldl_rows_aux {D : Type} (s : pairwise_as D) (base lo : Nat) :
    ∀ cnt, lo + cnt ≤ s.n_collections →
      (List.range' lo cnt).foldl (fun st i => launch_bounded_row s i st)
          (base + tri s.n_collections lo, []) =
        (base + tri s.n_collections (lo + cnt),
          (row_pairs s.n_collections lo (lo + cnt)).map
            (fun p => (base + pair_offset s.n_collections p.1 p.2, kernel_at s p.1 p.2))) := by
  intro cnt
  induction cnt with
  | zero => intro _; simp [row_pairs_self]
  | succ cnt ih =>
    intro h
    rw [List.range'_1_concat, List.foldl_append, ih (by omega), List.foldl_cons, List.foldl_nil,
      launch_bounded_row_eq, row_pairs_succ, List.map_append, List.map_map]
    have hc : base + tri s.n_collections (lo + cnt) + (s.n_collections - (lo + cnt + 1)) =
        base + tri s.n_collections (lo + (cnt + 1)) := by
      have := tri_succ (by omega : lo + cnt < s.n_collections)
      rw [show lo + (cnt + 1) = lo + cnt + 1 from rfl, this]
      omega
    rw [hc]
    congr 2
    apply List.map_congr_left
    intro j hj
    rw [List.mem_range'_1] at hj
    simp only [Function.comp_apply, pair_offset]
    congr 1
    omega

/-- The stores of a worker whose cursor starts at the offset of its first row. -/
theorem launch_bounded_stores_eq {D : Type} (s : pairwise_as D) (base : Nat)
    (hres : s.a_results = base + tri s.n_collections s.i_collection_lower)
    (hlu : s.i_collection_lower ≤ s.i_collection_upper)
    (hun : s.i_collection_upper ≤ s.n_collections) :
    launch_bounded_stores s =
      (base + tri s.n_collections s.i_collection_upper,
        (row_pairs s.n_collections s.i_collection_lower s.i_collection_upper).map
          (fun p => (base + pair_offset s.n_collections p.1 p.2, kernel_at s p.1 p.2))) := by
  unfold launch_bounded_stores
  rw [hres]
  have h := foldl_rows_aux s base s.i_collection_lower
    (s.i_collection_upper - s.i_collection_lower) (by omega)
  rw [show s.i_collection_lower + (s.i_collection_upper - s.i_collection_lower) =
    s.i_collection_upper by omega] at h
  exact h

/-- The offsets of the pairs of rows `lo, ..., hi - 1`, in enumeration order, are
consecutive. -/
theorem row_pairs_offsets (n lo : Nat) :
    ∀ cnt, lo + cnt ≤ n →
      (row_pairs n lo (lo + cnt)).map (fun p => pair_offset n p.1 p.2) =
        List.range' (tri n lo) (tri n (lo + cnt) - tri n lo) := by
  intro cnt
  induction cnt with
  | zero => intro _; simp [row_pairs_self]
  | succ cnt ih =>
    intro h
    have hs := tri_succ (by omega : lo + cnt < n)
    have hm : tri n lo ≤ tri n (lo + cnt) := tri_mono (by omega) (by omega)
    have hlen : tri n (lo + (cnt + 1)) - tri n lo =
        (n - (lo + cnt + 1)) + (tri n (lo + cnt) - tri n lo) := by
      rw [show lo + (cnt + 1) = lo + cnt + 1 from rfl, hs]
      omega
    rw [row_pairs_succ, List.map_append, ih (by omega), hlen, ← List.range'_append_1,
      List.map_map]
    congr 1
    have hst : tri n lo + (tri n (lo + cnt) - tri n lo) = tri n (lo + cnt) := by omega
    rw [hst]
    apply List.ext_getElem
    · simp
    · intro k h1 h2
      simp only [List.length_map, List.length_range'] at h1
      simp only [List.getElem_map, List.getElem_range', Function.comp_apply, pair_offset]
      omega

/-! ## The bounded worker: its effect on the result buffer -/

theorem foldl_store_of_not_mem {D : Type} (p : Nat) :
    ∀ (stores : List (Nat × D)) (results : Nat → D), p ∉ stores.map Prod.fst →
      (stores.foldl store results) p = results p := by
  intro stores
  induction stores with
  | nil => intro results _; rfl
  | cons w rest ih =>
    intro results h
    rw [List.map_cons, List.mem_cons, not_or] at h
    rw [List.foldl_cons, ih _ h.2]
    unfold store
    rw [if_neg h.1]

theorem foldl_store_of_mem {D : Type} (p : Nat) (v : D) :
    ∀ (stores : List (Nat × D)) (results : Nat → D), (stores.map Prod.fst).Nodup →
      (p, v) ∈ stores → (stores.foldl store results) p = v := by
  intro stores
  induction stores with
  | nil => intro results _ h; simp at h
  | cons w rest ih =>
    intro results hnd h
    rw [List.map_cons, List.nodup_cons] at hnd
    rw [List.foldl_cons]
    rcases List.mem_cons.1 h with h1 | h1
    · subst h1
      rw [foldl_store_of_not_mem _ _ _ hnd.1]
      unfold store
      rw [if_pos rfl]
    · exact ih _ hnd.2 h1

/-- Stores at pairwise different positions can be replayed in any order. -/
theorem foldl_store_perm {D : Type} {l1 l2 : List (Nat × D)} (results : Nat → D)
    (hp : l1.Perm l2) (hnd : (l1.map Prod.fst).Nodup) :
    l1.foldl store results = l2.foldl store results := by
  have hnd2 : (l2.map Prod.fst).Nodup := (hp.map Prod.fst).nodup_iff.1 hnd
  funext p
  by_cases h : p ∈ l1.map Prod.fst
  · obtain ⟨w, hw, rfl⟩ := List.mem_map.1 h
    rw [foldl_store_of_mem w.1 w.2 l1 results hnd hw,
      foldl_store_of_mem w.1 w.2 l2 results hnd2 (hp.mem_iff.1 hw)]
  · have h2 : p ∉ l2.map Prod.fst := fun hh => h ((hp.map Prod.fst).mem_iff.2 hh)
    rw [foldl_store_of_not_mem p l1 results h, foldl_store_of_not_mem p l2 results h2]

theorem row_pairs_offsets_range {n lo hi : Nat} (hlo : lo ≤ hi) (hhi : hi ≤ n) :
    (row_pairs n lo hi).map (fun p => pair_offset n p.1 p.2) =
      List.range' (tri n lo) (tri n hi - tri n lo) := by
  have h := row_pairs_offsets n lo (hi - lo) (by omega)
  rw [show lo + (hi - lo) = hi by omega] at h
  exact h

/-- The positions written by a worker whose cursor starts at the offset of its
first row: the consecutive positions of its rows. -/
theorem launch_bounded_positions {D : Type} (s : pairwise_as D) (base : Nat)
    (hres : s.a_results = base + tri s.n_collections s.i_collection_lower)
    (hlu : s.i_collection_lower ≤ s.i_collection_upper)
    (hun : s.i_collection_upper ≤ s.n_collections) :
    (launch_bounded_stores s).2.map Prod.fst =
      List.range' s.a_results
        (tri s.n_collections s.i_collection_upper - tri s.n_collections s.i_collection_lower) := by
  rw [launch_bounded_stores_eq s base hres hlu hun, List.map_map]
  have h := congrArg (List.map (fun q => base + q)) (row_pairs_offsets_range hlu hun)
  rw [List.map_map] at h
  have e : (Prod.fst ∘ fun (p : Nat × Nat) =>
      (base + pair_offset s.n_collections p.1 p.2, kernel_at s p.1 p.2)) =
      ((fun q => base + q) ∘ fun (p : Nat × Nat) => pair_offset s.n_collections p.1 p.2) := by
    funext p
    rfl
  rw [e, h, hres]
  apply List.ext_getElem
  · simp
  · intro k h1 h2
    simp only [List.getElem_map, List.getElem_range']
    omega

/-- The value found at the closed-form offset of a pair of the worker's rows. -/
theorem launch_bounded_at_pair {D : Type} (s : pairwise_as D) (base : Nat) (results : Nat → D)
    (hres : s.a_results = base + tri s.n_collections s.i_collection_lower)
    (hlu : s.i_collection_lower ≤ s.i_collection_upper)
    (hun : s.i_collection_upper ≤ s.n_collections) {i j : Nat}
    (hi0 : s.i_collection_lower ≤ i) (hi1 : i < s.i_collection_upper) (hij : i < j)
    (hj : j < s.n_collections) :
    _pairwise_launch_bounded s results (base + pair_offset s.n_collections i j) =
      kernel_at s i j := by
  unfold _pairwise_launch_bounded
  apply foldl_store_of_mem
  · rw [launch_bounded_positions s base hres hlu hun]
    exact List.nodup_range' _ _
  · rw [launch_bounded_stores_eq s base hres hlu hun]
    exact List.mem_map.2 ⟨(i, j), mem_row_pairs.2 ⟨hi0, hi1, hij, hj⟩, rfl⟩

theorem le_of_results_fit {n : Nat} (h : results_fit n) : n ≤ 2 ^ 32 := by
  unfold results_fit at h
  rw [WORD_eq] at h
  by_contra hc
  have h1 : (2 ^ 32 + 1) * 2 ^ 32 ≤ n * (n - 1) := Nat.mul_le_mul (by omega) (by omega)
  have h2 : (2 ^ 32 + 1) * 2 ^ 32 / 2 ≤ n * (n - 1) / 2 := Nat.div_le_div_right h1
  have h3 : (2 ^ 32 + 1) * 2 ^ 32 / 2 = 9223372039002259456 := by norm_num
  omega

theorem wmul_collection {n np nc i : Nat} (hfit : collections_fit n np nc)
    (hc : 0 < nc) (hi : i < n) : wmul (wmul i np) nc = i * np * nc := by
  unfold collections_fit at hfit
  have h1 : i * np * nc ≤ n * np * nc :=
    Nat.mul_le_mul (Nat.mul_le_mul (by omega) (le_refl _)) (le_refl _)
  have h2 : i * np ≤ i * np * nc := Nat.le_mul_of_pos_right _ hc
  rw [wmul_of_lt (by omega : i * np < WORD)]
  exact wmul_of_lt (by omega)

/-- C3: the index mapper and the worker body agree on the result layout. For
every kernel `f`, every `n >= 2` and non-zero extents (the two buffers being
objects of the address space), after `_pairwise_launch_bounded` runs the single
argument set covering rows `[0, n)` from the start of the result buffer, for all
`0 <= i < j < n` the scalar at position `pairwise_index(n, i, j)` is
`f(n_points, n_coordinates, collection i, collection j)`, collection `i` being
the values from `i * n_points * n_coordinates` on. -/
theorem launch_bounded_agrees_with_index {D : Type}
    (f : Nat → Nat → (Nat → D) → (Nat → D) → D) (n n_points n_coordinates : Nat)
    (a_collections results : Nat → D) (old : Nat)
    (_hn : 2 ≤ n) (_hp : 0 < n_points) (hc : 0 < n_coordinates)
    (hcols : collections_fit n n_points n_coordinates) (hres : results_fit n)
    (i j : Nat) (hij : i < j) (hj : j < n) :
    (pairwise_index n (i : Int) (j : Int) old).1 = PAIRWISE_RETURN_SUCCESS ∧
    _pairwise_launch_bounded (single_argument_set f n n_points n_coordinates a_collections 0)
        results (pairwise_index n (i : Int) (j : Int) old).2 =
      f n_points n_coordinates (fun t => a_collections (i * n_points * n_coordinates + t))
        (fun t => a_collections (j * n_points * n_coordinates + t)) := by
  rw [pairwise_index_of_lt old (le_of_results_fit hres) hij hj]
  refine ⟨rfl, ?_⟩
  have h := launch_bounded_at_pair
    (single_argument_set f n n_points n_coordinates a_collections 0) 0 results
    (by simp [single_argument_set, tri_zero]) (Nat.zero_le _) (le_refl _)
    (Nat.zero_le i) (show i < n by omega) hij hj
  simp only [single_argument_set, Nat.zero_add] at h
  show _pairwise_launch_bounded _ results (pair_offset n i j) = _
  simp only [single_argument_set]
  rw [h]
  unfold kernel_at ptr_add
  simp only
  rw [wmul_collection hcols hc (by omega : i < n), wmul_collection hcols hc hj]

theorem launch_bounded_agrees_with_index_witness :
    (pairwise_index 4 ((1 : Nat) : Int) ((3 : Nat) : Int) 0).1 = PAIRWISE_RETURN_SUCCESS ∧
    _pairwise_launch_bounded
        (single_argument_set (fun _ _ a b => a 0 * 10 + b 0) 4 1 1 (fun k => k) 0)
        (fun _ => 77) (pairwise_index 4 ((1 : Nat) : Int) ((3 : Nat) : Int) 0).2 =
      (fun _ _ (a b : Nat → Nat) => a 0 * 10 + b 0) 1 1 (fun t => (fun k => k) (1 * 1 * 1 + t))
        (fun t => (fun k => k) (3 * 1 * 1 + t)) :=
  launch_bounded_agrees_with_index (fun _ _ a b => a 0 * 10 + b 0) 4 1 1 (fun k => k)
    (fun _ => 77) 0 (by decide) (by decide) (by decide) (by decide) (by decide) 1 3
    (by decide) (by decide)

/-! ## The partitioner: one iteration -/

section Populate

variable {R : Type} [LinearOrderedField R]

theorem populate_loop_succ [FloorSemiring R] (sqrt : R → R) (f : Nat → Nat → (Nat → R) → (Nat → R) → R)
    (n np nc : Nat) (cols : Nat → R) (base T k : Nat) :
    populate_loop sqrt f n np nc cols base T (k + 1) =
      populate_step sqrt f n np nc cols base T (calculations_per_argument_set n T)
        (populate_loop sqrt f n np nc cols base T k) k := by
  unfold populate_loop
  rw [List.range_succ, List.foldl_append]
  rfl

theorem calculations_per_argument_set_nonneg (n T : Nat) :
    (0 : R) ≤ calculations_per_argument_set n T := by
  unfold calculations_per_argument_set
  positivity

theorem calculations_per_argument_set_total {n T : Nat} (hn : 1 ≤ n) (hnW : n < WORD)
    (hT : 1 ≤ T) :
    8 * (T : R) * calculations_per_argument_set n T = 4 * (n : R) * ((n : R) - 1) := by
  unfold calculations_per_argument_set
  rw [wsub_of_le hn hnW, Nat.cast_sub hn, Nat.cast_one]
  have hT0 : (T : R) ≠ 0 := by
    have : (0 : R) < (T : R) := by exact_mod_cast hT
    exact ne_of_gt this
  field_simp
  ring

/-- What one exact step does to `n_collections_remaining`. -/
theorem collections_used_spec (sqrt : R → R) (hs : exact_sqrt sqrt)
    (c r m : R) (hc : 0 ≤ c) (hm : 1 ≤ m) (h1 : 1 ≤ r)
    (hsq : (2 * r - 1) * (2 * r - 1) = 1 + 8 * m * c) :
    0 ≤ collections_used sqrt c r ∧
    1 ≤ r - collections_used sqrt c r ∧
    (2 * (r - collections_used sqrt c r) - 1) * (2 * (r - collections_used sqrt c r) - 1)
      = 1 + 8 * (m - 1) * c := by
  unfold collections_used
  have hrad : (-8 * c) + (4 * (r * r)) - (4 * r) + 1 = 1 + 8 * (m - 1) * c := by
    have : (-8 * c) + (4 * (r * r)) - (4 * r) + 1 = (2 * r - 1) * (2 * r - 1) - 8 * c := by ring
    rw [this, hsq]
    ring
  rw [hrad]
  have hrad1 : (1 : R) ≤ 1 + 8 * (m - 1) * c := by
    have : 0 ≤ 8 * (m - 1) * c := mul_nonneg (mul_nonneg (by norm_num) (by linarith)) hc
    linarith
  obtain ⟨s0, ss⟩ := hs (1 + 8 * (m - 1) * c) (by linarith)
  generalize sqrt (1 + 8 * (m - 1) * c) = s at s0 ss
  have s1 : 1 ≤ s := by
    by_contra h
    push_neg at h
    nlinarith
  have s2 : s ≤ 2 * r - 1 := by
    by_contra h
    push_neg at h
    have : 0 ≤ 8 * c := by linarith
    nlinarith
  refine ⟨by linarith, by linarith, ?_⟩
  have : 2 * (r - 1 / 2 * (-s + 2 * r - 1)) - 1 = s := by ring
  rw [this, ss]

/-- The closed-form count added for the rows `[lo, hi)` moves the offset of row
`lo` to the offset of row `hi`. -/
theorem results_offset_next_eq [FloorSemiring R] {n lo hi : Nat} (hlh : lo ≤ hi) (hhi : hi + 1 ≤ n)
    (hW : 2 * n < WORD) :
    results_offset_next (R := R) n lo hi (tri n lo) = tri n hi := by
  unfold results_offset_next
  have e1 : wsub hi lo = hi - lo := wsub_of_le hlh (by omega)
  have e2 : wsub n lo = n - lo := wsub_of_le (by omega) (by omega)
  have e3 : wmul 2 (n - lo) = 2 * (n - lo) := wmul_of_lt (by omega)
  have e4 : wsub (2 * (n - lo)) (hi - lo) = 2 * (n - lo) - (hi - lo) :=
    wsub_of_le (by omega) (by omega)
  have e5 : wsub (2 * (n - lo) - (hi - lo)) 1 = 2 * (n - lo) - (hi - lo) - 1 :=
    wsub_of_le (by omega) (by omega)
  simp only [e1, e2, e3, e4, e5]
  have key : 2 * tri n hi = 2 * tri n lo + (hi - lo) * (2 * (n - lo) - (hi - lo) - 1) := by
    rw [two_mul_tri (by omega : hi ≤ n), two_mul_tri (by omega : lo ≤ n)]
    obtain ⟨d, rfl⟩ : ∃ d, hi = lo + d := ⟨hi - lo, by omega⟩
    obtain ⟨e, rfl⟩ : ∃ e, n = lo + d + 1 + e := ⟨n - (lo + d + 1), by omega⟩
    have h1 : 2 * (lo + d + 1 + e) - (lo + d) - 1 = lo + d + 1 + 2 * e := by omega
    have h2 : 2 * (lo + d + 1 + e) - lo - 1 = lo + 2 * d + 1 + 2 * e := by omega
    have h3 : lo + d - lo = d := by omega
    have h4 : 2 * (lo + d + 1 + e - lo) - d - 1 = d + 1 + 2 * e := by omega
    rw [h1, h2, h3, h4]
    ring
  have keyR : (tri n lo : R) + 1 / 2 * ((hi - lo : Nat) : R) *
      ((2 * (n - lo) - (hi - lo) - 1 : Nat) : R) = ((tri n hi : Nat) : R) := by
    have h := congrArg (fun x : Nat => (x : R)) key
    simp only [Nat.cast_add, Nat.cast_mul, Nat.cast_ofNat] at h
    linarith
  rw [keyR, Nat.floor_natCast]

end Populate

/-! ## The partitioner: the loop -/

section PopulateLoop

variable {R : Type} [LinearOrderedField R] [FloorSemiring R]

theorem populate_inv_init {n T : Nat} (hn : 1 ≤ n) (hnW : n < WORD) (hT : 1 ≤ T)
    (sqrt : R → R) (f : Nat → Nat → (Nat → R) → (Nat → R) → R) (np nc : Nat) (cols : Nat → R)
    (base : Nat) :
    populate_inv n T (calculations_per_argument_set n T : R) 0
      (populate_loop sqrt f n np nc cols base T 0) := by
  unfold populate_inv populate_loop
  simp only [List.range_zero, List.foldl_nil, Nat.cast_zero, sub_zero, zero_add]
  refine ⟨by exact_mod_cast hn, ?_, le_refl _, le_refl _, fun _ => (tri_zero n).symm⟩
  rw [calculations_per_argument_set_total hn hnW hT]
  ring

/-- One iteration, started from a state that satisfies the invariant. -/
theorem populate_step_spec {n T k : Nat} (sqrt : R → R) (hs : exact_sqrt sqrt)
    (f : Nat → Nat → (Nat → R) → (Nat → R) → R) (np nc : Nat) (cols : Nat → R) (base : Nat)
    (hT : 1 ≤ T) (hTW : T < WORD) (hk : k < T) (st : populate_state R)
    (hinv : populate_inv n T (calculations_per_argument_set n T : R) k st) :
    (populate_step sqrt f n np nc cols base T (calculations_per_argument_set n T) st
        k).i_collection_lower ≤
      (populate_step sqrt f n np nc cols base T (calculations_per_argument_set n T) st
        k).i_collection_upper ∧
    (populate_step sqrt f n np nc cols base T (calculations_per_argument_set n T) st
        k).i_collection_upper ≤ n ∧
    (2 * n < WORD →
      (populate_step sqrt f n np nc cols base T (calculations_per_argument_set n T) st
          k).i_results_offset =
        tri n (populate_step sqrt f n np nc cols base T (calculations_per_argument_set n T) st
          k).i_collection_lower) ∧
    (k + 1 = T →
      (populate_step sqrt f n np nc cols base T (calculations_per_argument_set n T) st
        k).i_collection_upper = n) ∧
    (k + 1 < T →
      populate_inv n T (calculations_per_argument_set n T : R) (k + 1)
        (populate_step sqrt f n np nc cols base T (calculations_per_argument_set n T) st k)) := by
  obtain ⟨h1, hsq, hup, hlu, hoff⟩ := hinv
  have hm : (1 : R) ≤ (T : R) - (k : R) := by
    have : ((k + 1 : Nat) : R) ≤ (T : R) := by exact_mod_cast hk
    push_cast at this
    linarith
  obtain ⟨u0, u1, usq⟩ := collections_used_spec sqrt hs
    (calculations_per_argument_set n T) st.n_collections_remaining ((T : R) - (k : R))
    (calculations_per_argument_set_nonneg n T) hm h1 hsq
  have hupn : st.i_collection_upper + 1 ≤ n := by
    have : ((st.i_collection_upper + 1 : Nat) : R) ≤ (n : R) := by
      push_cast
      linarith
    exact_mod_cast this
  have hfl0 : st.i_collection_upper ≤
      Nat.floor ((st.i_collection_upper : R) +
        collections_used sqrt (calculations_per_argument_set n T) st.n_collections_remaining) :=
    Nat.le_floor (by linarith)
  have hfl1 : ((Nat.floor ((st.i_collection_upper : R) +
        collections_used sqrt (calculations_per_argument_set n T) st.n_collections_remaining)
        : Nat) : R) ≤ (st.i_collection_upper : R) +
        collections_used sqrt (calculations_per_argument_set n T) st.n_collections_remaining :=
    Nat.floor_le (by positivity)
  have hfln : Nat.floor ((st.i_collection_upper : R) +
        collections_used sqrt (calculations_per_argument_set n T) st.n_collections_remaining)
        ≤ n := by
    have : ((Nat.floor ((st.i_collection_upper : R) +
        collections_used sqrt (calculations_per_argument_set n T) st.n_collections_remaining)
        : Nat) : R) ≤ (n : R) := by linarith
    exact_mod_cast this
  have hT1 : wsub T 1 = T - 1 := wsub_of_le hT hTW
  have hoff' : 2 * n < WORD →
      (populate_step sqrt f n np nc cols base T (calculations_per_argument_set n T) st
          k).i_results_offset =
        tri n (populate_step sqrt f n np nc cols base T (calculations_per_argument_set n T) st
          k).i_collection_lower := by
    intro hW
    simp only [populate_step]
    by_cases hk0 : k = 0
    · rw [if_pos hk0, if_pos hk0, tri_zero]
    · rw [if_neg hk0, if_neg hk0, hoff hW]
      exact results_offset_next_eq hlu hupn hW
  simp only [populate_step, hT1] at hoff' ⊢
  by_cases hlast : k = T - 1
  · simp only [if_pos hlast]
    refine ⟨?_, le_refl _, hoff', fun _ => trivial, fun h => by omega⟩
    by_cases hk0 : k = 0
    · rw [if_pos hk0]; exact Nat.zero_le _
    · rw [if_neg hk0]; omega
  · simp only [if_neg hlast]
    refine ⟨?_, hfln, hoff', fun h => by omega, fun _ => ?_⟩
    · by_cases hk0 : k = 0
      · rw [if_pos hk0]; exact Nat.zero_le _
      · rw [if_neg hk0]; exact hfl0
    · unfold populate_inv
      simp only [if_neg hlast]
      refine ⟨u1, ?_, by linarith, ?_, ?_⟩
      · rw [usq]
        push_cast
        ring
      · by_cases hk0 : k = 0
        · rw [if_pos hk0]; exact Nat.zero_le _
        · rw [if_neg hk0]; exact hfl0
      · intro hW
        have := hoff' hW
        simp only [if_neg hlast] at this
        exact this

/-- The invariant holds before every iteration. -/
theorem populate_inv_loop {n T : Nat} (sqrt : R → R) (hs : exact_sqrt sqrt)
    (f : Nat → Nat → (Nat → R) → (Nat → R) → R) (np nc : Nat) (cols : Nat → R) (base : Nat)
    (hn : 1 ≤ n) (hnW : n < WORD) (hT : 1 ≤ T) (hTW : T < WORD) :
    ∀ k, k < T → populate_inv n T (calculations_per_argument_set n T : R) k
      (populate_loop sqrt f n np nc cols base T k) := by
  intro k
  induction k with
  | zero => intro _; exact populate_inv_init hn hnW hT sqrt f np nc cols base
  | succ k ih =>
    intro hk
    rw [populate_loop_succ]
    exact (populate_step_spec sqrt hs f np nc cols base hT hTW (by omega) _
      (ih (by omega))).2.2.2.2 hk

/-- The entries of `a_argument_sets` written by the first `k` iterations. -/
theorem populate_loop_sets (sqrt : R → R) (f : Nat → Nat → (Nat → R) → (Nat → R) → R)
    (n np nc : Nat) (cols : Nat → R) (base T : Nat) :
    ∀ k, (populate_loop sqrt f n np nc cols base T k).a_argument_sets =
      (List.range k).map (fun j => argument_set_of f n np nc cols base
        (populate_loop sqrt f n np nc cols base T (j + 1)).i_results_offset
        (populate_loop sqrt f n np nc cols base T (j + 1)).i_collection_lower
        (populate_loop sqrt f n np nc cols base T (j + 1)).i_collection_upper) := by
  intro k
  induction k with
  | zero => rfl
  | succ k ih =>
    rw [List.range_succ, List.map_append, ← ih]
    simp only [List.map_cons, List.map_nil]
    rw [populate_loop_succ]
    rfl

theorem populate_loop_lower (sqrt : R → R) (f : Nat → Nat → (Nat → R) → (Nat → R) → R)
    (n np nc : Nat) (cols : Nat → R) (base T k : Nat) :
    (populate_loop sqrt f n np nc cols base T (k + 1)).i_collection_lower =
      if k = 0 then 0 else (populate_loop sqrt f n np nc cols base T k).i_collection_upper := by
  rw [populate_loop_succ]
  rfl

/-- The fields of the argument set written by iteration `k`. -/
theorem populate_loop_fields {n T : Nat} (sqrt : R → R) (hs : exact_sqrt sqrt)
    (f : Nat → Nat → (Nat → R) → (Nat → R) → R) (np nc : Nat) (cols : Nat → R) (base : Nat)
    (hn : 1 ≤ n) (hnW : n < WORD) (hT : 1 ≤ T) (hTW : T < WORD) (k : Nat) (hk : k < T) :
    (populate_loop sqrt f n np nc cols base T (k + 1)).i_collection_lower ≤
      (populate_loop sqrt f n np nc cols base T (k + 1)).i_collection_upper ∧
    (populate_loop sqrt f n np nc cols base T (k + 1)).i_collection_upper ≤ n ∧
    (2 * n < WORD →
      (populate_loop sqrt f n np nc cols base T (k + 1)).i_results_offset =
        tri n (populate_loop sqrt f n np nc cols base T (k + 1)).i_collection_lower) ∧
    (k + 1 = T → (populate_loop sqrt f n np nc cols base T (k + 1)).i_collection_upper = n) := by
  rw [populate_loop_succ]
  have h := populate_step_spec sqrt hs f np nc cols base hT hTW hk _
    (populate_inv_loop sqrt hs f np nc cols base hn hnW hT hTW k hk)
  exact ⟨h.1, h.2.1, h.2.2.1, h.2.2.2.1⟩

end PopulateLoop

theorem exact_sqrt_real : exact_sqrt Real.sqrt :=
  fun x hx => ⟨Real.sqrt_nonneg x, Real.mul_self_sqrt hx⟩

/-! ## Consecutive row ranges -/

theorem row_pairs_append {n lo mid hi : Nat} (h1 : lo ≤ mid) (h2 : mid ≤ hi) :
    row_pairs n lo mid ++ row_pairs n mid hi = row_pairs n lo hi := by
  unfold row_pairs
  rw [← List.flatMap_append]
  have h := List.range'_append_1 lo (mid - lo) (hi - mid)
  rw [show lo + (mid - lo) = mid by omega, show hi - mid + (mid - lo) = hi - lo by omega] at h
  rw [h]

theorem row_pairs_nodup (n lo hi : Nat) (h1 : lo ≤ hi) (h2 : hi ≤ n) :
    (row_pairs n lo hi).Nodup := by
  apply List.Nodup.of_map (fun p => pair_offset n p.1 p.2)
  rw [row_pairs_offsets_range h1 h2]
  exact List.nodup_range' _ _

theorem row_pairs_length (n lo hi : Nat) (h1 : lo ≤ hi) (h2 : hi ≤ n) :
    (row_pairs n lo hi).length = tri n hi - tri n lo := by
  have h := congrArg List.length (row_pairs_offsets_range h1 h2)
  rw [List.length_map, List.length_range'] at h
  exact h

/-- The closed-form triangular difference counts the pairs of the rows
`[lo, hi)`. -/
theorem pair_count_eq {n lo hi : Nat} (h1 : lo ≤ hi) (h2 : hi ≤ n) :
    pair_count n lo hi = tri n hi - tri n lo := by
  unfold pair_count
  rw [← row_pairs_length n lo hi h1 h2, ← List.toFinset_card_of_nodup (row_pairs_nodup n lo hi h1 h2)]
  congr 1
  ext ⟨i, j⟩
  simp only [Finset.mem_filter, Finset.mem_product, Finset.mem_range, List.mem_toFinset,
    mem_row_pairs]
  constructor
  · rintro ⟨⟨_, h4⟩, h5, h6, h7⟩
    exact ⟨h5, h6, h7, h4⟩
  · rintro ⟨h3, h4, h5, h6⟩
    exact ⟨⟨by omega, h6⟩, h3, h4, h5⟩

theorem covered_of_pos {U : Nat → Nat} {k : Nat} (h : 0 < k) : covered U k = U (k - 1) := by
  unfold covered
  rw [if_neg (by omega)]

theorem covered_eq_lower {n T : Nat} {L U : Nat → Nat} (hch : is_chain n T L U) {k : Nat}
    (hk : k < T) : covered U k = L k := by
  obtain ⟨h0, h1, _, _⟩ := hch
  rcases Nat.eq_zero_or_pos k with rfl | hpos
  · unfold covered
    rw [if_pos rfl, h0]
  · rw [covered_of_pos hpos]
    have := h1 (k - 1) (by omega)
    rw [show k - 1 + 1 = k by omega] at this
    exact this.symm

theorem covered_top {n T : Nat} {L U : Nat → Nat} (hch : is_chain n T L U) (hT : 1 ≤ T) :
    covered U T = n := by
  rw [covered_of_pos (by omega)]
  exact hch.2.2.2 hT

theorem covered_succ {n T : Nat} {L U : Nat → Nat} (hch : is_chain n T L U) {k : Nat}
    (hk : k < T) : covered U k ≤ covered U (k + 1) ∧ covered U (k + 1) ≤ n ∧
      covered U (k + 1) = U k := by
  have h := hch.2.2.1 k hk
  rw [covered_eq_lower hch hk, covered_of_pos (by omega), Nat.add_sub_cancel]
  exact ⟨h.1, h.2, rfl⟩

theorem covered_mono {n T : Nat} {L U : Nat → Nat} (hch : is_chain n T L U) :
    ∀ k m, m ≤ k → k ≤ T → covered U m ≤ covered U k := by
  intro k
  induction k with
  | zero => intro m hm _; rw [Nat.le_zero.1 hm]
  | succ k ih =>
    intro m hm hk
    rcases Nat.eq_or_lt_of_le hm with h | h
    · rw [h]
    · exact le_trans (ih m (by omega) (by omega)) (covered_succ hch (by omega)).1

/-- A row lies in one of the first `k` ranges exactly when it is below
`covered U k`. -/
theorem covered_rows {n T : Nat} {L U : Nat → Nat} (hch : is_chain n T L U) :
    ∀ k, k ≤ T → ∀ i, (∃ m, m < k ∧ L m ≤ i ∧ i < U m) ↔ i < covered U k := by
  intro k
  induction k with
  | zero =>
    intro _ i
    unfold covered
    simp
  | succ k ih =>
    intro hk i
    have hs := covered_succ hch (by omega : k < T)
    have hl := covered_eq_lower hch (by omega : k < T)
    rw [hs.2.2]
    constructor
    · rintro ⟨m, hm, h1, h2⟩
      rcases Nat.eq_or_lt_of_le (Nat.lt_succ_iff.1 hm) with h | h
      · subst h; exact h2
      · have := (ih (by omega) i).1 ⟨m, h, h1, h2⟩
        have := hs.1
        rw [hs.2.2] at this
        omega
    · intro h
      by_cases hc : i < covered U k
      · obtain ⟨m, hm, h1, h2⟩ := (ih (by omega) i).2 hc
        exact ⟨m, by omega, h1, h2⟩
      · exact ⟨k, by omega, by omega, h⟩

/-! ## Partitions built on a chain -/

theorem kernel_at_argument_set_of {D : Type} (f : Nat → Nat → (Nat → D) → (Nat → D) → D)
    (n np nc : Nat) (cols : Nat → D) (base off lo hi i j : Nat) :
    kernel_at (argument_set_of f n np nc cols base off lo hi) i j =
      kernel_at (single_argument_set f n np nc cols base) i j := rfl

/-- The stores of the argument set of the rows `[lo, hi)`. -/
theorem argument_set_of_stores {D : Type} (f : Nat → Nat → (Nat → D) → (Nat → D) → D)
    (n np nc : Nat) (cols : Nat → D) (base lo hi : Nat) (h1 : lo ≤ hi) (h2 : hi ≤ n) :
    (launch_bounded_stores (argument_set_of f n np nc cols base (tri n lo) lo hi)).2 =
      (row_pairs n lo hi).map (fun p => (base + pair_offset n p.1 p.2,
        kernel_at (single_argument_set f n np nc cols base) p.1 p.2)) := by
  rw [launch_bounded_stores_eq (argument_set_of f n np nc cols base (tri n lo) lo hi) base rfl
    h1 h2]
  rfl

theorem single_argument_set_stores {D : Type} (f : Nat → Nat → (Nat → D) → (Nat → D) → D)
    (n np nc : Nat) (cols : Nat → D) (base : Nat) :
    (launch_bounded_stores (single_argument_set f n np nc cols base)).2 =
      (row_pairs n 0 n).map (fun p => (base + pair_offset n p.1 p.2,
        kernel_at (single_argument_set f n np nc cols base) p.1 p.2)) := by
  rw [launch_bounded_stores_eq (single_argument_set f n np nc cols base) base
    (by simp [single_argument_set, tri_zero]) (Nat.zero_le _) (le_refl _)]
  rfl

theorem partition_of_getElem {D : Type} (f : Nat → Nat → (Nat → D) → (Nat → D) → D)
    (n np nc : Nat) (cols : Nat → D) (base : Nat) (O L U : Nat → Nat) (T k : Nat)
    (d : pairwise_as D) (h : (partition_of f n np nc cols base O L U T)[k]? = some d) :
    k < T ∧ d = argument_set_of f n np nc cols base (O k) (L k) (U k) := by
  unfold partition_of at h
  rw [List.getElem?_map] at h
  by_cases hk : k < T
  · rw [List.getElem?_range hk] at h
    simp only [Option.map_some', Option.some.injEq] at h
    exact ⟨hk, h.symm⟩
  · rw [List.getElem?_eq_none (by simp; omega)] at h
    simp at h

theorem partition_of_take {D : Type} (f : Nat → Nat → (Nat → D) → (Nat → D) → D)
    (n np nc : Nat) (cols : Nat → D) (base : Nat) (O L U : Nat → Nat) (T k : Nat) (hk : k ≤ T) :
    (partition_of f n np nc cols base O L U T).take k =
      partition_of f n np nc cols base O L U k := by
  unfold partition_of
  rw [← List.map_take, List.take_range, Nat.min_eq_left hk]

theorem mem_partition_of {D : Type} (f : Nat → Nat → (Nat → D) → (Nat → D) → D)
    (n np nc : Nat) (cols : Nat → D) (base : Nat) (O L U : Nat → Nat) (T : Nat)
    (d : pairwise_as D) :
    d ∈ partition_of f n np nc cols base O L U T ↔
      ∃ m, m < T ∧ d = argument_set_of f n np nc cols base (O m) (L m) (U m) := by
  unfold partition_of
  simp only [List.mem_map, List.mem_range]
  constructor
  · rintro ⟨m, hm, rfl⟩; exact ⟨m, hm, rfl⟩
  · rintro ⟨m, hm, rfl⟩; exact ⟨m, hm, rfl⟩

/-- The stores of the first `k` argument sets of a partition, in the order of the
array, are the stores of the rows `[0, covered U k)`. -/
theorem partition_of_stores {D : Type} (f : Nat → Nat → (Nat → D) → (Nat → D) → D)
    (n np nc : Nat) (cols : Nat → D) (base : Nat) (O L U : Nat → Nat) (T : Nat)
    (hch : is_chain n T L U) (hO : ∀ k, k < T → O k = tri n (L k)) :
    ∀ k, k ≤ T →
      (partition_of f n np nc cols base O L U k).flatMap
          (fun d => (launch_bounded_stores d).2) =
        (row_pairs n 0 (covered U k)).map (fun p => (base + pair_offset n p.1 p.2,
          kernel_at (single_argument_set f n np nc cols base) p.1 p.2)) := by
  intro k
  induction k with
  | zero =>
    intro _
    simp [partition_of, covered, row_pairs_self]
  | succ k ih =>
    intro hk
    have hs := covered_succ hch (by omega : k < T)
    have hl := covered_eq_lower hch (by omega : k < T)
    have hb := hch.2.2.1 k (by omega)
    unfold partition_of at ih ⊢
    rw [List.range_succ, List.map_append, List.flatMap_append, ih (by omega), List.map_cons,
      List.map_nil, List.flatMap_singleton, hO k (by omega),
      argument_set_of_stores f n np nc cols base (L k) (U k) hb.1 hb.2, ← List.map_append,
      hl, hs.2.2, row_pairs_append (Nat.zero_le _) hb.1]

/-! ## The partitioner: closed form of its output -/

/-- With an exact square root, the array written by
`_pairwise_populate_argument_sets` is a partition built on a chain of row
bounds; when `2 * n` is a `size_t`, each offset is the offset of the first row. -/
theorem populate_closed_form {R : Type} [LinearOrderedField R] [FloorSemiring R]
    (sqrt : R → R) (hs : exact_sqrt sqrt) (f : Nat → Nat → (Nat → R) → (Nat → R) → R)
    (n np nc : Nat) (cols : Nat → R) (base T : Nat)
    (hn : 1 ≤ n) (hnW : n < WORD) (hT : 1 ≤ T) (hTW : T < WORD) :
    ∃ O L U : Nat → Nat, is_chain n T L U ∧
      (2 * n < WORD → ∀ k, k < T → O k = tri n (L k)) ∧
      _pairwise_populate_argument_sets sqrt f n np nc cols base T =
        partition_of f n np nc cols base O L U T := by
  refine ⟨fun k => (populate_loop sqrt f n np nc cols base T (k + 1)).i_results_offset,
    fun k => (populate_loop sqrt f n np nc cols base T (k + 1)).i_collection_lower,
    fun k => (populate_loop sqrt f n np nc cols base T (k + 1)).i_collection_upper,
    ⟨?_, ?_, ?_, ?_⟩, ?_, ?_⟩
  · show (populate_loop sqrt f n np nc cols base T (0 + 1)).i_collection_lower = 0
    rw [populate_loop_lower, if_pos rfl]
  · intro k _
    show (populate_loop sqrt f n np nc cols base T (k + 1 + 1)).i_collection_lower = _
    rw [populate_loop_lower, if_neg (by omega)]
  · intro k hk
    have h := populate_loop_fields sqrt hs f np nc cols base hn hnW hT hTW k hk
    exact ⟨h.1, h.2.1⟩
  · intro _
    have h := populate_loop_fields sqrt hs f np nc cols base hn hnW hT hTW (T - 1) (by omega)
    have e : T - 1 + 1 = T := by omega
    exact h.2.2.2 e
  · intro hW k hk
    exact (populate_loop_fields sqrt hs f np nc cols base hn hnW hT hTW k hk).2.2.1 hW
  · unfold _pairwise_populate_argument_sets partition_of
    exact populate_loop_sets sqrt f n np nc cols base T T

theorem two_mul_lt_of_results_fit {n : Nat} (h : results_fit n) : 2 * n < WORD := by
  have := le_of_results_fit h
  rw [WORD_eq]
  omega

/-- Running argument sets one after the other replays their stores in order. -/
theorem foldl_launch_bounded {D : Type} :
    ∀ (l : List (pairwise_as D)) (results : Nat → D),
      l.foldl (fun r d => _pairwise_launch_bounded d r) results =
        (l.flatMap (fun d => (launch_bounded_stores d).2)).foldl store results := by
  intro l
  induction l with
  | nil => intro results; rfl
  | cons d rest ih =>
    intro results
    rw [List.foldl_cons, ih, List.flatMap_cons, List.foldl_append]
    rfl

/-- The worker of a partition entry writes the consecutive positions of its
rows and no other. -/
theorem argument_set_of_positions {D : Type} (f : Nat → Nat → (Nat → D) → (Nat → D) → D)
    (n np nc : Nat) (cols : Nat → D) (base lo hi : Nat) (h1 : lo ≤ hi) (h2 : hi ≤ n) :
    (launch_bounded_stores (argument_set_of f n np nc cols base (tri n lo) lo hi)).2.map
        Prod.fst =
      List.range' (base + tri n lo) (pair_count n lo hi) := by
  rw [launch_bounded_positions (argument_set_of f n np nc cols base (tri n lo) lo hi) base rfl
    h1 h2, pair_count_eq h1 h2]
  rfl


/-! ## Results on the partitioner and the workers -/

/-- C4: for every `size_t` count `n >= 2` and every `T` with `1 <= T <= n`, the
`T` argument sets built by `_pairwise_populate_argument_sets` (exact real
arithmetic, truncation toward zero) have contiguous, non-overlapping row ranges
covering `[0, n)`: `lower_0 = 0`, `upper_(T-1) = n`, `lower_(k+1) = upper_k`, and
`lower_k <= upper_k <= n` for every `k`. -/
theorem populate_rows_partition (f : Nat → Nat → (Nat → ℝ) → (Nat → ℝ) → ℝ)
    (n n_points n_coordinates : Nat) (a_collections : Nat → ℝ) (a_results T : Nat)
    (hn : 2 ≤ n) (hnW : n < WORD) (hT : 1 ≤ T) (hTn : T ≤ n) :
    (_pairwise_populate_argument_sets Real.sqrt f n n_points n_coordinates a_collections
      a_results T).length = T ∧
    (∀ d : pairwise_as ℝ, (_pairwise_populate_argument_sets Real.sqrt f n n_points n_coordinates a_collections
      a_results T)[0]? = some d → d.i_collection_lower = 0) ∧
    (∀ d : pairwise_as ℝ, (_pairwise_populate_argument_sets Real.sqrt f n n_points n_coordinates a_collections
      a_results T)[T - 1]? = some d → d.i_collection_upper = n) ∧
    (∀ (k : Nat) (d e : pairwise_as ℝ), (_pairwise_populate_argument_sets Real.sqrt f n n_points n_coordinates
        a_collections a_results T)[k]? = some d →
      (_pairwise_populate_argument_sets Real.sqrt f n n_points n_coordinates
        a_collections a_results T)[k + 1]? = some e →
      e.i_collection_lower = d.i_collection_upper) ∧
    (∀ (k : Nat) (d : pairwise_as ℝ), (_pairwise_populate_argument_sets Real.sqrt f n n_points n_coordinates
        a_collections a_results T)[k]? = some d →
      d.i_collection_lower ≤ d.i_collection_upper ∧ d.i_collection_upper ≤ n) := by
  obtain ⟨O, L, U, hch, _, hds⟩ := populate_closed_form Real.sqrt exact_sqrt_real f n n_points
    n_coordinates a_collections a_results T (by omega) hnW hT (by omega)
  rw [hds]
  refine ⟨by simp [partition_of], ?_, ?_, ?_, ?_⟩
  · intro d hd
    obtain ⟨_, rfl⟩ := partition_of_getElem _ _ _ _ _ _ _ _ _ _ _ _ hd
    exact hch.1
  · intro d hd
    obtain ⟨_, rfl⟩ := partition_of_getElem _ _ _ _ _ _ _ _ _ _ _ _ hd
    exact hch.2.2.2 hT
  · intro k d e hd he
    obtain ⟨_, rfl⟩ := partition_of_getElem _ _ _ _ _ _ _ _ _ _ _ _ hd
    obtain ⟨hk, rfl⟩ := partition_of_getElem _ _ _ _ _ _ _ _ _ _ _ _ he
    exact hch.2.1 k hk
  · intro k d hd
    obtain ⟨hk, rfl⟩ := partition_of_getElem _ _ _ _ _ _ _ _ _ _ _ _ hd
    exact hch.2.2.1 k hk

theorem populate_rows_partition_witness :
    (_pairwise_populate_argument_sets Real.sqrt (fun _ _ _ _ => 0) 4 1 1 (fun _ => 0)
      0 2).length = 2 ∧
    (∀ d : pairwise_as ℝ, (_pairwise_populate_argument_sets Real.sqrt (fun _ _ _ _ => 0) 4 1 1 (fun _ => 0)
      0 2)[0]? = some d → d.i_collection_lower = 0) ∧
    (∀ d : pairwise_as ℝ, (_pairwise_populate_argument_sets Real.sqrt (fun _ _ _ _ => 0) 4 1 1 (fun _ => 0)
      0 2)[2 - 1]? = some d → d.i_collection_upper = 4) ∧
    (∀ (k : Nat) (d e : pairwise_as ℝ), (_pairwise_populate_argument_sets Real.sqrt (fun _ _ _ _ => 0) 4 1 1
        (fun _ => 0) 0 2)[k]? = some d →
      (_pairwise_populate_argument_sets Real.sqrt (fun _ _ _ _ => 0) 4 1 1
        (fun _ => 0) 0 2)[k + 1]? = some e →
      e.i_collection_lower = d.i_collection_upper) ∧
    (∀ (k : Nat) (d : pairwise_as ℝ), (_pairwise_populate_argument_sets Real.sqrt (fun _ _ _ _ => 0) 4 1 1
        (fun _ => 0) 0 2)[k]? = some d →
      d.i_collection_lower ≤ d.i_collection_upper ∧ d.i_collection_upper ≤ 4) :=
  populate_rows_partition (fun _ _ _ _ => 0) 4 1 1 (fun _ => 0) 0 2 (by decide) (by decide)
    (by decide) (by decide)

/-- C6: for every `n >= 2` and `T >= 1` (the result buffer being an object of the
address space, `T` a `size_t`), the result offset of argument set `k` built by
`_pairwise_populate_argument_sets` (its `a_results` minus the buffer base) is the
number of pairs `(i, j)`, `i < j < n`, whose first index lies in the row ranges of
the argument sets `0..k-1`; argument set `0` has offset `0`. -/
theorem populate_offsets (f : Nat → Nat → (Nat → ℝ) → (Nat → ℝ) → ℝ)
    (n n_points n_coordinates : Nat) (a_collections : Nat → ℝ) (a_results T : Nat)
    (hn : 2 ≤ n) (hfit : results_fit n) (hT : 1 ≤ T) (hTW : T < WORD) :
    (∀ d : pairwise_as ℝ, (_pairwise_populate_argument_sets Real.sqrt f n n_points n_coordinates a_collections
      a_results T)[0]? = some d → d.a_results = a_results) ∧
    (∀ (k : Nat) (d : pairwise_as ℝ), (_pairwise_populate_argument_sets Real.sqrt f n n_points n_coordinates
        a_collections a_results T)[k]? = some d →
      d.a_results = a_results +
        ((Finset.range n ×ˢ Finset.range n).filter (fun p : Nat × Nat => p.1 < p.2 ∧
          ∃ e ∈ (_pairwise_populate_argument_sets Real.sqrt f n n_points n_coordinates
            a_collections a_results T).take k,
            e.i_collection_lower ≤ p.1 ∧ p.1 < e.i_collection_upper)).card) := by
  have hW := two_mul_lt_of_results_fit hfit
  obtain ⟨O, L, U, hch, hO, hds⟩ := populate_closed_form Real.sqrt exact_sqrt_real f n n_points
    n_coordinates a_collections a_results T (by omega) (by omega) hT hTW
  rw [hds]
  constructor
  · intro d hd
    obtain ⟨h0, rfl⟩ := partition_of_getElem _ _ _ _ _ _ _ _ _ _ _ _ hd
    show a_results + O 0 = a_results
    rw [hO hW 0 h0, hch.1, tri_zero, Nat.add_zero]
  · intro k d hd
    obtain ⟨hk, rfl⟩ := partition_of_getElem _ _ _ _ _ _ _ _ _ _ _ _ hd
    show a_results + O k = _
    rw [hO hW k hk, partition_of_take _ _ _ _ _ _ _ _ _ _ _ (by omega : k ≤ T)]
    congr 1
    have hLn : L k ≤ n := le_trans (hch.2.2.1 k hk).1 (hch.2.2.1 k hk).2
    have hpc := pair_count_eq (Nat.zero_le (L k)) hLn
    rw [tri_zero, Nat.sub_zero] at hpc
    rw [← hpc]
    unfold pair_count
    congr 1
    apply Finset.filter_congr
    rintro ⟨i, j⟩ _
    have hcov := covered_rows hch k (by omega) i
    rw [covered_eq_lower hch hk] at hcov
    simp only [mem_partition_of]
    constructor
    · rintro ⟨_, h2, h3⟩
      obtain ⟨m, hm, h4, h5⟩ := hcov.2 h2
      exact ⟨h3, _, ⟨m, hm, rfl⟩, h4, h5⟩
    · rintro ⟨h1, e, ⟨m, hm, rfl⟩, h2, h3⟩
      exact ⟨Nat.zero_le _, hcov.1 ⟨m, hm, h2, h3⟩, h1⟩


theorem populate_offsets_witness :
    (∀ d : pairwise_as ℝ, (_pairwise_populate_argument_sets Real.sqrt (fun _ _ _ _ => 0) 4 1 1
      (fun _ => 0) 0 2)[0]? = some d → d.a_results = 0) ∧
    (∀ (k : Nat) (d : pairwise_as ℝ), (_pairwise_populate_argument_sets Real.sqrt
        (fun _ _ _ _ => 0) 4 1 1 (fun _ => 0) 0 2)[k]? = some d →
      d.a_results = 0 +
        ((Finset.range 4 ×ˢ Finset.range 4).filter (fun p : Nat × Nat => p.1 < p.2 ∧
          ∃ e ∈ (_pairwise_populate_argument_sets Real.sqrt (fun _ _ _ _ => 0) 4 1 1
            (fun _ => 0) 0 2).take k,
            e.i_collection_lower ≤ p.1 ∧ p.1 < e.i_collection_upper)).card) :=
  populate_offsets (fun _ _ _ _ => 0) 4 1 1 (fun _ => 0) 0 2 (by decide) (by decide)
    (by decide) (by decide)

/-- C7: for the `T` argument sets built by `_pairwise_populate_argument_sets`
(`n >= 2`, `T >= 1`, the result buffer an object of the address space), the
worker of argument set `k` stores to exactly the positions
`[offset_k, offset_k + pairs_k)`, once each, and leaves every other position
unchanged; the `T` intervals are pairwise disjoint and, taken in the order of the
array, they are exactly the positions `a_results, ..., a_results + n (n - 1) / 2 - 1`,
each written once. -/
theorem populate_workers_disjoint (f : Nat → Nat → (Nat → ℝ) → (Nat → ℝ) → ℝ)
    (n n_points n_coordinates : Nat) (a_collections : Nat → ℝ) (a_results T : Nat)
    (hn : 2 ≤ n) (hfit : results_fit n) (hT : 1 ≤ T) (hTW : T < WORD) :
    (∀ (k : Nat) (d : pairwise_as ℝ), (_pairwise_populate_argument_sets Real.sqrt f n n_points
        n_coordinates a_collections a_results T)[k]? = some d →
      (launch_bounded_stores d).2.map Prod.fst =
        List.range' d.a_results (pair_count n d.i_collection_lower d.i_collection_upper) ∧
      ∀ (results : Nat → ℝ) (p : Nat),
        (p < d.a_results ∨
          d.a_results + pair_count n d.i_collection_lower d.i_collection_upper ≤ p) →
        _pairwise_launch_bounded d results p = results p) ∧
    (∀ (k m : Nat) (d e : pairwise_as ℝ), k < m →
      (_pairwise_populate_argument_sets Real.sqrt f n n_points n_coordinates a_collections
        a_results T)[k]? = some d →
      (_pairwise_populate_argument_sets Real.sqrt f n n_points n_coordinates a_collections
        a_results T)[m]? = some e →
      d.a_results + pair_count n d.i_collection_lower d.i_collection_upper ≤ e.a_results) ∧
    (_pairwise_populate_argument_sets Real.sqrt f n n_points n_coordinates a_collections
        a_results T).flatMap (fun d => (launch_bounded_stores d).2.map Prod.fst) =
      List.range' a_results (n * (n - 1) / 2) := by
  have hW := two_mul_lt_of_results_fit hfit
  obtain ⟨O, L, U, hch, hO, hds⟩ := populate_closed_form Real.sqrt exact_sqrt_real f n n_points
    n_coordinates a_collections a_results T (by omega) (by omega) hT hTW
  rw [hds]
  have hpos : ∀ k, k < T →
      (launch_bounded_stores (argument_set_of f n n_points n_coordinates a_collections a_results
        (O k) (L k) (U k))).2.map Prod.fst =
      List.range' (a_results + O k) (pair_count n (L k) (U k)) := by
    intro k hk
    rw [hO hW k hk]
    exact argument_set_of_positions f n n_points n_coordinates a_collections a_results (L k)
      (U k) (hch.2.2.1 k hk).1 (hch.2.2.1 k hk).2
  refine ⟨?_, ?_, ?_⟩
  · intro k d hd
    obtain ⟨hk, rfl⟩ := partition_of_getElem _ _ _ _ _ _ _ _ _ _ _ _ hd
    refine ⟨hpos k hk, ?_⟩
    intro results p hp
    unfold _pairwise_launch_bounded
    apply foldl_store_of_not_mem
    rw [hpos k hk, List.mem_range'_1]
    have e : (argument_set_of f n n_points n_coordinates a_collections a_results
        (O k) (L k) (U k)).a_results = a_results + O k := rfl
    have e1 : (argument_set_of f n n_points n_coordinates a_collections a_results
        (O k) (L k) (U k)).i_collection_lower = L k := rfl
    have e2 : (argument_set_of f n n_points n_coordinates a_collections a_results
        (O k) (L k) (U k)).i_collection_upper = U k := rfl
    rw [e, e1, e2] at hp
    omega
  · intro k m d e hkm hd he
    obtain ⟨hk, rfl⟩ := partition_of_getElem _ _ _ _ _ _ _ _ _ _ _ _ hd
    obtain ⟨hm, rfl⟩ := partition_of_getElem _ _ _ _ _ _ _ _ _ _ _ _ he
    show a_results + O k + pair_count n (L k) (U k) ≤ a_results + O m
    rw [hO hW k hk, hO hW m hm, pair_count_eq (hch.2.2.1 k hk).1 (hch.2.2.1 k hk).2]
    have h1 : tri n (L k) ≤ tri n (U k) := tri_mono (hch.2.2.1 k hk).1 (hch.2.2.1 k hk).2
    have h2 : U k ≤ L m := by
      have := covered_mono hch m (k + 1) (by omega) (by omega)
      rw [(covered_succ hch hk).2.2, covered_eq_lower hch hm] at this
      exact this
    have h3 : tri n (U k) ≤ tri n (L m) :=
      tri_mono h2 (le_trans (hch.2.2.1 m hm).1 (hch.2.2.1 m hm).2)
    omega
  · have h := congrArg (List.map Prod.fst)
      (partition_of_stores f n n_points n_coordinates a_collections a_results O L U T hch
        (hO hW) T (le_refl _))
    rw [List.map_flatMap, covered_top hch hT, ← single_argument_set_stores,
      launch_bounded_positions (single_argument_set f n n_points n_coordinates a_collections
        a_results) a_results (by simp [single_argument_set, tri_zero]) (Nat.zero_le _)
        (le_refl _)] at h
    rw [h]
    simp [single_argument_set, tri_zero, tri_self]

theorem populate_workers_disjoint_witness :
    (∀ (k : Nat) (d : pairwise_as ℝ), (_pairwise_populate_argument_sets Real.sqrt
        (fun _ _ _ _ => 0) 4 1 1 (fun _ => 0) 0 2)[k]? = some d →
      (launch_bounded_stores d).2.map Prod.fst =
        List.range' d.a_results (pair_count 4 d.i_collection_lower d.i_collection_upper) ∧
      ∀ (results : Nat → ℝ) (p : Nat),
        (p < d.a_results ∨
          d.a_results + pair_count 4 d.i_collection_lower d.i_collection_upper ≤ p) →
        _pairwise_launch_bounded d results p = results p) ∧
    (∀ (k m : Nat) (d e : pairwise_as ℝ), k < m →
      (_pairwise_populate_argument_sets Real.sqrt (fun _ _ _ _ => 0) 4 1 1 (fun _ => 0)
        0 2)[k]? = some d →
      (_pairwise_populate_argument_sets Real.sqrt (fun _ _ _ _ => 0) 4 1 1 (fun _ => 0)
        0 2)[m]? = some e →
      d.a_results + pair_count 4 d.i_collection_lower d.i_collection_upper ≤ e.a_results) ∧
    (_pairwise_populate_argument_sets Real.sqrt (fun _ _ _ _ => 0) 4 1 1 (fun _ => 0)
        0 2).flatMap (fun d => (launch_bounded_stores d).2.map Prod.fst) =
      List.range' 0 (4 * (4 - 1) / 2) :=
  populate_workers_disjoint (fun _ _ _ _ => 0) 4 1 1 (fun _ => 0) 0 2 (by decide) (by decide)
    (by decide) (by decide)

/-- C5: for every kernel, every collections buffer with `n >= 2` collections and
non-zero extents, and every `k > 1` (`k` a `size_t`, the result buffer an object
of the address space): running every one of the `k` argument sets built by
`_pairwise_populate_argument_sets` through `_pairwise_launch_bounded`, in any
order, leaves the result buffer identical, position by position, to the buffer
left by the single-thread path (one argument set over rows `[0, n)` at the start
of the buffer). -/
theorem launch_order_independent (f : Nat → Nat → (Nat → ℝ) → (Nat → ℝ) → ℝ)
    (n n_points n_coordinates : Nat) (a_collections : Nat → ℝ) (a_results k : Nat)
    (results : Nat → ℝ) (order : List (pairwise_as ℝ))
    (hn : 2 ≤ n) (_hp : 0 < n_points) (_hc : 0 < n_coordinates) (hk : 1 < k) (hkW : k < WORD)
    (hfit : results_fit n)
    (horder : order.Perm (_pairwise_populate_argument_sets Real.sqrt f n n_points
      n_coordinates a_collections a_results k)) :
    order.foldl (fun r d => _pairwise_launch_bounded d r) results =
      _pairwise_launch_bounded
        (single_argument_set f n n_points n_coordinates a_collections a_results) results := by
  have hW := two_mul_lt_of_results_fit hfit
  obtain ⟨O, L, U, hch, hO, hds⟩ := populate_closed_form Real.sqrt exact_sqrt_real f n n_points
    n_coordinates a_collections a_results k (by omega) (by omega) (by omega) hkW
  rw [hds] at horder
  have hst := partition_of_stores f n n_points n_coordinates a_collections a_results O L U k
    hch (hO hW) k (le_refl _)
  rw [covered_top hch (by omega), ← single_argument_set_stores] at hst
  have hperm := horder.flatMap_right (fun d => (launch_bounded_stores d).2)
  rw [hst] at hperm
  have hnd : ((launch_bounded_stores (single_argument_set f n n_points n_coordinates
      a_collections a_results)).2.map Prod.fst).Nodup := by
    rw [launch_bounded_positions (single_argument_set f n n_points n_coordinates a_collections
      a_results) a_results (by simp [single_argument_set, tri_zero]) (Nat.zero_le _)
      (le_refl _)]
    exact List.nodup_range' _ _
  rw [foldl_launch_bounded]
  unfold _pairwise_launch_bounded
  exact (foldl_store_perm results hperm.symm hnd).symm

theorem launch_order_independent_witness :
    ((_pairwise_populate_argument_sets Real.sqrt (fun _ _ a b => a 0 + b 0) 4 1 1
        (fun t => (t : ℝ)) 0 2).reverse).foldl (fun r d => _pairwise_launch_bounded d r)
        (fun _ => 0) =
      _pairwise_launch_bounded
        (single_argument_set (fun _ _ a b => a 0 + b 0) 4 1 1 (fun t => (t : ℝ)) 0)
        (fun _ => 0) :=
  launch_order_independent (fun _ _ a b => a 0 + b 0) 4 1 1 (fun t => (t : ℝ)) 0 2
    (fun _ => 0) _ (by decide) (by decide) (by decide) (by decide) (by decide) (by decide)
    (List.reverse_perm _)

/-! ## The launcher: its loops -/

/-- The thread indices `t - 1, t - 2, ..., k`, in this order. -/
theorem range'_reverse_succ (k t : Nat) (h : k ≤ t) :
    (List.range' k (t + 1 - k)).reverse = t :: (List.range' k (t - k)).reverse := by
  have e : t + 1 - k = (t - k) + 1 := by omega
  rw [e, List.range'_1_concat, List.reverse_append]
  simp only [List.reverse_cons, List.reverse_nil, List.nil_append, List.singleton_append]
  congr 1
  omega

/-- All starts succeed: the loop starts the threads `t - 1, ..., 0`. -/
theorem create_loop_ok (env : launch_env) :
    ∀ t, (∀ i, i < t → env.create_return i = 0) →
      create_loop env t = ((List.range' 0 t).reverse.map (fun i => launch_event.create i 0),
        none) := by
  intro t
  induction t with
  | zero => intro _; rfl
  | succ t ih =>
    intro h
    have h0 := h t (by omega)
    have ih' := ih (fun i hi => h i (by omega))
    unfold create_loop
    rw [if_neg (by rw [h0]; exact fun hh => hh rfl), ih', h0]
    have := range'_reverse_succ 0 t (Nat.zero_le _)
    simp only [Nat.sub_zero] at this
    rw [this]
    rfl

/-- The start of thread `k` is the first to fail: the loop starts the threads
`t - 1, ..., k` and stops with `i_thread = k + 1`. -/
theorem create_loop_fail (env : launch_env) (k : Nat) (hfail : env.create_return k ≠ 0) :
    ∀ t, k < t → (∀ i, k < i → i < t → env.create_return i = 0) →
      create_loop env t =
        ((List.range' k (t - k)).reverse.map (fun i => launch_event.create i (env.create_return i)),
          some (k + 1, env.create_return k)) := by
  intro t
  induction t with
  | zero => intro h; omega
  | succ t ih =>
    intro hk h
    unfold create_loop
    rcases Nat.eq_or_lt_of_le (Nat.lt_succ_iff.1 hk) with heq | hlt
    · subst heq
      rw [if_pos hfail]
      have : k + 1 - k = 1 := by omega
      rw [this]
      rfl
    · have h0 := h t hlt (by omega)
      have ih' := ih hlt (fun i hi1 hi2 => h i hi1 (by omega))
      rw [if_neg (by rw [h0]; exact fun hh => hh rfl), ih', range'_reverse_succ k t (by omega)]
      rfl

theorem join_loop_ok (env : launch_env) :
    ∀ t, (∀ i, i < t → env.join_return i = 0) →
      join_loop env t = ((List.range' 0 t).reverse.map (fun i => launch_event.join i 0),
        none) := by
  intro t
  induction t with
  | zero => intro _; rfl
  | succ t ih =>
    intro h
    have h0 := h t (by omega)
    have ih' := ih (fun i hi => h i (by omega))
    unfold join_loop
    rw [if_neg (by rw [h0]; exact fun hh => hh rfl), ih', h0]
    have := range'_reverse_succ 0 t (Nat.zero_le _)
    simp only [Nat.sub_zero] at this
    rw [this]
    rfl

theorem join_loop_fail (env : launch_env) (k : Nat) (hfail : env.join_return k ≠ 0) :
    ∀ t, k < t → (∀ i, k < i → i < t → env.join_return i = 0) →
      join_loop env t =
        ((List.range' k (t - k)).reverse.map (fun i => launch_event.join i (env.join_return i)),
          some (k + 1, env.join_return k)) := by
  intro t
  induction t with
  | zero => intro h; omega
  | succ t ih =>
    intro hk h
    unfold join_loop
    rcases Nat.eq_or_lt_of_le (Nat.lt_succ_iff.1 hk) with heq | hlt
    · subst heq
      rw [if_pos hfail]
      have : k + 1 - k = 1 := by omega
      rw [this]
      rfl
    · have h0 := h t hlt (by omega)
      have ih' := ih hlt (fun i hi1 hi2 => h i hi1 (by omega))
      rw [if_neg (by rw [h0]; exact fun hh => hh rfl), ih', range'_reverse_succ k t (by omega)]
      rfl

/-- The loops make calls on threads only. -/
theorem create_loop_events (env : launch_env) :
    ∀ t e, e ∈ (create_loop env t).1 → ∃ i r, e = launch_event.create i r := by
  intro t
  induction t with
  | zero => intro e h; simp [create_loop] at h
  | succ t ih =>
    intro e h
    unfold create_loop at h
    split at h
    · simp only [List.mem_singleton] at h
      exact ⟨_, _, h⟩
    · rcases List.mem_cons.1 h with h1 | h1
      · exact ⟨_, _, h1⟩
      · exact ih e h1

theorem join_loop_events (env : launch_env) :
    ∀ t e, e ∈ (join_loop env t).1 → ∃ i r, e = launch_event.join i r := by
  intro t
  induction t with
  | zero => intro e h; simp [join_loop] at h
  | succ t ih =>
    intro e h
    unfold join_loop at h
    split at h
    · simp only [List.mem_singleton] at h
      exact ⟨_, _, h⟩
    · rcases List.mem_cons.1 h with h1 | h1
      · exact ⟨_, _, h1⟩
      · exact ih e h1

theorem cancel_loop_events (i_thread n_threads : Nat) (e : launch_event)
    (h : e ∈ cancel_loop i_thread n_threads) : ∃ i, e = launch_event.cancel i := by
  unfold cancel_loop at h
  obtain ⟨i, _, rfl⟩ := List.mem_map.1 h
  exact ⟨i, rfl⟩


/-! ## The launcher: its exit paths -/

section LauncherPaths

variable {R : Type} [LinearOrderedField R] [FloorSemiring R]

theorem launch_zero_work (env : launch_env) (sqrt : R → R)
    (f : Nat → Nat → (Nat → R) → (Nat → R) → R) (n np nc : Nat) (cols results : Nat → R)
    (T : Nat) (h : n < 2 ∨ np = 0 ∨ nc = 0) :
    _pairwise_launch env sqrt f n np nc cols results T =
      { n_return := PAIRWISE_RETURN_SUCCESS, events := [], a_results := some results } := by
  unfold _pairwise_launch
  rw [if_pos h]

theorem launch_zero_threads (env : launch_env) (sqrt : R → R)
    (f : Nat → Nat → (Nat → R) → (Nat → R) → R) (n np nc : Nat) (cols results : Nat → R)
    (hn : 2 ≤ n) (hp : 0 < np) (hc : 0 < nc) :
    _pairwise_launch env sqrt f n np nc cols results 0 =
      { n_return := PAIRWISE_RETURN_ERROR_NTHREADS, events := [], a_results := some results } := by
  unfold _pairwise_launch
  rw [if_neg (by omega), if_pos rfl]

/-- The outcome when the start of thread `k` is the first to fail. -/
theorem launch_create_failure (env : launch_env) (sqrt : R → R)
    (f : Nat → Nat → (Nat → R) → (Nat → R) → R) (n np nc : Nat) (cols results : Nat → R)
    (T k : Nat) (hn : 2 ≤ n) (hp : 0 < np) (hc : 0 < nc) (hT : 2 ≤ T)
    (hm1 : env.malloc_argument_sets_ok = true) (hm2 : env.malloc_threads_ok = true)
    (hk : k < T) (hfail : env.create_return k ≠ 0)
    (hok : ∀ i, k < i → i < T → env.create_return i = 0) :
    _pairwise_launch env sqrt f n np nc cols results T =
      { n_return := create_status (env.create_return k)
        events := [launch_event.malloc_argument_sets true, launch_event.malloc_threads true]
          ++ (List.range' k (T - k)).reverse.map
            (fun i => launch_event.create i (env.create_return i))
          ++ (List.range' (k + 1) (T - (k + 1))).map launch_event.cancel
          ++ [launch_event.free_argument_sets, launch_event.free_threads]
        a_results := if k + 1 = T then some results else none } := by
  unfold _pairwise_launch
  rw [if_neg (by omega), if_neg (by omega), if_neg (by rw [hm1]; decide), if_neg (by omega),
    if_neg (by rw [hm2]; decide), create_loop_fail env k hfail T hk hok]
  rfl

/-- The outcome when every start succeeds and the join of thread `k` is the
first to fail. -/
theorem launch_join_failure (env : launch_env) (sqrt : R → R)
    (f : Nat → Nat → (Nat → R) → (Nat → R) → R) (n np nc : Nat) (cols results : Nat → R)
    (T k : Nat) (hn : 2 ≤ n) (hp : 0 < np) (hc : 0 < nc) (hT : 2 ≤ T)
    (hm1 : env.malloc_argument_sets_ok = true) (hm2 : env.malloc_threads_ok = true)
    (hcr : ∀ i, i < T → env.create_return i = 0)
    (hk : k < T) (hfail : env.join_return k ≠ 0)
    (hok : ∀ i, k < i → i < T → env.join_return i = 0) :
    _pairwise_launch env sqrt f n np nc cols results T =
      { n_return := join_status (env.join_return k)
        events := [launch_event.malloc_argument_sets true, launch_event.malloc_threads true]
          ++ (List.range' 0 T).reverse.map (fun i => launch_event.create i 0)
          ++ (List.range' k (T - k)).reverse.map
            (fun i => launch_event.join i (env.join_return i))
          ++ (List.range' (k + 1) (T - (k + 1))).map launch_event.cancel
          ++ [launch_event.free_argument_sets, launch_event.free_threads]
        a_results := none } := by
  unfold _pairwise_launch
  rw [if_neg (by omega), if_neg (by omega), if_neg (by rw [hm1]; decide), if_neg (by omega),
    if_neg (by rw [hm2]; decide), create_loop_ok env T hcr, join_loop_fail env k hfail T hk hok]
  rfl

/-- The outcome when every start and every join succeeds. -/
theorem launch_success (env : launch_env) (sqrt : R → R)
    (f : Nat → Nat → (Nat → R) → (Nat → R) → R) (n np nc : Nat) (cols results : Nat → R)
    (T : Nat) (hn : 2 ≤ n) (hp : 0 < np) (hc : 0 < nc) (hT : 2 ≤ T)
    (hm1 : env.malloc_argument_sets_ok = true) (hm2 : env.malloc_threads_ok = true)
    (hcr : ∀ i, i < T → env.create_return i = 0)
    (hjn : ∀ i, i < T → env.join_return i = 0) :
    _pairwise_launch env sqrt f n np nc cols results T =
      { n_return := PAIRWISE_RETURN_SUCCESS
        events := [launch_event.malloc_argument_sets true, launch_event.malloc_threads true]
          ++ (List.range' 0 T).reverse.map (fun i => launch_event.create i 0)
          ++ (List.range' 0 T).reverse.map (fun i => launch_event.join i 0)
          ++ [launch_event.free_argument_sets, launch_event.free_threads]
        a_results := some ((_pairwise_populate_argument_sets sqrt f n np nc cols 0 T).foldl
          (fun r d => _pairwise_launch_bounded d r) results) } := by
  unfold _pairwise_launch
  rw [if_neg (by omega), if_neg (by omega), if_neg (by rw [hm1]; decide), if_neg (by omega),
    if_neg (by rw [hm2]; decide), create_loop_ok env T hcr, join_loop_ok env T hjn]

end LauncherPaths


/-! ## The launcher: scratch memory -/

theorem not_thread_call_not_mem {l : List launch_event} (h : ∀ e ∈ l, is_thread_call e = true)
    {x : launch_event} (hx : is_thread_call x = false) : x ∉ l := by
  intro hm
  have := h x hm
  rw [hx] at this
  exact absurd this (by decide)

theorem create_loop_thread_calls (env : launch_env) (t : Nat) :
    ∀ e ∈ (create_loop env t).1, is_thread_call e = true := by
  intro e he
  obtain ⟨i, r, rfl⟩ := create_loop_events env t e he
  rfl

theorem join_loop_thread_calls (env : launch_env) (t : Nat) :
    ∀ e ∈ (join_loop env t).1, is_thread_call e = true := by
  intro e he
  obtain ⟨i, r, rfl⟩ := join_loop_events env t e he
  rfl

theorem cancel_loop_thread_calls (i_thread n_threads : Nat) :
    ∀ e ∈ cancel_loop i_thread n_threads, is_thread_call e = true := by
  intro e he
  obtain ⟨i, rfl⟩ := cancel_loop_events i_thread n_threads e he
  rfl

/-- Both arrays allocated, calls on threads only, both arrays released. -/
theorem scratch_released_of_thread_calls (mid : List launch_event)
    (h : ∀ e ∈ mid, is_thread_call e = true) :
    scratch_released ([launch_event.malloc_argument_sets true, launch_event.malloc_threads true]
      ++ mid ++ [launch_event.free_argument_sets, launch_event.free_threads]) := by
  have c1 : mid.count launch_event.free_argument_sets = 0 :=
    List.count_eq_zero.2 (not_thread_call_not_mem h rfl)
  have c2 : mid.count launch_event.free_threads = 0 :=
    List.count_eq_zero.2 (not_thread_call_not_mem h rfl)
  have c3 : mid.count (launch_event.malloc_argument_sets true) = 0 :=
    List.count_eq_zero.2 (not_thread_call_not_mem h rfl)
  have c4 : mid.count (launch_event.malloc_threads true) = 0 :=
    List.count_eq_zero.2 (not_thread_call_not_mem h rfl)
  unfold scratch_released
  refine ⟨⟨?_, ?_, ?_⟩, ?_, ?_, ?_⟩
  · simp [List.count_append, List.count_cons, c1, c3]
  · simp [List.count_append, List.count_cons, c3]
  · intro _
    simp only [List.cons_append, List.nil_append]
    apply List.Sublist.cons₂
    apply List.singleton_sublist.2
    simp
  · simp [List.count_append, List.count_cons, c2, c4]
  · simp [List.count_append, List.count_cons, c4]
  · intro _
    simp only [List.cons_append, List.nil_append]
    apply List.Sublist.cons
    apply List.Sublist.cons₂
    apply List.singleton_sublist.2
    simp

theorem scratch_released_nil : scratch_released [] := by
  unfold scratch_released
  simp

theorem scratch_released_malloc_fail :
    scratch_released [launch_event.malloc_argument_sets false] := by
  unfold scratch_released
  simp [List.count_cons]

theorem scratch_released_single :
    scratch_released [launch_event.malloc_argument_sets true, launch_event.launch_bounded 0,
      launch_event.free_argument_sets] := by
  unfold scratch_released
  refine ⟨⟨by simp [List.count_cons], by simp [List.count_cons], fun _ => ?_⟩,
    by simp [List.count_cons], by simp [List.count_cons], fun h => ?_⟩
  · apply List.Sublist.cons₂
    apply List.singleton_sublist.2
    simp
  · simp at h

theorem scratch_released_threads_fail :
    scratch_released [launch_event.malloc_argument_sets true, launch_event.malloc_threads false,
      launch_event.free_argument_sets] := by
  unfold scratch_released
  refine ⟨⟨by simp [List.count_cons], by simp [List.count_cons], fun _ => ?_⟩,
    by simp [List.count_cons], by simp [List.count_cons], fun h => ?_⟩
  · apply List.Sublist.cons₂
    apply List.singleton_sublist.2
    simp
  · simp at h


/-! ## Results on the launcher -/

/-- C11: a full run over the rows `[0, n)` produces exactly `n (n - 1) / 2`
results. `_pairwise_launch_bounded` with `lower = 0` and `upper = n` advances the
write cursor by `n (n - 1) / 2` positions and makes `n (n - 1) / 2` stores, the
stored values being the kernel applied once to each pair `(i, j)`, `i < j < n`,
in row order. -/
theorem launch_bounded_full_run {D : Type} (f : Nat → Nat → (Nat → D) → (Nat → D) → D)
    (n n_points n_coordinates : Nat) (a_collections : Nat → D) (a_results : Nat) :
    (launch_bounded_stores
        (single_argument_set f n n_points n_coordinates a_collections a_results)).1 =
      a_results + n * (n - 1) / 2 ∧
    (launch_bounded_stores
        (single_argument_set f n n_points n_coordinates a_collections a_results)).2.length =
      n * (n - 1) / 2 ∧
    (launch_bounded_stores
        (single_argument_set f n n_points n_coordinates a_collections a_results)).2.map Prod.snd =
      (row_pairs n 0 n).map (fun p =>
        kernel_at (single_argument_set f n n_points n_coordinates a_collections a_results)
          p.1 p.2) ∧
    (row_pairs n 0 n).length = n * (n - 1) / 2 := by
  have h := launch_bounded_stores_eq
    (single_argument_set f n n_points n_coordinates a_collections a_results) a_results
    (by simp [single_argument_set, tri_zero]) (Nat.zero_le _) (le_refl _)
  have hl := row_pairs_length n 0 n (Nat.zero_le _) (le_refl _)
  rw [tri_zero, Nat.sub_zero, tri_self] at hl
  rw [h]
  refine ⟨?_, ?_, ?_, hl⟩
  · show a_results + tri n n = _
    rw [tri_self]
  · rw [List.length_map]
    exact hl
  · rw [List.map_map]
    rfl

/-- C12: zero total work short-circuits. For every call of `_pairwise_launch` with
`n_collections < 2`, or `n_points = 0`, or `n_coordinates = 0`, and for every
`n_threads` (including `0`), the call returns success, makes no call at all
(no allocation, no thread, no worker, hence no kernel call) and leaves the
result buffer as it was. -/
theorem launch_zero_work_short_circuits {R : Type} [LinearOrderedField R] [FloorSemiring R]
    (env : launch_env) (sqrt : R → R) (f : Nat → Nat → (Nat → R) → (Nat → R) → R)
    (n_collections n_points n_coordinates : Nat) (a_collections results : Nat → R)
    (n_threads : Nat) (h : n_collections < 2 ∨ n_points = 0 ∨ n_coordinates = 0) :
    (_pairwise_launch env sqrt f n_collections n_points n_coordinates a_collections results
      n_threads).n_return = PAIRWISE_RETURN_SUCCESS ∧
    (_pairwise_launch env sqrt f n_collections n_points n_coordinates a_collections results
      n_threads).events = [] ∧
    (_pairwise_launch env sqrt f n_collections n_points n_coordinates a_collections results
      n_threads).a_results = some results := by
  rw [launch_zero_work env sqrt f n_collections n_points n_coordinates a_collections results
    n_threads h]
  exact ⟨rfl, rfl, rfl⟩

theorem launch_zero_work_short_circuits_witness :
    (_pairwise_launch ⟨true, true, fun _ => 0, fun _ => 0⟩ Real.sqrt (fun _ _ a b => a 0 + b 0)
      4 0 3 (fun _ => 1) (fun _ => 7) 0).n_return = PAIRWISE_RETURN_SUCCESS ∧
    (_pairwise_launch ⟨true, true, fun _ => 0, fun _ => 0⟩ Real.sqrt (fun _ _ a b => a 0 + b 0)
      4 0 3 (fun _ => 1) (fun _ => 7) 0).events = [] ∧
    (_pairwise_launch ⟨true, true, fun _ => 0, fun _ => 0⟩ Real.sqrt (fun _ _ a b => a 0 + b 0)
      4 0 3 (fun _ => 1) (fun _ => 7) 0).a_results = some (fun _ => 7) :=
  launch_zero_work_short_circuits ⟨true, true, fun _ => 0, fun _ => 0⟩ Real.sqrt
    (fun _ _ a b => a 0 + b 0) 4 0 3 (fun _ => 1) (fun _ => 7) 0 (by decide)

/-- C13: for every call of `_pairwise_launch` with `n_threads = 0` and non-zero
work (`n_collections >= 2`, `n_points > 0`, `n_coordinates > 0`), the call returns
`PAIRWISE_RETURN_ERROR_NTHREADS`, makes no call at all (no allocation, no
worker) and leaves the result buffer as it was. -/
theorem launch_zero_threads_rejected {R : Type} [LinearOrderedField R] [FloorSemiring R]
    (env : launch_env) (sqrt : R → R) (f : Nat → Nat → (Nat → R) → (Nat → R) → R)
    (n_collections n_points n_coordinates : Nat) (a_collections results : Nat → R)
    (hn : 2 ≤ n_collections) (hp : 0 < n_points) (hc : 0 < n_coordinates) :
    (_pairwise_launch env sqrt f n_collections n_points n_coordinates a_collections results
      0).n_return = PAIRWISE_RETURN_ERROR_NTHREADS ∧
    (_pairwise_launch env sqrt f n_collections n_points n_coordinates a_collections results
      0).events = [] ∧
    (_pairwise_launch env sqrt f n_collections n_points n_coordinates a_collections results
      0).a_results = some results := by
  rw [launch_zero_threads env sqrt f n_collections n_points n_coordinates a_collections results
    hn hp hc]
  exact ⟨rfl, rfl, rfl⟩

theorem launch_zero_threads_rejected_witness :
    (_pairwise_launch ⟨true, true, fun _ => 0, fun _ => 0⟩ Real.sqrt (fun _ _ a b => a 0 + b 0)
      4 2 3 (fun _ => 1) (fun _ => 7) 0).n_return = PAIRWISE_RETURN_ERROR_NTHREADS ∧
    (_pairwise_launch ⟨true, true, fun _ => 0, fun _ => 0⟩ Real.sqrt (fun _ _ a b => a 0 + b 0)
      4 2 3 (fun _ => 1) (fun _ => 7) 0).events = [] ∧
    (_pairwise_launch ⟨true, true, fun _ => 0, fun _ => 0⟩ Real.sqrt (fun _ _ a b => a 0 + b 0)
      4 2 3 (fun _ => 1) (fun _ => 7) 0).a_results = some (fun _ => 7) :=
  launch_zero_threads_rejected ⟨true, true, fun _ => 0, fun _ => 0⟩ Real.sqrt
    (fun _ _ a b => a 0 + b 0) 4 2 3 (fun _ => 1) (fun _ => 7) (by decide) (by decide)
    (by decide)

/-- C14 (the code at the failing input): two threads, both started, and the
first join (thread `1`) fails with `EINVAL`. The call returns
`PAIRWISE_RETURN_PTHREAD_JOIN_EINVAL`, but thread `0`, which was started and is
not joined, is sent no cancellation request: the clean-up loop runs over the
indices above the failing one, which are the threads joined already. -/
theorem launch_join_failure_leaves_worker (f : Nat → Nat → (Nat → ℝ) → (Nat → ℝ) → ℝ)
    (a_collections results : Nat → ℝ) :
    (_pairwise_launch ⟨true, true, fun _ => 0, fun i => if i = 1 then EINVAL else 0⟩ Real.sqrt f
      4 1 1 a_collections results 2).n_return = PAIRWISE_RETURN_PTHREAD_JOIN_EINVAL ∧
    (_pairwise_launch ⟨true, true, fun _ => 0, fun i => if i = 1 then EINVAL else 0⟩ Real.sqrt f
      4 1 1 a_collections results 2).events =
      [launch_event.malloc_argument_sets true, launch_event.malloc_threads true,
        launch_event.create 1 0, launch_event.create 0 0, launch_event.join 1 EINVAL,
        launch_event.free_argument_sets, launch_event.free_threads] ∧
    launch_event.cancel 0 ∉
      (_pairwise_launch ⟨true, true, fun _ => 0, fun i => if i = 1 then EINVAL else 0⟩ Real.sqrt f
        4 1 1 a_collections results 2).events := by
  rw [launch_join_failure ⟨true, true, fun _ => 0, fun i => if i = 1 then EINVAL else 0⟩
    Real.sqrt f 4 1 1 a_collections results 2 1 (by decide) (by decide) (by decide) (by decide)
    rfl rfl (fun _ _ => rfl) (by decide) (by decide) (fun i h1 h2 => by omega)]
  refine ⟨rfl, by decide, by decide⟩


/-- C15: when the start of the worker of partition `k` fails on the multi-thread
path of `_pairwise_launch` (the starts of the partitions above `k` having
succeeded), no start is attempted for a partition below `k`, a cancellation
request is sent to exactly the workers already started (indices `k + 1 .. T - 1`,
once each), no join is attempted, both scratch arrays are released, and the call
returns the start-failure status of the failing start. -/
theorem launch_start_failure {R : Type} [LinearOrderedField R] [FloorSemiring R]
    (env : launch_env) (sqrt : R → R) (f : Nat → Nat → (Nat → R) → (Nat → R) → R)
    (n_collections n_points n_coordinates : Nat) (a_collections results : Nat → R) (T k : Nat)
    (hn : 2 ≤ n_collections) (hp : 0 < n_points) (hc : 0 < n_coordinates) (hT : 2 ≤ T)
    (hm1 : env.malloc_argument_sets_ok = true) (hm2 : env.malloc_threads_ok = true)
    (hk : k < T) (hfail : env.create_return k ≠ 0)
    (hok : ∀ i, k < i → i < T → env.create_return i = 0) :
    (_pairwise_launch env sqrt f n_collections n_points n_coordinates a_collections results
      T).n_return = create_status (env.create_return k) ∧
    (PAIRWISE_RETURN_PTHREAD_CREATE_EAGAIN ≤ create_status (env.create_return k) ∧
      create_status (env.create_return k) ≤ PAIRWISE_RETURN_PTHREAD_CREATE_UNKNOWN) ∧
    (_pairwise_launch env sqrt f n_collections n_points n_coordinates a_collections results
      T).events =
      [launch_event.malloc_argument_sets true, launch_event.malloc_threads true]
        ++ (List.range' k (T - k)).reverse.map
          (fun i => launch_event.create i (env.create_return i))
        ++ (List.range' (k + 1) (T - (k + 1))).map launch_event.cancel
        ++ [launch_event.free_argument_sets, launch_event.free_threads] ∧
    (∀ i r, launch_event.create i r ∈ (_pairwise_launch env sqrt f n_collections n_points
      n_coordinates a_collections results T).events → k ≤ i ∧ i < T) ∧
    (∀ i, launch_event.cancel i ∈ (_pairwise_launch env sqrt f n_collections n_points
      n_coordinates a_collections results T).events ↔ k < i ∧ i < T) ∧
    (∀ i, launch_event.cancel i ∈ (_pairwise_launch env sqrt f n_collections n_points
        n_coordinates a_collections results T).events ↔
      launch_event.create i 0 ∈ (_pairwise_launch env sqrt f n_collections n_points
        n_coordinates a_collections results T).events) ∧
    (∀ i r, launch_event.join i r ∉ (_pairwise_launch env sqrt f n_collections n_points
      n_coordinates a_collections results T).events) := by
  rw [launch_create_failure env sqrt f n_collections n_points n_coordinates a_collections results
    T k hn hp hc hT hm1 hm2 hk hfail hok]
  have hcreate : ∀ i r, launch_event.create i r ∈
      [launch_event.malloc_argument_sets true, launch_event.malloc_threads true]
        ++ (List.range' k (T - k)).reverse.map
          (fun i => launch_event.create i (env.create_return i))
        ++ (List.range' (k + 1) (T - (k + 1))).map launch_event.cancel
        ++ [launch_event.free_argument_sets, launch_event.free_threads] ↔
      (k ≤ i ∧ i < T) ∧ r = env.create_return i := by
    intro i r
    simp only [List.mem_append, List.mem_cons, List.mem_map, List.mem_reverse,
      List.mem_range'_1, List.mem_singleton, List.not_mem_nil, or_false, false_or,
      launch_event.create.injEq, reduceCtorEq, and_false, exists_const, exists_false]
    constructor
    · rintro ⟨j, hj, rfl, rfl⟩
      exact ⟨⟨hj.1, by omega⟩, rfl⟩
    · rintro ⟨⟨h1, h2⟩, rfl⟩
      exact ⟨i, ⟨h1, by omega⟩, rfl, rfl⟩
  have hcancel : ∀ i, launch_event.cancel i ∈
      [launch_event.malloc_argument_sets true, launch_event.malloc_threads true]
        ++ (List.range' k (T - k)).reverse.map
          (fun i => launch_event.create i (env.create_return i))
        ++ (List.range' (k + 1) (T - (k + 1))).map launch_event.cancel
        ++ [launch_event.free_argument_sets, launch_event.free_threads] ↔ k < i ∧ i < T := by
    intro i
    simp only [List.mem_append, List.mem_cons, List.mem_map, List.mem_reverse,
      List.mem_range'_1, List.mem_singleton, List.not_mem_nil, or_false, false_or,
      launch_event.cancel.injEq, reduceCtorEq, and_false, exists_const, exists_false,
      exists_eq_right]
    omega
  refine ⟨rfl, ?_, rfl, fun i r h => ((hcreate i r).1 h).1, hcancel, ?_, ?_⟩
  · unfold create_status
    split_ifs <;> decide
  · intro i
    rw [hcancel, hcreate]
    constructor
    · rintro ⟨h1, h2⟩
      exact ⟨⟨by omega, h2⟩, (hok i h1 h2).symm⟩
    · rintro ⟨⟨h1, h2⟩, h3⟩
      refine ⟨?_, h2⟩
      rcases Nat.eq_or_lt_of_le h1 with h | h
      · subst h
        exact absurd h3.symm hfail
      · exact h
  · intro i r
    simp only [List.mem_append, List.mem_cons, List.mem_map, List.mem_reverse,
      List.mem_range'_1, List.mem_singleton, List.not_mem_nil, or_false, false_or,
      reduceCtorEq, and_false, exists_const, exists_false, not_false_eq_true]

theorem launch_start_failure_witness :
    (_pairwise_launch ⟨true, true, fun i => if i = 1 then EAGAIN else 0, fun _ => 0⟩ Real.sqrt
      (fun _ _ a b => a 0 + b 0) 4 1 1 (fun _ => 1) (fun _ => 7) 3).n_return =
      create_status ((fun i => if i = 1 then EAGAIN else 0) 1) ∧
    (PAIRWISE_RETURN_PTHREAD_CREATE_EAGAIN ≤
        create_status ((fun i => if i = 1 then EAGAIN else 0) 1) ∧
      create_status ((fun i => if i = 1 then EAGAIN else 0) 1) ≤
        PAIRWISE_RETURN_PTHREAD_CREATE_UNKNOWN) ∧
    (_pairwise_launch ⟨true, true, fun i => if i = 1 then EAGAIN else 0, fun _ => 0⟩ Real.sqrt
      (fun _ _ a b => a 0 + b 0) 4 1 1 (fun _ => 1) (fun _ => 7) 3).events =
      [launch_event.malloc_argument_sets true, launch_event.malloc_threads true]
        ++ (List.range' 1 (3 - 1)).reverse.map
          (fun i => launch_event.create i ((fun i => if i = 1 then EAGAIN else 0) i))
        ++ (List.range' (1 + 1) (3 - (1 + 1))).map launch_event.cancel
        ++ [launch_event.free_argument_sets, launch_event.free_threads] ∧
    (∀ i r, launch_event.create i r ∈ (_pairwise_launch
      ⟨true, true, fun i => if i = 1 then EAGAIN else 0, fun _ => 0⟩ Real.sqrt
      (fun _ _ a b => a 0 + b 0) 4 1 1 (fun _ => 1) (fun _ => 7) 3).events → 1 ≤ i ∧ i < 3) ∧
    (∀ i, launch_event.cancel i ∈ (_pairwise_launch
      ⟨true, true, fun i => if i = 1 then EAGAIN else 0, fun _ => 0⟩ Real.sqrt
      (fun _ _ a b => a 0 + b 0) 4 1 1 (fun _ => 1) (fun _ => 7) 3).events ↔ 1 < i ∧ i < 3) ∧
    (∀ i, launch_event.cancel i ∈ (_pairwise_launch
        ⟨true, true, fun i => if i = 1 then EAGAIN else 0, fun _ => 0⟩ Real.sqrt
        (fun _ _ a b => a 0 + b 0) 4 1 1 (fun _ => 1) (fun _ => 7) 3).events ↔
      launch_event.create i 0 ∈ (_pairwise_launch
        ⟨true, true, fun i => if i = 1 then EAGAIN else 0, fun _ => 0⟩ Real.sqrt
        (fun _ _ a b => a 0 + b 0) 4 1 1 (fun _ => 1) (fun _ => 7) 3).events) ∧
    (∀ i r, launch_event.join i r ∉ (_pairwise_launch
      ⟨true, true, fun i => if i = 1 then EAGAIN else 0, fun _ => 0⟩ Real.sqrt
      (fun _ _ a b => a 0 + b 0) 4 1 1 (fun _ => 1) (fun _ => 7) 3).events) :=
  launch_start_failure ⟨true, true, fun i => if i = 1 then EAGAIN else 0, fun _ => 0⟩ Real.sqrt
    (fun _ _ a b => a 0 + b 0) 4 1 1 (fun _ => 1) (fun _ => 7) 3 1 (by decide) (by decide)
    (by decide) (by decide) rfl rfl (by decide) (by decide)
    (fun i h1 h2 => by
      have : i = 2 := by omega
      subst this
      rfl)

/-- C16: on every exit path of `_pairwise_launch` (whatever the arguments and
whatever the allocations, starts and joins answer) every scratch array the call
allocated is released exactly once, after its allocation and before the
return, and no array is released that was not allocated. -/
theorem launch_releases_scratch {R : Type} [LinearOrderedField R] [FloorSemiring R]
    (env : launch_env) (sqrt : R → R) (f : Nat → Nat → (Nat → R) → (Nat → R) → R)
    (n_collections n_points n_coordinates : Nat) (a_collections results : Nat → R)
    (n_threads : Nat) :
    scratch_released (_pairwise_launch env sqrt f n_collections n_points n_coordinates
      a_collections results n_threads).events := by
  unfold _pairwise_launch
  split_ifs
  · exact scratch_released_nil
  · exact scratch_released_nil
  · exact scratch_released_malloc_fail
  · exact scratch_released_single
  · exact scratch_released_threads_fail
  · split
    · rw [List.append_assoc [launch_event.malloc_argument_sets true,
        launch_event.malloc_threads true]]
      apply scratch_released_of_thread_calls
      intro e he
      rcases List.mem_append.1 he with h | h
      · exact create_loop_thread_calls env n_threads e h
      · exact cancel_loop_thread_calls _ _ e h
    · split
      · rw [List.append_assoc [launch_event.malloc_argument_sets true,
          launch_event.malloc_threads true], List.append_assoc [launch_event.malloc_argument_sets
          true, launch_event.malloc_threads true]]
        apply scratch_released_of_thread_calls
        intro e he
        rcases List.mem_append.1 he with h | h
        · rcases List.mem_append.1 h with h' | h'
          · exact create_loop_thread_calls env n_threads e h'
          · exact join_loop_thread_calls env n_threads e h'
        · exact cancel_loop_thread_calls _ _ e h
      · rw [List.append_assoc [launch_event.malloc_argument_sets true,
          launch_event.malloc_threads true]]
        apply scratch_released_of_thread_calls
        intro e he
        rcases List.mem_append.1 he with h | h
        · exact create_loop_thread_calls env n_threads e h
        · exact join_loop_thread_calls env n_threads e h

/-- C19 (as stated, refuted): the offset of the pair of collections `3` and `0`
among `4` is not `3`. -/
theorem pairwise_index_reverse_scenario_not_three :
    ¬ ((pairwise_index 4 (-1) 0 0).1 = PAIRWISE_RETURN_SUCCESS ∧
      (pairwise_index 4 3 0 0).1 = PAIRWISE_RETURN_SUCCESS ∧
      (pairwise_index 4 (-1) 0 0).2 = (pairwise_index 4 3 0 0).2 ∧
      (pairwise_index 4 (-1) 0 0).2 = 3) := by
  decide

/-- C19 (amended): `pairwise_index(4, -1, 0)` and `pairwise_index(4, 3, 0)` both
succeed, return the same offset, and that offset is `2` (the pair `(0, 3)` is
the third of `(0,1), (0,2), (0,3), (1,2), (1,3), (2,3)`). -/
theorem pairwise_index_reverse_scenario (old : Nat) :
    pairwise_index 4 (-1) 0 old = (PAIRWISE_RETURN_SUCCESS, 2) ∧
    pairwise_index 4 3 0 old = (PAIRWISE_RETURN_SUCCESS, 2) ∧
    row_pairs 4 0 4 = [(0, 1), (0, 2), (0, 3), (1, 2), (1, 3), (2, 3)] ∧
    (row_pairs 4 0 4)[2]? = some (0, 3) := by
  refine ⟨rfl, rfl, by decide, by decide⟩

/-- C20: `pairwise_index(4, 0, 1)` succeeds with offset `0`, the first pair, and
`pairwise_index(4, 2, 3)` succeeds with offset `5 = 4 * 3 / 2 - 1`, the last
pair. -/
theorem pairwise_index_first_last_scenario (old : Nat) :
    pairwise_index 4 0 1 old = (PAIRWISE_RETURN_SUCCESS, 0) ∧
    pairwise_index 4 2 3 old = (PAIRWISE_RETURN_SUCCESS, 5) ∧
    5 = 4 * (4 - 1) / 2 - 1 ∧
    (row_pairs 4 0 4).head? = some (0, 1) ∧
    (row_pairs 4 0 4).getLast? = some (2, 3) := by
  refine ⟨rfl, rfl, by decide, by decide, by decide⟩

/-! ## Marshalling: flattening of uniform nested lists -/

theorem length_flatMap_uniform {α β : Type} (f : α → List β) (m : Nat) :
    ∀ l : List α, (∀ a ∈ l, (f a).length = m) → (l.flatMap f).length = l.length * m := by
  intro l
  induction l with
  | nil => intro _; simp
  | cons a rest ih =>
    intro h
    rw [List.flatMap_cons, List.length_append, h a (List.mem_cons_self _ _),
      ih (fun b hb => h b (List.mem_cons_of_mem _ hb)), List.length_cons]
    ring

theorem getElem_opt_flatMap_uniform {α β : Type} (f : α → List β) (m : Nat) :
    ∀ l : List α, (∀ a ∈ l, (f a).length = m) → ∀ i r, r < m →
      (l.flatMap f)[i * m + r]? = (l[i]?).bind (fun a => (f a)[r]?) := by
  intro l
  induction l with
  | nil => intro _ i r _; simp
  | cons a rest ih =>
    intro h i r hr
    have ha := h a (List.mem_cons_self _ _)
    rw [List.flatMap_cons]
    cases i with
    | zero =>
      rw [Nat.zero_mul, Nat.zero_add, List.getElem?_append_left (by omega)]
      simp
    | succ i =>
      rw [List.getElem?_append_right (by rw [ha]; nlinarith)]
      have e : (i + 1) * m + r - (f a).length = i * m + r := by
        rw [ha]
        have : (i + 1) * m = i * m + m := by ring
        omega
      rw [e, ih (fun b hb => h b (List.mem_cons_of_mem _ hb)) i r hr]
      simp

theorem length_filterMap_all {α β : Type} (f : α → Option β) :
    ∀ l : List α, (∀ a ∈ l, (f a).isSome) → (l.filterMap f).length = l.length := by
  intro l
  induction l with
  | nil => intro _; rfl
  | cons a rest ih =>
    intro h
    obtain ⟨v, hv⟩ := Option.isSome_iff_exists.1 (h a (List.mem_cons_self _ _))
    rw [List.filterMap_cons_some hv, List.length_cons, List.length_cons,
      ih (fun b hb => h b (List.mem_cons_of_mem _ hb))]

theorem getElem_opt_filterMap_all {α β : Type} (f : α → Option β) :
    ∀ l : List α, (∀ a ∈ l, (f a).isSome) → ∀ k : Nat,
      (l.filterMap f)[k]? = (l[k]?).bind f := by
  intro l
  induction l with
  | nil => intro _ k; simp
  | cons a rest ih =>
    intro h k
    obtain ⟨v, hv⟩ := Option.isSome_iff_exists.1 (h a (List.mem_cons_self _ _))
    rw [List.filterMap_cons_some hv]
    cases k with
    | zero => simp [hv]
    | succ k =>
      rw [List.getElem?_cons_succ, List.getElem?_cons_succ,
        ih (fun b hb => h b (List.mem_cons_of_mem _ hb)) k]


/-! ## Marshalling: the loops on well-formed input -/

section Marshalling

variable {R : Type} [IntCast R]

theorem build_coordinates_numbers :
    ∀ (ks : List (PyObject R)) (st : build_state R),
      (∀ k ∈ ks, (coordinate_value k).isSome) →
      build_coordinates ks st = { st with stored := st.stored ++ point_values ks } := by
  intro ks
  induction ks with
  | nil =>
    intro st _
    cases st
    simp [build_coordinates, point_values]
  | cons k rest ih =>
    intro st h
    obtain ⟨v, hv⟩ := Option.isSome_iff_exists.1 (h k (List.mem_cons_self _ _))
    have hr := ih { st with stored := st.stored ++ [v] }
      (fun b hb => h b (List.mem_cons_of_mem _ hb))
    simp only [build_coordinates, hv, hr, point_values, List.filterMap_cons_some hv,
      List.append_assoc, List.singleton_append]

/-- A point that is not the first of the first collection. -/
theorem build_point_later (env : build_env) (nct npt ic ip C : Nat) (p : List (PyObject R))
    (st : build_state R) (hpos : ic ≠ 0 ∨ ip ≠ 0) (hlen : p.length = C) (hC : 0 < C)
    (hnum : ∀ k ∈ p, (coordinate_value k).isSome) (hst : st.n_coordinates = C) :
    build_point env nct npt ic ip (PyObject.sequence p) st =
      { st with stored := st.stored ++ point_values p } := by
  unfold build_point
  simp only
  rw [if_neg (by omega)]
  by_cases h0 : ip = 0
  · have hic : ic ≠ 0 := by
      rcases hpos with h | h
      · exact h
      · exact absurd h0 h
    rw [if_pos h0, if_neg hic, build_coordinates_numbers _ _ hnum, hlen, ← hst]
  · rw [if_neg h0, if_neg (by rw [hlen, hst]; exact fun h => h rfl),
      build_coordinates_numbers _ _ hnum]

/-- The first point of the first collection, the allocation succeeding. -/
theorem build_point_first (env : build_env) (nct npt C : Nat) (p : List (PyObject R))
    (st : build_state R) (hm : env.malloc_collections_ok = true) (hlen : p.length = C)
    (hC : 0 < C) (hnum : ∀ k ∈ p, (coordinate_value k).isSome) :
    build_point env nct npt 0 0 (PyObject.sequence p) st =
      { st with n_coordinates := C
                s_a_collections := some (wmul (wmul (wmul nct npt) C) 8)
                stored := st.stored ++ point_values p } := by
  unfold build_point
  simp only
  rw [if_neg (by omega), if_pos trivial, if_pos trivial, if_neg (by rw [hm]; decide),
    build_coordinates_numbers _ _ hnum, hlen]

/-- The first point of the first collection, the allocation failing. -/
theorem build_point_first_fail (env : build_env) (nct npt : Nat) (p : List (PyObject R))
    (st : build_state R) (hm : env.malloc_collections_ok = false) (hlen : p.length ≠ 0) :
    (build_point env nct npt 0 0 (PyObject.sequence p) st).exception =
      some py_exception.MemoryError := by
  unfold build_point
  simp only
  rw [if_neg hlen, if_pos trivial, if_pos trivial, if_pos hm]

theorem build_points_later (env : build_env) (nct npt ic C : Nat) (hC : 0 < C) :
    ∀ (pts : List (List (PyObject R))) (ip : Nat) (st : build_state R),
      (ic ≠ 0 ∨ ip ≠ 0) → (∀ p ∈ pts, p.length = C) →
      (∀ p ∈ pts, ∀ k ∈ p, (coordinate_value k).isSome) →
      st.exception = none → st.n_coordinates = C →
      build_points env nct npt ic (pts.map PyObject.sequence) ip st =
        { st with stored := st.stored ++ collection_values pts } := by
  intro pts
  induction pts with
  | nil =>
    intro ip st _ _ _ _ _
    cases st
    simp [build_points, collection_values]
  | cons p rest ih =>
    intro ip st hpos hlen hnum hex hnc
    have hp := build_point_later env nct npt ic ip C p st hpos
      (hlen p (List.mem_cons_self _ _)) hC (hnum p (List.mem_cons_self _ _)) hnc
    have hr := ih (ip + 1) { st with stored := st.stored ++ point_values p }
      (Or.inr (by omega)) (fun q hq => hlen q (List.mem_cons_of_mem _ hq))
      (fun q hq => hnum q (List.mem_cons_of_mem _ hq)) hex hnc
    rw [List.map_cons]
    unfold build_points
    rw [hp, if_neg (by simp [hex])]
    refine hr.trans ?_
    simp [collection_values, List.append_assoc]

/-- A collection that is not the first. -/
theorem build_collection_later (env : build_env) (nct ic B C : Nat) (hic : ic ≠ 0)
    (hB : 0 < B) (hC : 0 < C) (c : List (List (PyObject R))) (st : build_state R)
    (hlenB : c.length = B) (hlen : ∀ p ∈ c, p.length = C)
    (hnum : ∀ p ∈ c, ∀ k ∈ p, (coordinate_value k).isSome)
    (hex : st.exception = none) (hnp : st.n_points = B) (hnc : st.n_coordinates = C) :
    build_collection env nct ic (PyObject.sequence (c.map PyObject.sequence)) st =
      { st with stored := st.stored ++ collection_values c } := by
  unfold build_collection
  simp only [List.length_map]
  rw [if_neg (by omega), if_neg hic, if_neg (by rw [hlenB, hnp]; exact fun h => h rfl),
    build_points_later env nct c.length ic C hC c 0 st (Or.inl hic) hlen hnum hex hnc]

theorem build_collections_later (env : build_env) (nct B C : Nat) (hB : 0 < B) (hC : 0 < C) :
    ∀ (cs : List (List (List (PyObject R)))) (ic : Nat) (st : build_state R),
      ic ≠ 0 → (∀ c ∈ cs, c.length = B) → (∀ c ∈ cs, ∀ p ∈ c, p.length = C) →
      (∀ c ∈ cs, ∀ p ∈ c, ∀ k ∈ p, (coordinate_value k).isSome) →
      st.exception = none → st.n_points = B → st.n_coordinates = C →
      build_collections env nct
          (cs.map (fun c => PyObject.sequence (c.map PyObject.sequence))) ic st =
        { st with stored := st.stored ++ flat_values cs } := by
  intro cs
  induction cs with
  | nil =>
    intro ic st _ _ _ _ _ _ _
    cases st
    simp [build_collections, flat_values]
  | cons c rest ih =>
    intro ic st hic hlenB hlen hnum hex hnp hnc
    have hc := build_collection_later env nct ic B C hic hB hC c st
      (hlenB c (List.mem_cons_self _ _)) (hlen c (List.mem_cons_self _ _))
      (hnum c (List.mem_cons_self _ _)) hex hnp hnc
    have hr := ih (ic + 1) { st with stored := st.stored ++ collection_values c } (by omega)
      (fun q hq => hlenB q (List.mem_cons_of_mem _ hq))
      (fun q hq => hlen q (List.mem_cons_of_mem _ hq))
      (fun q hq => hnum q (List.mem_cons_of_mem _ hq)) hex hnp hnc
    rw [List.map_cons]
    unfold build_collections
    rw [hc, if_neg (by simp [hex])]
    refine hr.trans ?_
    simp [flat_values, List.append_assoc]

end Marshalling


/-! ## Marshalling: rectangular input -/

section MarshallingRect

variable {R : Type} [IntCast R]

/-- The points of the first collection. -/
theorem build_points_first (env : build_env) (nct npt C : Nat) (hC : 0 < C)
    (p0 : List (PyObject R)) (ps : List (List (PyObject R))) (st : build_state R)
    (hm : env.malloc_collections_ok = true)
    (hlen : ∀ p ∈ p0 :: ps, p.length = C)
    (hnum : ∀ p ∈ p0 :: ps, ∀ k ∈ p, (coordinate_value k).isSome)
    (hex : st.exception = none) :
    build_points env nct npt 0 (PyObject.sequence p0 :: ps.map PyObject.sequence) 0 st =
      { st with n_coordinates := C
                s_a_collections := some (wmul (wmul (wmul nct npt) C) 8)
                stored := st.stored ++ collection_values (p0 :: ps) } := by
  have hfirst := build_point_first env nct npt C p0 st hm (hlen p0 (List.mem_cons_self _ _)) hC
    (hnum p0 (List.mem_cons_self _ _))
  have hrest := build_points_later env nct npt 0 C hC ps 1
    { st with n_coordinates := C
              s_a_collections := some (wmul (wmul (wmul nct npt) C) 8)
              stored := st.stored ++ point_values p0 }
    (Or.inr (by omega)) (fun p hp => hlen p (List.mem_cons_of_mem _ hp))
    (fun p hp => hnum p (List.mem_cons_of_mem _ hp)) hex rfl
  unfold build_points
  rw [hfirst, if_neg (by simp [hex])]
  refine hrest.trans ?_
  simp [collection_values, List.append_assoc]

/-- The first collection. -/
theorem build_collection_first (env : build_env) (nct C : Nat) (hC : 0 < C)
    (p0 : List (PyObject R)) (ps : List (List (PyObject R))) (st : build_state R)
    (hm : env.malloc_collections_ok = true)
    (hlen : ∀ p ∈ p0 :: ps, p.length = C)
    (hnum : ∀ p ∈ p0 :: ps, ∀ k ∈ p, (coordinate_value k).isSome)
    (hex : st.exception = none) :
    build_collection env nct 0 (PyObject.sequence ((p0 :: ps).map PyObject.sequence)) st =
      { st with n_points := ps.length + 1
                n_coordinates := C
                s_a_collections := some (wmul (wmul (wmul nct (ps.length + 1)) C) 8)
                stored := st.stored ++ collection_values (p0 :: ps) } := by
  have h := build_points_first env nct (ps.length + 1) C hC p0 ps
    { st with n_points := ps.length + 1 } hm hlen hnum hex
  unfold build_collection
  simp only [List.map_cons, List.length_cons, List.length_map]
  rw [if_neg (by omega), if_pos trivial]
  exact h

/-- A rectangular input of numbers, both allocations succeeding. -/
theorem build_collections_array_rect (env : build_env) (p0 : List (PyObject R))
    (ps : List (List (PyObject R))) (cs : List (List (List (PyObject R)))) (B C : Nat)
    (n0 n1 n2 : Nat) (hC : 0 < C)
    (hm1 : env.malloc_error_buffer_ok = true) (hm2 : env.malloc_collections_ok = true)
    (hlenB : ∀ c ∈ (p0 :: ps) :: cs, c.length = B)
    (hlen : ∀ c ∈ (p0 :: ps) :: cs, ∀ p ∈ c, p.length = C)
    (hnum : ∀ c ∈ (p0 :: ps) :: cs, ∀ p ∈ c, ∀ k ∈ p, (coordinate_value k).isSome) :
    pywise_build_collections_array env (py_source ((p0 :: ps) :: cs)) n0 n1 n2 =
      { returned := some (wmul (wmul (wmul (cs.length + 1) B) C) 8,
          flat_values ((p0 :: ps) :: cs))
        n_collections := cs.length + 1
        n_points := B
        n_coordinates := C
        exception := none } := by
  have hB : ps.length + 1 = B := hlenB _ (List.mem_cons_self _ _)
  have hB0 : 0 < B := by omega
  have hc0 := build_collection_first env (cs.length + 1) C hC p0 ps
    ({ n_collections := cs.length + 1, n_points := n1, n_coordinates := n2,
       s_a_collections := none, stored := [], exception := none } : build_state R)
    hm2 (hlen _ (List.mem_cons_self _ _)) (hnum _ (List.mem_cons_self _ _)) rfl
  have hcs := build_collections_later env (cs.length + 1) B C hB0 hC cs 1
    ({ n_collections := cs.length + 1, n_points := ps.length + 1, n_coordinates := C,
       s_a_collections := some (wmul (wmul (wmul (cs.length + 1) (ps.length + 1)) C) 8),
       stored := [] ++ collection_values (p0 :: ps), exception := none } : build_state R)
    (by omega) (fun c hc => hlenB c (List.mem_cons_of_mem _ hc))
    (fun c hc => hlen c (List.mem_cons_of_mem _ hc))
    (fun c hc => hnum c (List.mem_cons_of_mem _ hc)) rfl hB rfl
  unfold pywise_build_collections_array py_source
  rw [if_neg (by rw [hm1]; decide)]
  simp only [List.length_map, List.length_cons]
  rw [if_neg (by omega), List.map_cons]
  unfold build_collections
  rw [hc0, if_neg (by simp)]
  rw [show (0 : Nat) + 1 = 1 from rfl, hcs]
  simp [build_exit, flat_values, hB]

/-- A failing allocation gives the null pointer. -/
theorem build_collections_array_malloc_fail (env : build_env) (p0 : List (PyObject R))
    (ps : List (List (PyObject R))) (cs : List (List (List (PyObject R)))) (n0 n1 n2 : Nat)
    (hp0 : p0.length ≠ 0)
    (hm : env.malloc_error_buffer_ok = false ∨ env.malloc_collections_ok = false) :
    (pywise_build_collections_array env (py_source ((p0 :: ps) :: cs)) n0 n1 n2).returned =
      none := by
  unfold pywise_build_collections_array
  by_cases h1 : env.malloc_error_buffer_ok = false
  · rw [if_pos h1]
    rfl
  · have h2 : env.malloc_collections_ok = false := by
      rcases hm with h | h
      · exact absurd h h1
      · exact h
    rw [if_neg h1]
    have hf := build_point_first_fail env (cs.length + 1) (ps.length + 1) p0
      ({ n_collections := cs.length + 1, n_points := ps.length + 1, n_coordinates := n2,
         s_a_collections := none, stored := [], exception := none } : build_state R) h2 hp0
    have hpts : (build_points env (cs.length + 1) (ps.length + 1) 0
        (PyObject.sequence p0 :: ps.map PyObject.sequence) 0
        ({ n_collections := cs.length + 1, n_points := ps.length + 1, n_coordinates := n2,
           s_a_collections := none, stored := [], exception := none } : build_state R)).exception
        = some py_exception.MemoryError := by
      unfold build_points
      rw [if_pos (by rw [hf]; rfl)]
      exact hf
    have hcol : (build_collection env (cs.length + 1) 0
        (PyObject.sequence ((p0 :: ps).map PyObject.sequence))
        ({ n_collections := cs.length + 1, n_points := n1, n_coordinates := n2,
           s_a_collections := none, stored := [], exception := none } : build_state R)).exception
        = some py_exception.MemoryError := by
      unfold build_collection
      simp only [List.map_cons, List.length_cons, List.length_map]
      rw [if_neg (by omega), if_pos trivial]
      exact hpts
    unfold py_source
    simp only [List.length_map, List.length_cons]
    rw [if_neg (by omega), List.map_cons]
    unfold build_collections
    rw [if_pos (by rw [hcol]; rfl)]
    unfold build_exit
    simp only [hcol]

end MarshallingRect


/-! ## Marshalling: the flattening -/

section MarshallingFlat

variable {R : Type} [IntCast R]

/-- The byte count of the block, without wrap-around. -/
theorem wmul_block {A B C : Nat} (hfit : collections_fit A B C) (hC : 0 < C) :
    wmul (wmul (wmul A B) C) 8 = 8 * (A * B * C) := by
  unfold collections_fit at hfit
  have h1 : A * B ≤ A * B * C := Nat.le_mul_of_pos_right _ hC
  have e1 : wmul A B = A * B := wmul_of_lt (by omega)
  have e2 : wmul (A * B) C = A * B * C := wmul_of_lt (by omega)
  have e3 : wmul (A * B * C) 8 = A * B * C * 8 := wmul_of_lt (by omega)
  rw [e1, e2, e3]
  omega

theorem flat_values_length (vals : List (List (List (PyObject R)))) (B C : Nat)
    (hlenB : ∀ c ∈ vals, c.length = B)
    (hlenC : ∀ c ∈ vals, ∀ p ∈ c, p.length = C)
    (hnum : ∀ c ∈ vals, ∀ p ∈ c, ∀ k ∈ p, (coordinate_value k).isSome) :
    (flat_values vals).length = vals.length * B * C := by
  unfold flat_values
  rw [length_flatMap_uniform collection_values (B * C) vals, Nat.mul_assoc]
  intro c hc
  unfold collection_values
  rw [length_flatMap_uniform point_values C c, hlenB c hc]
  intro p hp
  unfold point_values
  rw [length_filterMap_all coordinate_value p (hnum c hc p hp), hlenC c hc p hp]

/-- The element of the flattening at a row-major position. -/
theorem flat_values_getElem_opt (vals : List (List (List (PyObject R)))) (B C : Nat)
    (hlenB : ∀ c ∈ vals, c.length = B)
    (hlenC : ∀ c ∈ vals, ∀ p ∈ c, p.length = C)
    (hnum : ∀ c ∈ vals, ∀ p ∈ c, ∀ k ∈ p, (coordinate_value k).isSome)
    (c p k : Nat) (hp : p < B) (hk : k < C) :
    (flat_values vals)[c * B * C + p * C + k]? =
      (vals[c]?).bind (fun col => (col[p]?).bind (fun pt => (pt[k]?).bind coordinate_value)) := by
  have hpt : ∀ col ∈ vals, ∀ pt ∈ col, (point_values pt).length = C := by
    intro col hcol pt hpt
    unfold point_values
    rw [length_filterMap_all coordinate_value pt (hnum col hcol pt hpt), hlenC col hcol pt hpt]
  have hcol : ∀ col ∈ vals, (collection_values col).length = B * C := by
    intro col hcol
    unfold collection_values
    rw [length_flatMap_uniform point_values C col (hpt col hcol), hlenB col hcol]
  have hr : p * C + k < B * C := by
    have h1 : (p + 1) * C ≤ B * C := Nat.mul_le_mul_right C hp
    rw [Nat.add_mul] at h1
    omega
  have hidx : c * B * C + p * C + k = c * (B * C) + (p * C + k) := by
    rw [Nat.mul_assoc, Nat.add_assoc]
  unfold flat_values
  rw [hidx, getElem_opt_flatMap_uniform collection_values (B * C) vals hcol c (p * C + k) hr]
  cases hc : vals[c]? with
  | none => rfl
  | some col =>
    have hmem : col ∈ vals := List.getElem?_mem hc
    simp only [Option.some_bind]
    unfold collection_values
    rw [getElem_opt_flatMap_uniform point_values C col (hpt col hmem) p k hk]
    cases hp2 : col[p]? with
    | none => rfl
    | some pt =>
      have hmem2 : pt ∈ col := List.getElem?_mem hp2
      simp only [Option.some_bind]
      unfold point_values
      exact getElem_opt_filterMap_all coordinate_value pt (hnum col hmem pt hmem2) k

/-- C18. On a rectangular input of `A` collections, `B` points per collection
and `C` numeric coordinates per point (the block of `A * B * C` doubles being an
object of the address space), `pywise_build_collections_array` returns an array
exactly when its two allocations succeed; it then reports the extents `A`, `B`,
`C`, sets no exception, the block has `8 * (A * B * C)` bytes and holds
`A * B * C` values, and the value at position `c * B * C + p * C + k` is the
coordinate `source[c][p][k]`, a float as it is and an integer converted. -/
theorem build_collections_array_flattens (env : build_env)
    (vals : List (List (List (PyObject R)))) (A B C n0 n1 n2 : Nat)
    (hA : 0 < A) (hB : 0 < B) (hC : 0 < C)
    (hlenA : vals.length = A)
    (hlenB : ∀ c ∈ vals, c.length = B)
    (hlenC : ∀ c ∈ vals, ∀ p ∈ c, p.length = C)
    (hnum : ∀ c ∈ vals, ∀ p ∈ c, ∀ k ∈ p, (coordinate_value k).isSome)
    (hfit : collections_fit A B C) :
    ((pywise_build_collections_array env (py_source vals) n0 n1 n2).returned.isSome ↔
      (env.malloc_error_buffer_ok = true ∧ env.malloc_collections_ok = true)) ∧
    ∀ s values,
      (pywise_build_collections_array env (py_source vals) n0 n1 n2).returned =
        some (s, values) →
      (pywise_build_collections_array env (py_source vals) n0 n1 n2).n_collections = A ∧
      (pywise_build_collections_array env (py_source vals) n0 n1 n2).n_points = B ∧
      (pywise_build_collections_array env (py_source vals) n0 n1 n2).n_coordinates = C ∧
      (pywise_build_collections_array env (py_source vals) n0 n1 n2).exception = none ∧
      s = 8 * (A * B * C) ∧
      values.length = A * B * C ∧
      ∀ c p k, c < A → p < B → k < C →
        ∃ col pt o, vals[c]? = some col ∧ col[p]? = some pt ∧ pt[k]? = some o ∧
          (coordinate_value o).isSome ∧
          values[c * B * C + p * C + k]? = coordinate_value o := by
  obtain _ | ⟨c0, cs⟩ := vals
  · simp at hlenA
    omega
  have hc0 : c0.length = B := hlenB c0 (List.mem_cons_self _ _)
  obtain _ | ⟨p0, ps⟩ := c0
  · simp at hc0
    omega
  have hp0 : p0.length = C := hlenC _ (List.mem_cons_self _ _) p0 (List.mem_cons_self _ _)
  have hAc : cs.length + 1 = A := by simpa using hlenA
  by_cases hm : env.malloc_error_buffer_ok = true ∧ env.malloc_collections_ok = true
  · have hrect := build_collections_array_rect env p0 ps cs B C n0 n1 n2 hC hm.1 hm.2
      hlenB hlenC hnum
    rw [hrect]
    refine ⟨by simp [hm], ?_⟩
    intro s values hsv
    simp only [Option.some.injEq, Prod.mk.injEq] at hsv
    obtain ⟨hs, hv⟩ := hsv
    refine ⟨hAc, rfl, rfl, rfl, ?_, ?_, ?_⟩
    · rw [← hs, hAc, wmul_block hfit hC]
    · rw [← hv, flat_values_length _ B C hlenB hlenC hnum, hlenA]
    · intro c p k hc hp hk
      have hcl : c < ((p0 :: ps) :: cs).length := by rw [hlenA]; exact hc
      obtain ⟨col, hcol⟩ : ∃ col, ((p0 :: ps) :: cs)[c]? = some col :=
        ⟨_, List.getElem?_eq_getElem hcl⟩
      have hmem : col ∈ (p0 :: ps) :: cs := List.getElem?_mem hcol
      have hpl : p < col.length := by rw [hlenB col hmem]; exact hp
      obtain ⟨pt, hpt⟩ : ∃ pt, col[p]? = some pt := ⟨_, List.getElem?_eq_getElem hpl⟩
      have hmem2 : pt ∈ col := List.getElem?_mem hpt
      have hkl : k < pt.length := by rw [hlenC col hmem pt hmem2]; exact hk
      obtain ⟨o, ho⟩ : ∃ o, pt[k]? = some o := ⟨_, List.getElem?_eq_getElem hkl⟩
      refine ⟨col, pt, o, hcol, hpt, ho,
        hnum col hmem pt hmem2 o (List.getElem?_mem ho), ?_⟩
      rw [← hv, flat_values_getElem_opt _ B C hlenB hlenC hnum c p k hp hk, hcol]
      simp only [Option.some_bind, hpt, ho]
  · have hfail := build_collections_array_malloc_fail env p0 ps cs n0 n1 n2 (by omega)
      (by
        by_cases h1 : env.malloc_error_buffer_ok = true
        · right
          simpa [h1] using hm
        · left
          simpa using h1)
    rw [hfail]
    refine ⟨by simp [hm], ?_⟩
    intro s values hsv
    simp at hsv

theorem build_collections_array_flattens_witness :
    (((pywise_build_collections_array ⟨true, true⟩
        (py_source [[[PyObject.int 1, PyObject.float (5 : ℚ)], [PyObject.int 2, PyObject.int 3]]])
        0 0 0).returned.isSome ↔
      ((⟨true, true⟩ : build_env).malloc_error_buffer_ok = true ∧
        (⟨true, true⟩ : build_env).malloc_collections_ok = true)) ∧
    ∀ s values,
      (pywise_build_collections_array ⟨true, true⟩
        (py_source [[[PyObject.int 1, PyObject.float (5 : ℚ)], [PyObject.int 2, PyObject.int 3]]])
        0 0 0).returned = some (s, values) →
      (pywise_build_collections_array ⟨true, true⟩
        (py_source [[[PyObject.int 1, PyObject.float (5 : ℚ)], [PyObject.int 2, PyObject.int 3]]])
        0 0 0).n_collections = 1 ∧
      (pywise_build_collections_array ⟨true, true⟩
        (py_source [[[PyObject.int 1, PyObject.float (5 : ℚ)], [PyObject.int 2, PyObject.int 3]]])
        0 0 0).n_points = 2 ∧
      (pywise_build_collections_array ⟨true, true⟩
        (py_source [[[PyObject.int 1, PyObject.float (5 : ℚ)], [PyObject.int 2, PyObject.int 3]]])
        0 0 0).n_coordinates = 2 ∧
      (pywise_build_collections_array ⟨true, true⟩
        (py_source [[[PyObject.int 1, PyObject.float (5 : ℚ)], [PyObject.int 2, PyObject.int 3]]])
        0 0 0).exception = none ∧
      s = 8 * (1 * 2 * 2) ∧
      values.length = 1 * 2 * 2 ∧
      ∀ c p k, c < 1 → p < 2 → k < 2 →
        ∃ col pt o,
          [[[PyObject.int 1, PyObject.float (5 : ℚ)], [PyObject.int 2, PyObject.int 3]]][c]? =
            some col ∧ col[p]? = some pt ∧ pt[k]? = some o ∧
          (coordinate_value o).isSome ∧
          values[c * 2 * 2 + p * 2 + k]? = coordinate_value o) :=
  build_collections_array_flattens ⟨true, true⟩
    [[[PyObject.int 1, PyObject.float (5 : ℚ)], [PyObject.int 2, PyObject.int 3]]]
    1 2 2 0 0 0 (by decide) (by decide) (by decide) rfl
    (by simp) (by simp) (by simp [coordinate_value]) (by decide)

/-- C17. A source of two collections of one point each, the first point with
three coordinates and the second with two, is accepted:
`pywise_build_collections_array` returns a block of `2 * 1 * 3` doubles holding
the five coordinates in order, sets no exception and reports two coordinates per
point. -/
theorem build_collections_array_accepts_ragged :
    pywise_build_collections_array ⟨true, true⟩
      (py_source [[[PyObject.int 1, PyObject.int 2, PyObject.int 3]],
        [[PyObject.int 1, PyObject.int 2]]]) 0 0 0 =
      ({ returned := some (48, [((1 : Int) : R), ((2 : Int) : R), ((3 : Int) : R),
            ((1 : Int) : R), ((2 : Int) : R)])
         n_collections := 2
         n_points := 1
         n_coordinates := 2
         exception := none } : build_result R) := by
  rfl

end MarshallingFlat

/-! ## Marshalling: the checks that are made -/

theorem build_exit_of_exception {R : Type} (st : build_state R) (h : st.exception.isSome) :
    (build_exit st).returned = none ∧ (build_exit st).exception.isSome := by
  obtain ⟨e, he⟩ := Option.isSome_iff_exists.1 h
  unfold build_exit
  simp [he]

section MarshallingChecks

variable {R : Type} [IntCast R]

theorem build_coordinates_frame (l : List (PyObject R)) :
    ∀ st : build_state R, (build_coordinates l st).n_points = st.n_points ∧
      (build_coordinates l st).n_coordinates = st.n_coordinates := by
  induction l with
  | nil => intro st; exact ⟨rfl, rfl⟩
  | cons o rest ih =>
    intro st
    unfold build_coordinates
    cases coordinate_value o with
    | none => exact ⟨rfl, rfl⟩
    | some v => exact ih _

theorem build_point_frame (env : build_env) (nct npt ic ip : Nat) (o : PyObject R)
    (st : build_state R) :
    (build_point env nct npt ic ip o st).n_points = st.n_points := by
  unfold build_point
  cases o with
  | sequence a =>
    simp only
    split_ifs <;> first | rfl | exact (build_coordinates_frame a _).1
  | float x => rfl
  | int z => rfl
  | other => rfl

/-- A point after the first of its collection: an exception, or its length is
the stored count, which stays. -/
theorem build_point_later_check (env : build_env) (nct npt ic ip : Nat) (hip : ip ≠ 0)
    (o : PyObject R) (st : build_state R) :
    (build_point env nct npt ic ip o st).exception.isSome ∨
      ((build_point env nct npt ic ip o st).n_coordinates = st.n_coordinates ∧
        ∃ a, o = PyObject.sequence a ∧ a.length = st.n_coordinates) := by
  unfold build_point
  cases o with
  | sequence a =>
    simp only
    by_cases h0 : a.length = 0
    · rw [if_pos h0]
      exact Or.inl rfl
    · rw [if_neg h0, if_neg hip]
      by_cases h1 : a.length ≠ st.n_coordinates
      · rw [if_pos h1]
        exact Or.inl rfl
      · rw [if_neg h1]
        exact Or.inr ⟨(build_coordinates_frame a st).2, a, rfl, not_not.1 h1⟩
  | float x => exact Or.inl rfl
  | int z => exact Or.inl rfl
  | other => exact Or.inl rfl

/-- The first point of a collection: an exception, or its length becomes the
stored count. -/
theorem build_point_first_check (env : build_env) (nct npt ic : Nat)
    (o : PyObject R) (st : build_state R) :
    (build_point env nct npt ic 0 o st).exception.isSome ∨
      ∃ a, o = PyObject.sequence a ∧
        (build_point env nct npt ic 0 o st).n_coordinates = a.length := by
  unfold build_point
  cases o with
  | sequence a =>
    simp only
    by_cases h0 : a.length = 0
    · rw [if_pos h0]
      exact Or.inl rfl
    · rw [if_neg h0, if_pos trivial]
      split_ifs
      · exact Or.inl rfl
      · exact Or.inr ⟨a, rfl, (build_coordinates_frame a _).2⟩
      · exact Or.inr ⟨a, rfl, (build_coordinates_frame a _).2⟩
  | float x => exact Or.inl rfl
  | int z => exact Or.inl rfl
  | other => exact Or.inl rfl

theorem build_points_frame (env : build_env) (nct npt ic : Nat) (l : List (PyObject R)) :
    ∀ (ip : Nat) (st : build_state R),
      (build_points env nct npt ic l ip st).n_points = st.n_points := by
  induction l with
  | nil => intro ip st; rfl
  | cons o rest ih =>
    intro ip st
    unfold build_points
    split_ifs
    · exact build_point_frame env nct npt ic ip o st
    · rw [ih]
      exact build_point_frame env nct npt ic ip o st

/-- Within a collection, a point that is not a sequence of the stored number of
coordinates raises an exception. -/
theorem build_points_later_check (env : build_env) (nct npt ic : Nat)
    (l : List (PyObject R)) :
    ∀ (ip : Nat) (st : build_state R), ip ≠ 0 →
      (∃ o ∈ l, ∀ a, o = PyObject.sequence a → a.length ≠ st.n_coordinates) →
      (build_points env nct npt ic l ip st).exception.isSome := by
  induction l with
  | nil =>
    intro ip st _ h
    obtain ⟨o, ho, _⟩ := h
    simp at ho
  | cons o rest ih =>
    intro ip st hip h
    unfold build_points
    by_cases hex : (build_point env nct npt ic ip o st).exception.isSome
    · rw [if_pos hex]
      exact hex
    · rw [if_neg hex]
      rcases build_point_later_check env nct npt ic ip hip o st with h1 | ⟨hn, a, ha, hlen⟩
      · exact absurd h1 hex
      · obtain ⟨o2, ho2, hbad⟩ := h
        rcases List.mem_cons.1 ho2 with heq | hmem
        · exact absurd hlen (hbad a (heq.trans ha))
        · exact ih (ip + 1) _ (Nat.succ_ne_zero ip) ⟨o2, hmem, fun b hb => by
            rw [hn]
            exact hbad b hb⟩

/-- Within a collection, two points with different numbers of coordinates raise
an exception. -/
theorem build_points_first_check (env : build_env) (nct npt ic : Nat)
    (l : List (PyObject R)) (st : build_state R) (a b : List (PyObject R))
    (ha : PyObject.sequence a ∈ l) (hb : PyObject.sequence b ∈ l)
    (hab : a.length ≠ b.length) :
    (build_points env nct npt ic l 0 st).exception.isSome := by
  cases l with
  | nil => simp at ha
  | cons o rest =>
    unfold build_points
    by_cases hex : (build_point env nct npt ic 0 o st).exception.isSome
    · rw [if_pos hex]
      exact hex
    · rw [if_neg hex]
      rcases build_point_first_check env nct npt ic o st with h1 | ⟨a0, ha0, hn⟩
      · exact absurd h1 hex
      · have key : ∀ x : List (PyObject R), PyObject.sequence x ∈ o :: rest →
            x.length ≠ a0.length →
            (build_points env nct npt ic rest (0 + 1)
              (build_point env nct npt ic 0 o st)).exception.isSome := by
          intro x hx hlen
          rcases List.mem_cons.1 hx with heq | hmem
          · rw [ha0] at heq
            exact absurd (congrArg List.length (PyObject.sequence.inj heq)) hlen
          · exact build_points_later_check env nct npt ic rest (0 + 1) _ (by decide)
              ⟨_, hmem, fun y hy => by
                rw [hn, ← PyObject.sequence.inj hy]
                exact hlen⟩
        by_cases hx : a.length = a0.length
        · exact key b hb (fun h => hab (hx.trans h.symm))
        · exact key a ha hx

theorem build_collection_points_check (env : build_env) (nct ic : Nat)
    (pts : List (PyObject R)) (st : build_state R) (a b : List (PyObject R))
    (ha : PyObject.sequence a ∈ pts) (hb : PyObject.sequence b ∈ pts)
    (hab : a.length ≠ b.length) :
    (build_collection env nct ic (PyObject.sequence pts) st).exception.isSome := by
  unfold build_collection
  simp only
  split_ifs
  · rfl
  · exact build_points_first_check env nct _ ic pts _ a b ha hb hab
  · rfl
  · exact build_points_first_check env nct _ ic pts _ a b ha hb hab

/-- A collection after the first: an exception, or its length is the stored
count, which stays. -/
theorem build_collection_later_check (env : build_env) (nct ic : Nat) (hic : ic ≠ 0)
    (o : PyObject R) (st : build_state R) :
    (build_collection env nct ic o st).exception.isSome ∨
      ((build_collection env nct ic o st).n_points = st.n_points ∧
        ∃ pts, o = PyObject.sequence pts ∧ pts.length = st.n_points) := by
  unfold build_collection
  cases o with
  | sequence pts =>
    simp only
    by_cases h0 : pts.length = 0
    · rw [if_pos h0]
      exact Or.inl rfl
    · rw [if_neg h0, if_neg hic]
      by_cases h1 : pts.length ≠ st.n_points
      · rw [if_pos h1]
        exact Or.inl rfl
      · rw [if_neg h1]
        exact Or.inr ⟨build_points_frame env nct _ ic pts 0 st, pts, rfl, not_not.1 h1⟩
  | float x => exact Or.inl rfl
  | int z => exact Or.inl rfl
  | other => exact Or.inl rfl

/-- The first collection: an exception, or its length becomes the stored
count. -/
theorem build_collection_first_check (env : build_env) (nct : Nat)
    (o : PyObject R) (st : build_state R) :
    (build_collection env nct 0 o st).exception.isSome ∨
      ∃ pts, o = PyObject.sequence pts ∧
        (build_collection env nct 0 o st).n_points = pts.length := by
  unfold build_collection
  cases o with
  | sequence pts =>
    simp only
    by_cases h0 : pts.length = 0
    · rw [if_pos h0]
      exact Or.inl rfl
    · rw [if_neg h0, if_pos trivial]
      exact Or.inr ⟨pts, rfl, build_points_frame env nct _ 0 pts 0 _⟩
  | float x => exact Or.inl rfl
  | int z => exact Or.inl rfl
  | other => exact Or.inl rfl

/-- Two points of one collection with different numbers of coordinates raise an
exception, in whichever collection they are. -/
theorem build_collections_points_check (env : build_env) (nct : Nat)
    (l : List (PyObject R)) (pts a b : List (PyObject R))
    (ha : PyObject.sequence a ∈ pts) (hb : PyObject.sequence b ∈ pts)
    (hab : a.length ≠ b.length) :
    ∀ (ic : Nat) (st : build_state R), PyObject.sequence pts ∈ l →
      (build_collections env nct l ic st).exception.isSome := by
  induction l with
  | nil => intro ic st h; simp at h
  | cons o rest ih =>
    intro ic st h
    unfold build_collections
    by_cases hex : (build_collection env nct ic o st).exception.isSome
    · rw [if_pos hex]
      exact hex
    · rw [if_neg hex]
      rcases List.mem_cons.1 h with heq | hmem
      · rw [← heq] at hex
        exact absurd (build_collection_points_check env nct ic pts st a b ha hb hab) hex
      · exact ih (ic + 1) _ hmem

theorem build_collections_later_check (env : build_env) (nct : Nat)
    (l : List (PyObject R)) :
    ∀ (ic : Nat) (st : build_state R), ic ≠ 0 →
      (∃ o ∈ l, ∀ pts, o = PyObject.sequence pts → pts.length ≠ st.n_points) →
      (build_collections env nct l ic st).exception.isSome := by
  induction l with
  | nil =>
    intro ic st _ h
    obtain ⟨o, ho, _⟩ := h
    simp at ho
  | cons o rest ih =>
    intro ic st hic h
    unfold build_collections
    by_cases hex : (build_collection env nct ic o st).exception.isSome
    · rw [if_pos hex]
      exact hex
    · rw [if_neg hex]
      rcases build_collection_later_check env nct ic hic o st with h1 | ⟨hn, pts, hpts, hlen⟩
      · exact absurd h1 hex
      · obtain ⟨o2, ho2, hbad⟩ := h
        rcases List.mem_cons.1 ho2 with heq | hmem
        · exact absurd hlen (hbad pts (heq.trans hpts))
        · exact ih (ic + 1) _ (Nat.succ_ne_zero ic) ⟨o2, hmem, fun q hq => by
            rw [hn]
            exact hbad q hq⟩

/-- Two collections with different numbers of points raise an exception. -/
theorem build_collections_first_check (env : build_env) (nct : Nat)
    (l : List (PyObject R)) (st : build_state R) (a b : List (PyObject R))
    (ha : PyObject.sequence a ∈ l) (hb : PyObject.sequence b ∈ l)
    (hab : a.length ≠ b.length) :
    (build_collections env nct l 0 st).exception.isSome := by
  cases l with
  | nil => simp at ha
  | cons o rest =>
    unfold build_collections
    by_cases hex : (build_collection env nct 0 o st).exception.isSome
    · rw [if_pos hex]
      exact hex
    · rw [if_neg hex]
      rcases build_collection_first_check env nct o st with h1 | ⟨a0, ha0, hn⟩
      · exact absurd h1 hex
      · have key : ∀ x : List (PyObject R), PyObject.sequence x ∈ o :: rest →
            x.length ≠ a0.length →
            (build_collections env nct rest (0 + 1)
              (build_collection env nct 0 o st)).exception.isSome := by
          intro x hx hlen
          rcases List.mem_cons.1 hx with heq | hmem
          · rw [ha0] at heq
            exact absurd (congrArg List.length (PyObject.sequence.inj heq)) hlen
          · exact build_collections_later_check env nct rest (0 + 1) _ (by decide)
              ⟨_, hmem, fun y hy => by
                rw [hn, ← PyObject.sequence.inj hy]
                exact hlen⟩
        by_cases hx : a.length = a0.length
        · exact key b hb (fun h => hab (hx.trans h.symm))
        · exact key a ha hx

/-- The rectangularity checks that `pywise_build_collections_array` makes: two
collections with different numbers of points, or two points of the same
collection with different numbers of coordinates, give the null pointer and an
exception. -/
theorem build_collections_array_checks (env : build_env) (cols : List (PyObject R))
    (n0 n1 n2 : Nat)
    (h : (∃ a b, PyObject.sequence a ∈ cols ∧ PyObject.sequence b ∈ cols ∧
            a.length ≠ b.length) ∨
         (∃ pts a b, PyObject.sequence pts ∈ cols ∧ PyObject.sequence a ∈ pts ∧
            PyObject.sequence b ∈ pts ∧ a.length ≠ b.length)) :
    (pywise_build_collections_array env (PyObject.sequence cols) n0 n1 n2).returned = none ∧
    (pywise_build_collections_array env (PyObject.sequence cols) n0 n1 n2).exception.isSome := by
  unfold pywise_build_collections_array
  simp only
  split_ifs
  · exact build_exit_of_exception _ rfl
  · exact build_exit_of_exception _ rfl
  · apply build_exit_of_exception
    rcases h with ⟨a, b, ha, hb, hab⟩ | ⟨pts, a, b, hpts, ha, hb, hab⟩
    · exact build_collections_first_check env _ cols _ a b ha hb hab
    · exact build_collections_points_check env _ cols pts a b ha hb hab 0 _ hpts

end MarshallingChecks

/-! ## The kernels -/

/-- An accumulation loop from `0` is the sum of its terms. -/
theorem foldl_add_range {R : Type} [LinearOrderedField R] (g : Nat → R) (n : Nat) :
    (List.range n).foldl (fun acc i => acc + g i) 0 = ∑ i in Finset.range n, g i := by
  induction n with
  | zero => rfl
  | succ n ih =>
    rw [List.range_succ, List.foldl_append, ih, Finset.sum_range_succ]
    rfl

theorem foldl_add_range_congr {R : Type} [LinearOrderedField R] (g h : Nat → R) (n : Nat)
    (hgh : ∀ i, i < n → g i = h i) :
    (List.range n).foldl (fun acc i => acc + g i) 0 = ∑ i in Finset.range n, h i := by
  rw [foldl_add_range]
  exact Finset.sum_congr rfl (fun i hi => hgh i (Finset.mem_range.1 hi))

theorem single_distance_eq {R : Type} [LinearOrderedField R] (sqrt : R → R)
    (n_points n_coordinates : Nat) (a b : Nat → R) :
    _pairwise_single_distance sqrt n_points n_coordinates a b =
      distance_spec sqrt n_coordinates a b := by
  unfold _pairwise_single_distance distance_spec
  simp only
  rw [foldl_add_range_congr _ (fun k => (a k - b k) ^ 2) n_coordinates
    (fun i _ => by unfold _PAIRWISE_SQUARE; ring)]

theorem single_rmsd_eq {R : Type} [LinearOrderedField R] (sqrt : R → R)
    (n_points n_coordinates : Nat) (A B : Nat → R)
    (hfit : n_points * n_coordinates < WORD) :
    _pairwise_single_rmsd sqrt n_points n_coordinates A B =
      rmsd_spec sqrt n_points n_coordinates A B := by
  unfold _pairwise_single_rmsd rmsd_spec
  simp only
  rw [foldl_add_range_congr _
    (fun p => ∑ k in Finset.range n_coordinates,
      (A (p * n_coordinates + k) - B (p * n_coordinates + k)) ^ 2) n_points
    (fun p hp => by
      have hle : p * n_coordinates ≤ n_points * n_coordinates :=
        Nat.mul_le_mul_right _ (Nat.le_of_lt hp)
      rw [wmul_of_lt (lt_of_le_of_lt hle hfit)]
      exact foldl_add_range_congr _ _ n_coordinates
        (fun k _ => by unfold _PAIRWISE_SQUARE; ring))]
  congr 1
  rw [div_eq_mul_inv, mul_comm, one_div]


/-! ## The launcher without failure -/

/-- The buffer left by the single argument set, at the position of a pair. -/
theorem single_buffer_at_pair {D : Type} (f : Nat → Nat → (Nat → D) → (Nat → D) → D)
    (n np nc : Nat) (cols : Nat → D) (base : Nat) (results : Nat → D) {i j : Nat}
    (hij : i < j) (hj : j < n) :
    _pairwise_launch_bounded (single_argument_set f n np nc cols base) results
        (base + pair_offset n i j) =
      f np nc (ptr_add cols (wmul (wmul i np) nc)) (ptr_add cols (wmul (wmul j np) nc)) :=
  launch_bounded_at_pair (single_argument_set f n np nc cols base) base results
    (by simp [single_argument_set, tri_zero]) (Nat.zero_le _) (le_refl _) (Nat.zero_le _)
    (show i < n by omega) hij hj

/-- The buffer left by the single argument set, outside the `n (n - 1) / 2`
positions of the results. -/
theorem single_buffer_outside {D : Type} (f : Nat → Nat → (Nat → D) → (Nat → D) → D)
    (n np nc : Nat) (cols : Nat → D) (base : Nat) (results : Nat → D) (p : Nat)
    (hp : p < base ∨ base + n * (n - 1) / 2 ≤ p) :
    _pairwise_launch_bounded (single_argument_set f n np nc cols base) results p =
      results p := by
  unfold _pairwise_launch_bounded
  apply foldl_store_of_not_mem
  rw [launch_bounded_positions (single_argument_set f n np nc cols base) base
    (by simp [single_argument_set, tri_zero]) (Nat.zero_le _) (le_refl _)]
  show p ∉ List.range' base (tri n n - tri n 0)
  rw [tri_zero, tri_self, Nat.sub_zero, List.mem_range'_1]
  omega

section LauncherNoFailure

variable {R : Type} [LinearOrderedField R] [FloorSemiring R]

/-- Running the argument sets of the partitioner one after the other leaves the
buffer of the single argument set. -/
theorem populated_eq_single (sqrt : R → R) (hs : exact_sqrt sqrt)
    (f : Nat → Nat → (Nat → R) → (Nat → R) → R) (n np nc : Nat) (cols : Nat → R)
    (base T : Nat) (results : Nat → R) (hn : 2 ≤ n) (hT : 1 ≤ T) (hTW : T < WORD)
    (hfit : results_fit n) :
    (_pairwise_populate_argument_sets sqrt f n np nc cols base T).foldl
        (fun r d => _pairwise_launch_bounded d r) results =
      _pairwise_launch_bounded (single_argument_set f n np nc cols base) results := by
  have hW := two_mul_lt_of_results_fit hfit
  obtain ⟨O, L, U, hch, hO, hds⟩ := populate_closed_form sqrt hs f n np nc cols base T
    (by omega) (by omega) hT hTW
  have hst := partition_of_stores f n np nc cols base O L U T hch (hO hW) T (le_refl _)
  rw [covered_top hch hT, ← single_argument_set_stores] at hst
  rw [hds, foldl_launch_bounded, hst]
  rfl

/-- The single-thread path. -/
theorem launch_single (env : launch_env) (sqrt : R → R)
    (f : Nat → Nat → (Nat → R) → (Nat → R) → R) (n np nc : Nat) (cols results : Nat → R)
    (hn : 2 ≤ n) (hp : 0 < np) (hc : 0 < nc) (hm1 : env.malloc_argument_sets_ok = true) :
    _pairwise_launch env sqrt f n np nc cols results 1 =
      { n_return := PAIRWISE_RETURN_SUCCESS
        events := [launch_event.malloc_argument_sets true, launch_event.launch_bounded 0,
          launch_event.free_argument_sets]
        a_results := some (_pairwise_launch_bounded
          (single_argument_set f n np nc cols 0) results) } := by
  unfold _pairwise_launch
  rw [if_neg (by omega), if_neg (by decide), if_neg (by simp [hm1]), if_pos rfl]

/-- A call in which no allocation, start or join fails returns success and
leaves the buffer of the single argument set, whatever the number of threads. -/
theorem launch_no_failure (env : launch_env) (sqrt : R → R) (hs : exact_sqrt sqrt)
    (f : Nat → Nat → (Nat → R) → (Nat → R) → R) (n np nc : Nat) (cols results : Nat → R)
    (T : Nat) (hn : 2 ≤ n) (hp : 0 < np) (hc : 0 < nc) (hT : 1 ≤ T) (hTW : T < WORD)
    (hfit : results_fit n)
    (hm1 : env.malloc_argument_sets_ok = true) (hm2 : 2 ≤ T → env.malloc_threads_ok = true)
    (hcr : ∀ i, i < T → env.create_return i = 0)
    (hjn : ∀ i, i < T → env.join_return i = 0) :
    (_pairwise_launch env sqrt f n np nc cols results T).n_return = PAIRWISE_RETURN_SUCCESS ∧
    (_pairwise_launch env sqrt f n np nc cols results T).a_results =
      some (_pairwise_launch_bounded (single_argument_set f n np nc cols 0) results) := by
  by_cases h1 : T = 1
  · subst h1
    rw [launch_single env sqrt f n np nc cols results hn hp hc hm1]
    exact ⟨rfl, rfl⟩
  · have h2 : 2 ≤ T := by omega
    rw [launch_success env sqrt f n np nc cols results T hn hp hc h2 hm1 (hm2 h2) hcr hjn]
    refine ⟨rfl, ?_⟩
    show some _ = some _
    rw [populated_eq_single sqrt hs f n np nc cols 0 T results hn hT hTW hfit]

end LauncherNoFailure

/-! ## The two worked scenarios -/

theorem real_sqrt_two_ne_two : Real.sqrt 2 ≠ 2 := by
  intro h
  have h2 : Real.sqrt 2 * Real.sqrt 2 = 2 := Real.mul_self_sqrt (by norm_num)
  rw [h] at h2
  norm_num at h2

/-- The kernel of `pairwise_rmsds` on the collections `[0,0,0,0]` and
`[1,1,1,1]` of the scenario. -/
theorem rmsd_scenario_kernel (cols : Nat → ℝ)
    (hbuf : ∀ t, t < 8 → cols t = flat_buffer [0, 0, 0, 0, 1, 1, 1, 1] t) :
    _pairwise_single_rmsd Real.sqrt 2 2 (ptr_add cols (wmul (wmul 0 2) 2))
      (ptr_add cols (wmul (wmul 1 2) 2)) = Real.sqrt 2 := by
  rw [single_rmsd_eq _ _ _ _ _ (by decide)]
  unfold rmsd_spec
  have e0 : wmul (wmul 0 2) 2 = 0 := by decide
  have e4 : wmul (wmul 1 2) 2 = 4 := by decide
  rw [e0, e4]
  congr 1
  simp only [Finset.sum_range_succ, Finset.sum_range_zero, ptr_add]
  norm_num [hbuf, flat_buffer]

/-- The kernel of `pairwise_distances` on the points of the scenario. -/
theorem distance_scenario_kernel (cols : Nat → ℝ)
    (hbuf : ∀ t, t < 6 → cols t = flat_buffer [0, 0, 3, 4, 0, 0] t) :
    _pairwise_single_distance Real.sqrt 1 2 (ptr_add cols (wmul (wmul 0 1) 2))
        (ptr_add cols (wmul (wmul 1 1) 2)) = 5 ∧
    _pairwise_single_distance Real.sqrt 1 2 (ptr_add cols (wmul (wmul 0 1) 2))
        (ptr_add cols (wmul (wmul 2 1) 2)) = 0 ∧
    _pairwise_single_distance Real.sqrt 1 2 (ptr_add cols (wmul (wmul 1 1) 2))
        (ptr_add cols (wmul (wmul 2 1) 2)) = 5 := by
  have e0 : wmul (wmul 0 1) 2 = 0 := by decide
  have e2 : wmul (wmul 1 1) 2 = 2 := by decide
  have e4 : wmul (wmul 2 1) 2 = 4 := by decide
  have h25 : Real.sqrt 25 = 5 := by
    rw [show (25 : ℝ) = 5 * 5 by norm_num]
    exact Real.sqrt_mul_self (by norm_num)
  rw [e0, e2, e4]
  simp only [single_distance_eq]
  unfold distance_spec
  simp only [Finset.sum_range_succ, Finset.sum_range_zero, ptr_add]
  refine ⟨?_, ?_, ?_⟩
  · rw [← h25]
    congr 1
    norm_num [hbuf, flat_buffer]
  · rw [← Real.sqrt_zero]
    congr 1
    norm_num [hbuf, flat_buffer]
  · rw [← h25]
    congr 1
    norm_num [hbuf, flat_buffer]

/-- The buffer left by `pairwise_rmsds` in the scenario of two collections. -/
theorem rmsds_scenario_buffer (env : launch_env) (cols results : Nat → ℝ)
    (hbuf : ∀ t, t < 8 → cols t = flat_buffer [0, 0, 0, 0, 1, 1, 1, 1] t)
    (hm1 : env.malloc_argument_sets_ok = true) :
    (pairwise_rmsds env Real.sqrt 2 2 2 cols results 1).n_return = PAIRWISE_RETURN_SUCCESS ∧
    ∃ r, (pairwise_rmsds env Real.sqrt 2 2 2 cols results 1).a_results = some r ∧
      r 0 = Real.sqrt 2 ∧ ∀ p, 1 ≤ p → r p = results p := by
  unfold pairwise_rmsds
  rw [launch_single env Real.sqrt _ 2 2 2 cols results (by decide) (by decide) (by decide) hm1]
  refine ⟨rfl, _, rfl, ?_, ?_⟩
  · have h := single_buffer_at_pair (_pairwise_single_rmsd Real.sqrt) 2 2 2 cols 0 results
      (show 0 < 1 by decide) (show 1 < 2 by decide)
    rw [show 0 + pair_offset 2 0 1 = 0 by decide] at h
    rw [h]
    exact rmsd_scenario_kernel cols hbuf
  · intro p hp
    exact single_buffer_outside _ 2 2 2 cols 0 results p (Or.inr (by
      rw [show 0 + 2 * (2 - 1) / 2 = 1 by decide]
      exact hp))


/-- The buffer left by `pairwise_distances` in the scenario of three points. -/
theorem distances_scenario_buffer (env : launch_env) (a_points results : Nat → ℝ)
    (n_threads : Nat)
    (hbuf : ∀ t, t < 6 → a_points t = flat_buffer [0, 0, 3, 4, 0, 0] t)
    (hT : 1 ≤ n_threads) (hTW : n_threads < WORD)
    (hm1 : env.malloc_argument_sets_ok = true)
    (hm2 : 2 ≤ n_threads → env.malloc_threads_ok = true)
    (hcr : ∀ i, i < n_threads → env.create_return i = 0)
    (hjn : ∀ i, i < n_threads → env.join_return i = 0) :
    (pairwise_distances env Real.sqrt 3 2 a_points results n_threads).n_return =
      PAIRWISE_RETURN_SUCCESS ∧
    ∃ r, (pairwise_distances env Real.sqrt 3 2 a_points results n_threads).a_results = some r ∧
      r 0 = 5 ∧ r 1 = 0 ∧ r 2 = 5 ∧ ∀ p, 3 ≤ p → r p = results p := by
  unfold pairwise_distances
  obtain ⟨h1, h2⟩ := launch_no_failure env Real.sqrt exact_sqrt_real
    (_pairwise_single_distance Real.sqrt) 3 1 2 a_points results n_threads (by decide)
    (by decide) (by decide) hT hTW (by decide) hm1 hm2 hcr hjn
  obtain ⟨k01, k02, k12⟩ := distance_scenario_kernel a_points hbuf
  refine ⟨h1, _, h2, ?_, ?_, ?_, ?_⟩
  · have h := single_buffer_at_pair (_pairwise_single_distance Real.sqrt) 3 1 2 a_points 0
      results (show 0 < 1 by decide) (show 1 < 3 by decide)
    rw [show 0 + pair_offset 3 0 1 = 0 by decide] at h
    rw [h]
    exact k01
  · have h := single_buffer_at_pair (_pairwise_single_distance Real.sqrt) 3 1 2 a_points 0
      results (show 0 < 2 by decide) (show 2 < 3 by decide)
    rw [show 0 + pair_offset 3 0 2 = 1 by decide] at h
    rw [h]
    exact k02
  · have h := single_buffer_at_pair (_pairwise_single_distance Real.sqrt) 3 1 2 a_points 0
      results (show 1 < 2 by decide) (show 2 < 3 by decide)
    rw [show 0 + pair_offset 3 1 2 = 2 by decide] at h
    rw [h]
    exact k12
  · intro p hp
    exact single_buffer_outside _ 3 1 2 a_points 0 results p (Or.inr (by
      rw [show 0 + 3 * (3 - 1) / 2 = 3 by decide]
      exact hp))

/-- C21 (as stated, refuted): in the scenario of two collections `[0,0,0,0]` and
`[1,1,1,1]` (two points of two coordinates each, one thread, the allocation
succeeding) the single result written by `pairwise_rmsds` is not `2`. -/
theorem pairwise_rmsds_scenario_not_two :
    ¬ ∃ r, (pairwise_rmsds ⟨true, true, fun _ => 0, fun _ => 0⟩ Real.sqrt 2 2 2
        (flat_buffer [0, 0, 0, 0, 1, 1, 1, 1]) (fun _ => 0) 1).a_results = some r ∧
      r 0 = 2 := by
  rintro ⟨r, hr, h2⟩
  obtain ⟨_, r2, hr2, h0, _⟩ := rmsds_scenario_buffer ⟨true, true, fun _ => 0, fun _ => 0⟩
    (flat_buffer [0, 0, 0, 0, 1, 1, 1, 1]) (fun _ => 0) (fun _ _ => rfl) rfl
  rw [hr] at hr2
  rw [Option.some.inj hr2, h0] at h2
  exact real_sqrt_two_ne_two h2

/-- C21 (amended): `pairwise_rmsds` on two collections of two points with two
coordinates each, the buffer starting `[0,0,0,0, 1,1,1,1]`, with one thread (the
allocation of the argument set succeeding), returns success and writes the
single result `sqrt 2` at position `0`, the root of `(2 + 2) / 2 = 2`, leaving
every other position of the result buffer as it was. -/
theorem pairwise_rmsds_scenario (env : launch_env) (a_collections results : Nat → ℝ)
    (hbuf : ∀ t, t < 8 → a_collections t = flat_buffer [0, 0, 0, 0, 1, 1, 1, 1] t)
    (hm1 : env.malloc_argument_sets_ok = true) :
    (pairwise_rmsds env Real.sqrt 2 2 2 a_collections results 1).n_return =
      PAIRWISE_RETURN_SUCCESS ∧
    (∃ r, (pairwise_rmsds env Real.sqrt 2 2 2 a_collections results 1).a_results = some r ∧
      r 0 = Real.sqrt 2 ∧ ∀ p, 1 ≤ p → r p = results p) ∧
    Real.sqrt 2 * Real.sqrt 2 = 2 ∧ Real.sqrt 2 ≠ 2 :=
  ⟨(rmsds_scenario_buffer env a_collections results hbuf hm1).1,
    (rmsds_scenario_buffer env a_collections results hbuf hm1).2,
    Real.mul_self_sqrt (by norm_num), real_sqrt_two_ne_two⟩

theorem pairwise_rmsds_scenario_witness :
    (pairwise_rmsds ⟨true, false, fun _ => 0, fun _ => 0⟩ Real.sqrt 2 2 2
      (flat_buffer [0, 0, 0, 0, 1, 1, 1, 1]) (fun _ => 7) 1).n_return =
      PAIRWISE_RETURN_SUCCESS ∧
    (∃ r, (pairwise_rmsds ⟨true, false, fun _ => 0, fun _ => 0⟩ Real.sqrt 2 2 2
        (flat_buffer [0, 0, 0, 0, 1, 1, 1, 1]) (fun _ => 7) 1).a_results = some r ∧
      r 0 = Real.sqrt 2 ∧ ∀ p, 1 ≤ p → r p = (fun _ => (7 : ℝ)) p) ∧
    Real.sqrt 2 * Real.sqrt 2 = 2 ∧ Real.sqrt 2 ≠ 2 :=
  pairwise_rmsds_scenario ⟨true, false, fun _ => 0, fun _ => 0⟩
    (flat_buffer [0, 0, 0, 0, 1, 1, 1, 1]) (fun _ => 7) (fun _ _ => rfl) rfl

/-- C22: `pairwise_distances` on the three points `[0,0]`, `[3,4]`, `[0,0]` (the
buffer starting `[0,0,3,4,0,0]`), with any number of threads `>= 1` and no
allocation, start or join failing, returns success and leaves `5`, `0`, `5` at
the positions `0`, `1`, `2` of the result buffer, the distances of the pairs
`(0,1)`, `(0,2)`, `(1,2)`; the other positions keep their content. -/
theorem pairwise_distances_scenario (env : launch_env) (a_points results : Nat → ℝ)
    (n_threads : Nat)
    (hbuf : ∀ t, t < 6 → a_points t = flat_buffer [0, 0, 3, 4, 0, 0] t)
    (hT : 1 ≤ n_threads) (hTW : n_threads < WORD)
    (hm1 : env.malloc_argument_sets_ok = true)
    (hm2 : 2 ≤ n_threads → env.malloc_threads_ok = true)
    (hcr : ∀ i, i < n_threads → env.create_return i = 0)
    (hjn : ∀ i, i < n_threads → env.join_return i = 0) :
    (pairwise_distances env Real.sqrt 3 2 a_points results n_threads).n_return =
      PAIRWISE_RETURN_SUCCESS ∧
    ∃ r, (pairwise_distances env Real.sqrt 3 2 a_points results n_threads).a_results = some r ∧
      r 0 = 5 ∧ r 1 = 0 ∧ r 2 = 5 ∧ ∀ p, 3 ≤ p → r p = results p :=
  distances_scenario_buffer env a_points results n_threads hbuf hT hTW hm1 hm2 hcr hjn

theorem pairwise_distances_scenario_witness :
    (pairwise_distances ⟨true, true, fun _ => 0, fun _ => 0⟩ Real.sqrt 3 2
      (flat_buffer [0, 0, 3, 4, 0, 0]) (fun _ => 7) 2).n_return = PAIRWISE_RETURN_SUCCESS ∧
    ∃ r, (pairwise_distances ⟨true, true, fun _ => 0, fun _ => 0⟩ Real.sqrt 3 2
        (flat_buffer [0, 0, 3, 4, 0, 0]) (fun _ => 7) 2).a_results = some r ∧
      r 0 = 5 ∧ r 1 = 0 ∧ r 2 = 5 ∧ ∀ p, 3 ≤ p → r p = (fun _ => (7 : ℝ)) p :=
  pairwise_distances_scenario ⟨true, true, fun _ => 0, fun _ => 0⟩
    (flat_buffer [0, 0, 3, 4, 0, 0]) (fun _ => 7) 2 (fun _ _ => rfl) (by decide) (by decide)
    rfl (fun _ => rfl) (fun _ _ => rfl) (fun _ _ => rfl)

/-- C23: for every `n_points >= 1`, every `n_coordinates` and every two
collections `A`, `B` of `n_points * n_coordinates` reals (arrays of the address
space), `_pairwise_single_rmsd` returns
`sqrt((1 / n_points) * sum over p < n_points, k < n_coordinates of
(A[p * n_coordinates + k] - B[p * n_coordinates + k]) ^ 2)`, over exact real
arithmetic. -/
theorem single_rmsd_formula (n_points n_coordinates : Nat) (A B : Nat → ℝ)
    (_hp : 1 ≤ n_points) (hfit : n_points * n_coordinates < WORD) :
    _pairwise_single_rmsd Real.sqrt n_points n_coordinates A B =
      Real.sqrt ((1 / (n_points : ℝ)) *
        ∑ p in Finset.range n_points, ∑ k in Finset.range n_coordinates,
          (A (p * n_coordinates + k) - B (p * n_coordinates + k)) ^ 2) :=
  single_rmsd_eq Real.sqrt n_points n_coordinates A B hfit

theorem single_rmsd_formula_witness :
    _pairwise_single_rmsd Real.sqrt 2 2 (flat_buffer [0, 0, 0, 0]) (flat_buffer [1, 1, 1, 1]) =
      Real.sqrt ((1 / ((2 : Nat) : ℝ)) *
        ∑ p in Finset.range 2, ∑ k in Finset.range 2,
          (flat_buffer [0, 0, 0, 0] (p * 2 + k) - flat_buffer [1, 1, 1, 1] (p * 2 + k)) ^ 2) :=
  single_rmsd_formula 2 2 (flat_buffer [0, 0, 0, 0]) (flat_buffer [1, 1, 1, 1]) (by decide)
    (by decide)

/-- C24: for every `n_coordinates` and every two points `a`, `b`,
`_pairwise_single_distance` returns `sqrt(sum over k < n_coordinates of
(a_k - b_k) ^ 2)`, over exact real arithmetic, and the value is the same for
any two values `p`, `q` of the argument `n_points`. -/
theorem single_distance_formula (p q n_coordinates : Nat) (a b : Nat → ℝ) :
    _pairwise_single_distance Real.sqrt p n_coordinates a b =
      Real.sqrt (∑ k in Finset.range n_coordinates, (a k - b k) ^ 2) ∧
    _pairwise_single_distance Real.sqrt p n_coordinates a b =
      _pairwise_single_distance Real.sqrt q n_coordinates a b :=
  ⟨single_distance_eq Real.sqrt p n_coordinates a b, rfl⟩


/-! ## Exactness of the index arithmetic -/

/-- The product of line 105, formed with wrap-around, is the exact product. -/
theorem index_product_exact {n m : Nat} (hn : n ≤ 2 ^ 32) (hm : m + 2 ≤ n) :
    wmul (wneg m) (wadd (wsub m (wmul 2 n)) 1) = m * (2 * n - m - 1) := by
  have hW := WORD_eq
  obtain ⟨d, rfl⟩ : ∃ d, n = m + 2 + d := ⟨n - (m + 2), by omega⟩
  have hk : 2 * (m + 2 + d) - m - 1 = m + 3 + 2 * d := by omega
  have hprod : m * (m + 3 + 2 * d) < WORD := by
    have h1 : m * (m + 3 + 2 * d) < (m + 2 + d) * (m + 2 + d) := by nlinarith
    have h2 : (m + 2 + d) * (m + 2 + d) ≤ 2 ^ 32 * 2 ^ 32 := Nat.mul_le_mul hn hn
    rw [hW]
    omega
  have e1 : wmul 2 (m + 2 + d) = 2 * (m + 2 + d) := wmul_of_lt (by omega)
  have e2 : wsub m (2 * (m + 2 + d)) = m + WORD - 2 * (m + 2 + d) :=
    wsub_of_lt (by omega) (by omega)
  have e3 : wadd (m + WORD - 2 * (m + 2 + d)) 1 = WORD - (m + 3 + 2 * d) := by
    rw [wadd_of_lt (by omega)]
    omega
  rw [e1, e2, e3, hk]
  unfold wmul wneg
  rw [Nat.mod_eq_of_lt (by omega : m < WORD)]
  rcases Nat.eq_zero_or_pos m with h0 | h0
  · subst h0
    simp
  · rw [Nat.mod_eq_of_lt (by omega : WORD - m < WORD),
      wmul_neg_neg (by omega) (by omega) (by omega), Nat.mod_eq_of_lt hprod]

/-- The product `min * (2 n - min - 1)` is even. -/
theorem index_product_even {n m : Nat} (hm : m ≤ n) : 2 ∣ m * (2 * n - m - 1) :=
  ⟨tri n m, (two_mul_tri hm).symm⟩

/-- C28: for every `n` with `2 <= n <= 2 ^ 31` and every `min < max < n`, the
value that `pairwise_index` computes with 64-bit wrap-around arithmetic (the
wrapped product `-min * (min - 2 n + 1)`, shifted right by one, plus
`max - min - 1`) is the exact integer `min * (2 n - min - 1) / 2 +
(max - min - 1)`. The wrapped product is the exact product
`min * (2 n - min - 1)`, which is even, so the shift discards no bit; and the
call `pairwise_index(n, min, max)` returns success with this value. -/
theorem pairwise_index_exact (n i_collection_min i_collection_max old : Nat)
    (_hn2 : 2 ≤ n) (hn : n ≤ 2 ^ 31)
    (hmin : i_collection_min < i_collection_max) (hmax : i_collection_max < n) :
    index_working n i_collection_min i_collection_max =
      i_collection_min * (2 * n - i_collection_min - 1) / 2 +
        (i_collection_max - i_collection_min - 1) ∧
    wmul (wneg i_collection_min) (wadd (wsub i_collection_min (wmul 2 n)) 1) =
      i_collection_min * (2 * n - i_collection_min - 1) ∧
    2 ∣ i_collection_min * (2 * n - i_collection_min - 1) ∧
    wmul (wneg i_collection_min) (wadd (wsub i_collection_min (wmul 2 n)) 1) % 2 = 0 ∧
    pairwise_index n (i_collection_min : Int) (i_collection_max : Int) old =
      (PAIRWISE_RETURN_SUCCESS,
        i_collection_min * (2 * n - i_collection_min - 1) / 2 +
          (i_collection_max - i_collection_min - 1)) := by
  have hn32 : n ≤ 2 ^ 32 := le_trans hn (by decide)
  have hp := index_product_exact hn32 (show i_collection_min + 2 ≤ n by omega)
  have he := index_product_even (show i_collection_min ≤ n by omega)
  refine ⟨index_working_exact hn32 hmin hmax, hp, he, ?_, ?_⟩
  · rw [hp]
    exact Nat.mod_eq_zero_of_dvd he
  · exact pairwise_index_of_lt old hn32 hmin hmax

theorem pairwise_index_exact_witness :
    index_working 4 1 3 = 1 * (2 * 4 - 1 - 1) / 2 + (3 - 1 - 1) ∧
    wmul (wneg 1) (wadd (wsub 1 (wmul 2 4)) 1) = 1 * (2 * 4 - 1 - 1) ∧
    2 ∣ 1 * (2 * 4 - 1 - 1) ∧
    wmul (wneg 1) (wadd (wsub 1 (wmul 2 4)) 1) % 2 = 0 ∧
    pairwise_index 4 ((1 : Nat) : Int) ((3 : Nat) : Int) 7 =
      (PAIRWISE_RETURN_SUCCESS, 1 * (2 * 4 - 1 - 1) / 2 + (3 - 1 - 1)) :=
  pairwise_index_exact 4 1 3 7 (by decide) (by decide) (by decide) (by decide)

/-! ## The inverse of the triangular count -/

/-- C27: for every real `r >= 1` and every real `c` with
`0 <= 8 c <= (2 r - 1) ^ 2`, the radicand `-8 c + 4 r r - 4 r + 1` of
`_pairwise_populate_argument_sets` is `(2 r - 1) ^ 2 - 8 c`, the value
`n_collections_used` it computes is
`u = 0.5 * (2 r - 1 - sqrt((2 r - 1) ^ 2 - 8 c))`, and
`u * (2 r - u - 1) / 2 = c`. -/
theorem collections_used_inverts_count (r c : ℝ) (_hr : 1 ≤ r) (_hc0 : 0 ≤ 8 * c)
    (hc1 : 8 * c ≤ (2 * r - 1) ^ 2) :
    (-8 * c) + (4 * (r * r)) - (4 * r) + 1 = (2 * r - 1) ^ 2 - 8 * c ∧
    collections_used Real.sqrt c r =
      (1 / 2) * (2 * r - 1 - Real.sqrt ((2 * r - 1) ^ 2 - 8 * c)) ∧
    collections_used Real.sqrt c r * (2 * r - collections_used Real.sqrt c r - 1) / 2 = c := by
  have hrad : (-8 * c) + (4 * (r * r)) - (4 * r) + 1 = (2 * r - 1) ^ 2 - 8 * c := by ring
  have hu : collections_used Real.sqrt c r =
      (1 / 2) * (2 * r - 1 - Real.sqrt ((2 * r - 1) ^ 2 - 8 * c)) := by
    unfold collections_used
    rw [hrad]
    ring
  refine ⟨hrad, hu, ?_⟩
  have hs : Real.sqrt ((2 * r - 1) ^ 2 - 8 * c) * Real.sqrt ((2 * r - 1) ^ 2 - 8 * c) =
      (2 * r - 1) ^ 2 - 8 * c := Real.mul_self_sqrt (by linarith)
  rw [hu]
  linear_combination (-1 / 8 : ℝ) * hs

theorem collections_used_inverts_count_witness :
    (-8 * (1 : ℝ)) + (4 * ((2 : ℝ) * 2)) - (4 * 2) + 1 = (2 * 2 - 1) ^ 2 - 8 * 1 ∧
    collections_used Real.sqrt 1 2 =
      (1 / 2) * (2 * 2 - 1 - Real.sqrt ((2 * 2 - 1) ^ 2 - 8 * 1)) ∧
    collections_used Real.sqrt 1 2 * (2 * 2 - collections_used Real.sqrt 1 2 - 1) / 2 = 1 :=
  collections_used_inverts_count 2 1 (by norm_num) (by norm_num) (by norm_num)


/-! ## Status of a thread failure -/

/-- The `switch` after a failed `pthread_create`, case by case. -/
theorem create_status_table :
    create_status EAGAIN = PAIRWISE_RETURN_PTHREAD_CREATE_EAGAIN ∧
    create_status EINVAL = PAIRWISE_RETURN_PTHREAD_CREATE_EINVAL ∧
    create_status EPERM = PAIRWISE_RETURN_PTHREAD_CREATE_EPERM ∧
    ∀ e, e ≠ EAGAIN → e ≠ EINVAL → e ≠ EPERM →
      create_status e = PAIRWISE_RETURN_PTHREAD_CREATE_UNKNOWN := by
  refine ⟨by decide, by decide, by decide, ?_⟩
  intro e h1 h2 h3
  unfold create_status
  rw [if_neg h1, if_neg h2, if_neg h3]

/-- The `switch` after a failed `pthread_join`, case by case. -/
theorem join_status_table :
    join_status EDEADLK = PAIRWISE_RETURN_PTHREAD_JOIN_EDEADLK ∧
    join_status EINVAL = PAIRWISE_RETURN_PTHREAD_JOIN_EINVAL ∧
    join_status ESRCH = PAIRWISE_RETURN_PTHREAD_JOIN_ESRCH ∧
    ∀ e, e ≠ EDEADLK → e ≠ EINVAL → e ≠ ESRCH →
      join_status e = PAIRWISE_RETURN_PTHREAD_JOIN_UNKNOWN := by
  refine ⟨by decide, by decide, by decide, ?_⟩
  intro e h1 h2 h3
  unfold join_status
  rw [if_neg h1, if_neg h2, if_neg h3]

/-- C25: the status of a thread failure depends on the error number of the
failing call alone. A call of `_pairwise_launch` whose start of worker `k` fails
returns `create_status` of the error number of that start, and a call whose join
of worker `j` fails returns `join_status` of the error number of that join;
`create_status` sends `EAGAIN`, `EINVAL`, `EPERM` to the codes
`PTHREAD_CREATE_EAGAIN`, `PTHREAD_CREATE_EINVAL`, `PTHREAD_CREATE_EPERM` and every
other value to `PTHREAD_CREATE_UNKNOWN`; `join_status` sends `EDEADLK`, `EINVAL`,
`ESRCH` to `PTHREAD_JOIN_EDEADLK`, `PTHREAD_JOIN_EINVAL`, `PTHREAD_JOIN_ESRCH` and
every other value to `PTHREAD_JOIN_UNKNOWN`; the eight codes are pairwise
different and none is the success code `0`. -/
theorem launch_failure_status {R : Type} [LinearOrderedField R] [FloorSemiring R]
    (env_c env_j : launch_env) (sqrt : R → R) (f : Nat → Nat → (Nat → R) → (Nat → R) → R)
    (n_collections n_points n_coordinates : Nat) (a_collections results : Nat → R)
    (T k j : Nat)
    (hn : 2 ≤ n_collections) (hp : 0 < n_points) (hc : 0 < n_coordinates) (hT : 2 ≤ T)
    (hc1 : env_c.malloc_argument_sets_ok = true) (hc2 : env_c.malloc_threads_ok = true)
    (hk : k < T) (hcfail : env_c.create_return k ≠ 0)
    (hcok : ∀ i, k < i → i < T → env_c.create_return i = 0)
    (hj1 : env_j.malloc_argument_sets_ok = true) (hj2 : env_j.malloc_threads_ok = true)
    (hjcr : ∀ i, i < T → env_j.create_return i = 0)
    (hj : j < T) (hjfail : env_j.join_return j ≠ 0)
    (hjok : ∀ i, j < i → i < T → env_j.join_return i = 0) :
    (_pairwise_launch env_c sqrt f n_collections n_points n_coordinates a_collections results
      T).n_return = create_status (env_c.create_return k) ∧
    (_pairwise_launch env_j sqrt f n_collections n_points n_coordinates a_collections results
      T).n_return = join_status (env_j.join_return j) ∧
    (create_status EAGAIN = PAIRWISE_RETURN_PTHREAD_CREATE_EAGAIN ∧
      create_status EINVAL = PAIRWISE_RETURN_PTHREAD_CREATE_EINVAL ∧
      create_status EPERM = PAIRWISE_RETURN_PTHREAD_CREATE_EPERM ∧
      ∀ e, e ≠ EAGAIN → e ≠ EINVAL → e ≠ EPERM →
        create_status e = PAIRWISE_RETURN_PTHREAD_CREATE_UNKNOWN) ∧
    (join_status EDEADLK = PAIRWISE_RETURN_PTHREAD_JOIN_EDEADLK ∧
      join_status EINVAL = PAIRWISE_RETURN_PTHREAD_JOIN_EINVAL ∧
      join_status ESRCH = PAIRWISE_RETURN_PTHREAD_JOIN_ESRCH ∧
      ∀ e, e ≠ EDEADLK → e ≠ EINVAL → e ≠ ESRCH →
        join_status e = PAIRWISE_RETURN_PTHREAD_JOIN_UNKNOWN) ∧
    [PAIRWISE_RETURN_PTHREAD_CREATE_EAGAIN, PAIRWISE_RETURN_PTHREAD_CREATE_EINVAL,
      PAIRWISE_RETURN_PTHREAD_CREATE_EPERM, PAIRWISE_RETURN_PTHREAD_CREATE_UNKNOWN,
      PAIRWISE_RETURN_PTHREAD_JOIN_EDEADLK, PAIRWISE_RETURN_PTHREAD_JOIN_EINVAL,
      PAIRWISE_RETURN_PTHREAD_JOIN_ESRCH, PAIRWISE_RETURN_PTHREAD_JOIN_UNKNOWN].Nodup ∧
    PAIRWISE_RETURN_SUCCESS ∉
      [PAIRWISE_RETURN_PTHREAD_CREATE_EAGAIN, PAIRWISE_RETURN_PTHREAD_CREATE_EINVAL,
        PAIRWISE_RETURN_PTHREAD_CREATE_EPERM, PAIRWISE_RETURN_PTHREAD_CREATE_UNKNOWN,
        PAIRWISE_RETURN_PTHREAD_JOIN_EDEADLK, PAIRWISE_RETURN_PTHREAD_JOIN_EINVAL,
        PAIRWISE_RETURN_PTHREAD_JOIN_ESRCH, PAIRWISE_RETURN_PTHREAD_JOIN_UNKNOWN] := by
  refine ⟨?_, ?_, create_status_table, join_status_table, by decide, by decide⟩
  · rw [launch_create_failure env_c sqrt f n_collections n_points n_coordinates a_collections
      results T k hn hp hc hT hc1 hc2 hk hcfail hcok]
  · rw [launch_join_failure env_j sqrt f n_collections n_points n_coordinates a_collections
      results T j hn hp hc hT hj1 hj2 hjcr hj hjfail hjok]

/-! ## Translation of return codes -/

/-- C26: the translation of return codes ignores the codes it does not know.
For every integer `n_return`, the function for the calculations sets no
exception exactly when `n_return` is outside `1..9` and is not `14`, and exactly
one exception otherwise (`MemoryError` for `1`, `RuntimeError` for `2..9`,
`ValueError` for `14`); the function for `pairwise_index` sets no exception
exactly when `n_return` is outside `10..13`, and exactly one otherwise
(`ValueError` for `10`, `IndexError` for `11..13`). -/
theorem exception_translation_ignores_unknown (n_return : Int) :
    (pywise_set_python_exception_from_pairwise_calculations_return_code n_return = [] ↔
      ¬ ((1 ≤ n_return ∧ n_return ≤ 9) ∨ n_return = 14)) ∧
    ((pywise_set_python_exception_from_pairwise_calculations_return_code n_return).length = 1 ↔
      ((1 ≤ n_return ∧ n_return ≤ 9) ∨ n_return = 14)) ∧
    pywise_set_python_exception_from_pairwise_calculations_return_code n_return =
      (if n_return = 1 then [py_exception.MemoryError]
       else if 2 ≤ n_return ∧ n_return ≤ 9 then [py_exception.RuntimeError]
       else if n_return = 14 then [py_exception.ValueError] else []) ∧
    (pywise_set_python_exception_from_pairwise_index_return_code n_return = [] ↔
      ¬ (10 ≤ n_return ∧ n_return ≤ 13)) ∧
    ((pywise_set_python_exception_from_pairwise_index_return_code n_return).length = 1 ↔
      (10 ≤ n_return ∧ n_return ≤ 13)) ∧
    pywise_set_python_exception_from_pairwise_index_return_code n_return =
      (if n_return = 10 then [py_exception.ValueError]
       else if 11 ≤ n_return ∧ n_return ≤ 13 then [py_exception.IndexError] else []) := by
  have hc : pywise_set_python_exception_from_pairwise_calculations_return_code n_return =
      (if n_return = 1 then [py_exception.MemoryError]
       else if 2 ≤ n_return ∧ n_return ≤ 9 then [py_exception.RuntimeError]
       else if n_return = 14 then [py_exception.ValueError] else []) := by
    have key : n_return = 1 ∨ n_return = 2 ∨ n_return = 3 ∨ n_return = 4 ∨ n_return = 5 ∨
        n_return = 6 ∨ n_return = 7 ∨ n_return = 8 ∨ n_return = 9 ∨ n_return = 14 ∨
        (¬ ((1 ≤ n_return ∧ n_return ≤ 9) ∨ n_return = 14)) := by omega
    rcases key with h | h | h | h | h | h | h | h | h | h | h
    any_goals (subst h; decide)
    unfold pywise_set_python_exception_from_pairwise_calculations_return_code
    simp only [PAIRWISE_RETURN_MALLOC_FAIL, PAIRWISE_RETURN_PTHREAD_CREATE_EAGAIN,
      PAIRWISE_RETURN_PTHREAD_CREATE_EINVAL, PAIRWISE_RETURN_PTHREAD_CREATE_EPERM,
      PAIRWISE_RETURN_PTHREAD_CREATE_UNKNOWN, PAIRWISE_RETURN_PTHREAD_JOIN_EDEADLK,
      PAIRWISE_RETURN_PTHREAD_JOIN_EINVAL, PAIRWISE_RETURN_PTHREAD_JOIN_ESRCH,
      PAIRWISE_RETURN_PTHREAD_JOIN_UNKNOWN, PAIRWISE_RETURN_ERROR_NTHREADS, Nat.cast_ofNat,
      Nat.cast_one]
    repeat rw [if_neg (by omega)]
  have hi : pywise_set_python_exception_from_pairwise_index_return_code n_return =
      (if n_return = 10 then [py_exception.ValueError]
       else if 11 ≤ n_return ∧ n_return ≤ 13 then [py_exception.IndexError] else []) := by
    have key : n_return = 10 ∨ n_return = 11 ∨ n_return = 12 ∨ n_return = 13 ∨
        (¬ (10 ≤ n_return ∧ n_return ≤ 13)) := by omega
    rcases key with h | h | h | h | h
    any_goals (subst h; decide)
    unfold pywise_set_python_exception_from_pairwise_index_return_code
    simp only [PAIRWISE_RETURN_ERROR_NCOLLECTIONS, PAIRWISE_RETURN_ERROR_ICOLLECTIONA,
      PAIRWISE_RETURN_ERROR_ICOLLECTIONB, PAIRWISE_RETURN_ERROR_ICOLLECTIONSAME,
      Nat.cast_ofNat]
    repeat rw [if_neg (by omega)]
  refine ⟨?_, ?_, hc, ?_, ?_, hi⟩
  · rw [hc]
    split_ifs <;> simp <;> omega
  · rw [hc]
    split_ifs <;> simp <;> omega
  · rw [hi]
    split_ifs <;> simp <;> omega
  · rw [hi]
    split_ifs <;> simp <;> omega


/-! ## Order of the starts and joins -/

theorem getElem_opt_reverse_range_map {α : Type} (g : Nat → α) (T j : Nat) (hj : j < T) :
    ((List.range' 0 T).reverse.map g)[j]? = some (g (T - 1 - j)) := by
  rw [List.getElem?_map, List.getElem?_reverse (by simpa using hj), List.length_range']
  have h : (List.range' 0 T)[T - 1 - j]? = some (T - 1 - j) := by
    rw [List.getElem?_eq_getElem (by simp; omega)]
    simp
  rw [h]
  rfl

/-- Positions in a list of events made of two leading events, `T` starts, `T`
joins and the rest. -/
theorem events_positions (a b : launch_event) (starts joins rest : List launch_event) (T : Nat)
    (hs : starts.length = T) (hj : joins.length = T) :
    (∀ j, j < T → ([a, b] ++ starts ++ joins ++ rest)[2 + j]? = starts[j]?) ∧
    (∀ j, j < T → ([a, b] ++ starts ++ joins ++ rest)[2 + T + j]? = joins[j]?) := by
  constructor
  · intro j hjT
    rw [List.getElem?_append_left (by simp; omega), List.getElem?_append_left (by simp; omega),
      List.getElem?_append_right (by simp)]
    simp
  · intro j hjT
    rw [List.getElem?_append_left (by simp; omega), List.getElem?_append_right (by simp; omega)]
    congr 1
    simp
    omega

/-- C29: on the multi-thread path of `_pairwise_launch` with `T >= 2` workers and
no failure, the events are: the two allocations, the starts of the workers
`T - 1`, `T - 2`, ..., `0` in this order (start number `j` is
`pthread_create(a_threads + (T - 1 - j), NULL, _pairwise_launch_bounded,
a_argument_sets + (T - 1 - j))`), then the joins of the workers `T - 1`, ..., `0`
in the same order, then the two releases; all `T` starts come before the first
join, and the call returns success. -/
theorem launch_starts_and_joins_descend {R : Type} [LinearOrderedField R] [FloorSemiring R]
    (env : launch_env) (sqrt : R → R) (f : Nat → Nat → (Nat → R) → (Nat → R) → R)
    (n_collections n_points n_coordinates : Nat) (a_collections results : Nat → R) (T : Nat)
    (hn : 2 ≤ n_collections) (hp : 0 < n_points) (hc : 0 < n_coordinates) (hT : 2 ≤ T)
    (hm1 : env.malloc_argument_sets_ok = true) (hm2 : env.malloc_threads_ok = true)
    (hcr : ∀ i, i < T → env.create_return i = 0)
    (hjn : ∀ i, i < T → env.join_return i = 0) :
    (_pairwise_launch env sqrt f n_collections n_points n_coordinates a_collections results
      T).n_return = PAIRWISE_RETURN_SUCCESS ∧
    (_pairwise_launch env sqrt f n_collections n_points n_coordinates a_collections results
      T).events =
      [launch_event.malloc_argument_sets true, launch_event.malloc_threads true]
        ++ (List.range' 0 T).reverse.map (fun i => launch_event.create i 0)
        ++ (List.range' 0 T).reverse.map (fun i => launch_event.join i 0)
        ++ [launch_event.free_argument_sets, launch_event.free_threads] ∧
    (∀ j, j < T → (_pairwise_launch env sqrt f n_collections n_points n_coordinates
      a_collections results T).events[2 + j]? = some (launch_event.create (T - 1 - j) 0)) ∧
    (∀ j, j < T → (_pairwise_launch env sqrt f n_collections n_points n_coordinates
      a_collections results T).events[2 + T + j]? = some (launch_event.join (T - 1 - j) 0)) ∧
    (_pairwise_launch env sqrt f n_collections n_points n_coordinates a_collections results
      T).events.length = 2 + T + T + 2 := by
  rw [launch_success env sqrt f n_collections n_points n_coordinates a_collections results T
    hn hp hc hT hm1 hm2 hcr hjn]
  have hpos := events_positions (launch_event.malloc_argument_sets true)
    (launch_event.malloc_threads true)
    ((List.range' 0 T).reverse.map (fun i => launch_event.create i 0))
    ((List.range' 0 T).reverse.map (fun i => launch_event.join i 0))
    [launch_event.free_argument_sets, launch_event.free_threads] T (by simp) (by simp)
  refine ⟨rfl, rfl, ?_, ?_, ?_⟩
  · intro j hj
    exact (hpos.1 j hj).trans (getElem_opt_reverse_range_map _ T j hj)
  · intro j hj
    exact (hpos.2 j hj).trans (getElem_opt_reverse_range_map _ T j hj)
  · simp
    omega

theorem launch_starts_and_joins_descend_witness :
    (_pairwise_launch ⟨true, true, fun _ => 0, fun _ => 0⟩ Real.sqrt (fun _ _ a b => a 0 + b 0)
      4 1 1 (fun _ => 1) (fun _ => 7) 3).n_return = PAIRWISE_RETURN_SUCCESS ∧
    (_pairwise_launch ⟨true, true, fun _ => 0, fun _ => 0⟩ Real.sqrt (fun _ _ a b => a 0 + b 0)
      4 1 1 (fun _ => 1) (fun _ => 7) 3).events =
      [launch_event.malloc_argument_sets true, launch_event.malloc_threads true]
        ++ (List.range' 0 3).reverse.map (fun i => launch_event.create i 0)
        ++ (List.range' 0 3).reverse.map (fun i => launch_event.join i 0)
        ++ [launch_event.free_argument_sets, launch_event.free_threads] ∧
    (∀ j, j < 3 → (_pairwise_launch ⟨true, true, fun _ => 0, fun _ => 0⟩ Real.sqrt
      (fun _ _ a b => a 0 + b 0) 4 1 1 (fun _ => 1) (fun _ => 7) 3).events[2 + j]? =
        some (launch_event.create (3 - 1 - j) 0)) ∧
    (∀ j, j < 3 → (_pairwise_launch ⟨true, true, fun _ => 0, fun _ => 0⟩ Real.sqrt
      (fun _ _ a b => a 0 + b 0) 4 1 1 (fun _ => 1) (fun _ => 7) 3).events[2 + 3 + j]? =
        some (launch_event.join (3 - 1 - j) 0)) ∧
    (_pairwise_launch ⟨true, true, fun _ => 0, fun _ => 0⟩ Real.sqrt (fun _ _ a b => a 0 + b 0)
      4 1 1 (fun _ => 1) (fun _ => 7) 3).events.length = 2 + 3 + 3 + 2 :=
  launch_starts_and_joins_descend ⟨true, true, fun _ => 0, fun _ => 0⟩ Real.sqrt
    (fun _ _ a b => a 0 + b 0) 4 1 1 (fun _ => 1) (fun _ => 7) 3 (by decide) (by decide)
    (by decide) (by decide) rfl rfl (fun _ _ => rfl) (fun _ _ => rfl)

theorem launch_failure_status_witness :
    (_pairwise_launch ⟨true, true, fun i => if i = 1 then EPERM else 0, fun _ => 0⟩ Real.sqrt
      (fun _ _ a b => a 0 + b 0) 4 1 1 (fun _ => 1) (fun _ => 7) 2).n_return =
      create_status ((fun i => if i = 1 then EPERM else 0) 1) ∧
    (_pairwise_launch ⟨true, true, fun _ => 0, fun i => if i = 0 then ESRCH else 0⟩ Real.sqrt
      (fun _ _ a b => a 0 + b 0) 4 1 1 (fun _ => 1) (fun _ => 7) 2).n_return =
      join_status ((fun i => if i = 0 then ESRCH else 0) 0) ∧
    (create_status EAGAIN = PAIRWISE_RETURN_PTHREAD_CREATE_EAGAIN ∧
      create_status EINVAL = PAIRWISE_RETURN_PTHREAD_CREATE_EINVAL ∧
      create_status EPERM = PAIRWISE_RETURN_PTHREAD_CREATE_EPERM ∧
      ∀ e, e ≠ EAGAIN → e ≠ EINVAL → e ≠ EPERM →
        create_status e = PAIRWISE_RETURN_PTHREAD_CREATE_UNKNOWN) ∧
    (join_status EDEADLK = PAIRWISE_RETURN_PTHREAD_JOIN_EDEADLK ∧
      join_status EINVAL = PAIRWISE_RETURN_PTHREAD_JOIN_EINVAL ∧
      join_status ESRCH = PAIRWISE_RETURN_PTHREAD_JOIN_ESRCH ∧
      ∀ e, e ≠ EDEADLK → e ≠ EINVAL → e ≠ ESRCH →
        join_status e = PAIRWISE_RETURN_PTHREAD_JOIN_UNKNOWN) ∧
    [PAIRWISE_RETURN_PTHREAD_CREATE_EAGAIN, PAIRWISE_RETURN_PTHREAD_CREATE_EINVAL,
      PAIRWISE_RETURN_PTHREAD_CREATE_EPERM, PAIRWISE_RETURN_PTHREAD_CREATE_UNKNOWN,
      PAIRWISE_RETURN_PTHREAD_JOIN_EDEADLK, PAIRWISE_RETURN_PTHREAD_JOIN_EINVAL,
      PAIRWISE_RETURN_PTHREAD_JOIN_ESRCH, PAIRWISE_RETURN_PTHREAD_JOIN_UNKNOWN].Nodup ∧
    PAIRWISE_RETURN_SUCCESS ∉
      [PAIRWISE_RETURN_PTHREAD_CREATE_EAGAIN, PAIRWISE_RETURN_PTHREAD_CREATE_EINVAL,
        PAIRWISE_RETURN_PTHREAD_CREATE_EPERM, PAIRWISE_RETURN_PTHREAD_CREATE_UNKNOWN,
        PAIRWISE_RETURN_PTHREAD_JOIN_EDEADLK, PAIRWISE_RETURN_PTHREAD_JOIN_EINVAL,
        PAIRWISE_RETURN_PTHREAD_JOIN_ESRCH, PAIRWISE_RETURN_PTHREAD_JOIN_UNKNOWN] :=
  launch_failure_status ⟨true, true, fun i => if i = 1 then EPERM else 0, fun _ => 0⟩
    ⟨true, true, fun _ => 0, fun i => if i = 0 then ESRCH else 0⟩ Real.sqrt
    (fun _ _ a b => a 0 + b 0) 4 1 1 (fun _ => 1) (fun _ => 7) 2 1 0 (by decide) (by decide)
    (by decide) (by decide) rfl rfl (by decide) (by decide) (fun i h1 h2 => by omega)
    rfl rfl (fun _ _ => rfl) (by decide) (by decide)
    (fun i h1 h2 => by
      have : i = 1 := by omega
      subst this
      rfl)

/-! ## The offset of the partitioner and the index -/

/-- C30: for every `n >= 2` and `T >= 1` (`T` a `size_t`, the result buffer an
object of the address space), `_pairwise_populate_argument_sets` builds `T`
argument sets, the first with `i_collection_lower = 0`, and for every argument
set whose `i_collection_lower` is at most `n - 2` the call
`pairwise_index(n, i_collection_lower, i_collection_lower + 1)` returns success
and the offset it stores is the result offset of the argument set (its
`a_results` minus the buffer base); exact real arithmetic in the partitioner. -/
theorem populate_offset_is_index (f : Nat → Nat → (Nat → ℝ) → (Nat → ℝ) → ℝ)
    (n n_points n_coordinates : Nat) (a_collections : Nat → ℝ) (a_results T : Nat)
    (hn : 2 ≤ n) (hfit : results_fit n) (hT : 1 ≤ T) (hTW : T < WORD) :
    (_pairwise_populate_argument_sets Real.sqrt f n n_points n_coordinates a_collections
      a_results T).length = T ∧
    (∃ d, (_pairwise_populate_argument_sets Real.sqrt f n n_points n_coordinates a_collections
        a_results T)[0]? = some d ∧ d.i_collection_lower = 0) ∧
    (∀ (k : Nat) (d : pairwise_as ℝ) (old : Nat),
      (_pairwise_populate_argument_sets Real.sqrt f n n_points n_coordinates a_collections
        a_results T)[k]? = some d →
      d.i_collection_lower ≤ n - 2 →
      (pairwise_index n (d.i_collection_lower : Int) ((d.i_collection_lower + 1 : Nat) : Int)
        old).1 = PAIRWISE_RETURN_SUCCESS ∧
      d.a_results = a_results +
        (pairwise_index n (d.i_collection_lower : Int) ((d.i_collection_lower + 1 : Nat) : Int)
          old).2) := by
  have hW := two_mul_lt_of_results_fit hfit
  obtain ⟨O, L, U, hch, hO, hds⟩ := populate_closed_form Real.sqrt exact_sqrt_real f n n_points
    n_coordinates a_collections a_results T (by omega) (by omega) hT hTW
  rw [hds]
  refine ⟨by simp [partition_of], ?_, ?_⟩
  · refine ⟨argument_set_of f n n_points n_coordinates a_collections a_results (O 0) (L 0)
      (U 0), ?_, hch.1⟩
    unfold partition_of
    rw [List.getElem?_map, List.getElem?_range (by omega)]
    rfl
  · intro k d old hd hlow
    obtain ⟨hk, rfl⟩ := partition_of_getElem _ _ _ _ _ _ _ _ _ _ _ _ hd
    have hlow2 : L k ≤ n - 2 := hlow
    rw [show (argument_set_of f n n_points n_coordinates a_collections a_results (O k) (L k)
      (U k)).i_collection_lower = L k from rfl,
      pairwise_index_of_lt old (le_of_results_fit hfit) (Nat.lt_succ_self (L k)) (by omega)]
    refine ⟨rfl, ?_⟩
    show a_results + O k = a_results + pair_offset n (L k) (L k + 1)
    rw [hO hW k hk]
    unfold pair_offset
    omega

theorem populate_offset_is_index_witness :
    (_pairwise_populate_argument_sets Real.sqrt (fun _ _ a b => a 0 + b 0) 4 1 1 (fun _ => 1)
      100 3).length = 3 ∧
    (∃ d, (_pairwise_populate_argument_sets Real.sqrt (fun _ _ a b => a 0 + b 0) 4 1 1
        (fun _ => 1) 100 3)[0]? = some d ∧ d.i_collection_lower = 0) ∧
    (∀ (k : Nat) (d : pairwise_as ℝ) (old : Nat),
      (_pairwise_populate_argument_sets Real.sqrt (fun _ _ a b => a 0 + b 0) 4 1 1 (fun _ => 1)
        100 3)[k]? = some d →
      d.i_collection_lower ≤ 4 - 2 →
      (pairwise_index 4 (d.i_collection_lower : Int) ((d.i_collection_lower + 1 : Nat) : Int)
        old).1 = PAIRWISE_RETURN_SUCCESS ∧
      d.a_results = 100 +
        (pairwise_index 4 (d.i_collection_lower : Int) ((d.i_collection_lower + 1 : Nat) : Int)
          old).2) :=
  populate_offset_is_index (fun _ _ a b => a 0 + b 0) 4 1 1 (fun _ => 1) 100 3 (by decide)
    (by decide) (by decide) (by decide)

/-! ## The order of the failure tests of pairwise_index -/

/-- The four failure exits and the success exit of `pairwise_index`, each with
the outcome of the tests that lead to it. -/
theorem pairwise_index_exits (n : Nat) (a b : Int) (old : Nat) :
    (n < 2 → pairwise_index n a b old = (PAIRWISE_RETURN_ERROR_NCOLLECTIONS, old)) ∧
    (2 ≤ n → index_out_of_bounds n (resolve_index n a) = true →
      pairwise_index n a b old = (PAIRWISE_RETURN_ERROR_ICOLLECTIONA, old)) ∧
    (2 ≤ n → index_out_of_bounds n (resolve_index n a) = false →
      index_out_of_bounds n (resolve_index n b) = true →
      pairwise_index n a b old = (PAIRWISE_RETURN_ERROR_ICOLLECTIONB, old)) ∧
    (2 ≤ n → index_out_of_bounds n (resolve_index n a) = false →
      index_out_of_bounds n (resolve_index n b) = false →
      resolve_index n a = resolve_index n b →
      pairwise_index n a b old = (PAIRWISE_RETURN_ERROR_ICOLLECTIONSAME, old)) ∧
    (2 ≤ n → index_out_of_bounds n (resolve_index n a) = false →
      index_out_of_bounds n (resolve_index n b) = false →
      resolve_index n a ≠ resolve_index n b →
      (pairwise_index n a b old).1 = PAIRWISE_RETURN_SUCCESS) := by
  refine ⟨?_, ?_, ?_, ?_, ?_⟩
  · intro hn
    unfold pairwise_index
    rw [if_pos hn]
  · intro hn ha
    unfold pairwise_index
    simp only
    rw [if_neg (by omega), if_pos ha]
  · intro hn ha hb
    unfold pairwise_index
    simp only
    rw [if_neg (by omega), if_neg (by simp [ha]), if_pos hb]
  · intro hn ha hb hab
    unfold pairwise_index
    simp only
    rw [if_neg (by omega), if_neg (by simp [ha]), if_neg (by simp [hb]), if_pos hab]
  · intro hn ha hb hab
    rw [pairwise_index_success old hn ha hb hab]

/-- The status of `pairwise_index` does not depend on the content of `i_result`
before the call. -/
theorem pairwise_index_status_old (n : Nat) (a b : Int) (old old2 : Nat) :
    (pairwise_index n a b old2).1 = (pairwise_index n a b old).1 := by
  unfold pairwise_index
  simp only
  split_ifs <;> rfl

/-- On failure `i_result` keeps its content; on success the content written
does not depend on the content before. -/
theorem pairwise_index_result_old (n : Nat) (a b : Int) (old : Nat) :
    ((pairwise_index n a b old).1 ≠ PAIRWISE_RETURN_SUCCESS → (pairwise_index n a b old).2 = old) ∧
    ((pairwise_index n a b old).1 = PAIRWISE_RETURN_SUCCESS →
      ∀ old2, pairwise_index n a b old2 = pairwise_index n a b old) := by
  rcases pairwise_index_status_cases n a b old with h | h | h | h | h
  · exact ⟨fun _ => by rw [h.2], fun hs => by rw [h.2] at hs; exact absurd (show PAIRWISE_RETURN_ERROR_NCOLLECTIONS = PAIRWISE_RETURN_SUCCESS from hs) (by decide)⟩
  · exact ⟨fun _ => by rw [h.2.2], fun hs => by rw [h.2.2] at hs; exact absurd (show PAIRWISE_RETURN_ERROR_ICOLLECTIONA = PAIRWISE_RETURN_SUCCESS from hs) (by decide)⟩
  · exact ⟨fun _ => by rw [h.2.2.2], fun hs => by rw [h.2.2.2] at hs; exact absurd (show PAIRWISE_RETURN_ERROR_ICOLLECTIONB = PAIRWISE_RETURN_SUCCESS from hs) (by decide)⟩
  · exact ⟨fun _ => by rw [h.2.2.2.2],
      fun hs => by rw [h.2.2.2.2] at hs; exact absurd (show PAIRWISE_RETURN_ERROR_ICOLLECTIONSAME = PAIRWISE_RETURN_SUCCESS from hs) (by decide)⟩
  · refine ⟨fun hne => absurd h.2.2.2.2 hne, fun _ old2 => ?_⟩
    rw [pairwise_index_success old2 h.1 h.2.1 h.2.2.1 h.2.2.2.1,
      pairwise_index_success old h.1 h.2.1 h.2.2.1 h.2.2.2.1]


/-- C33: `pairwise_index` makes its failure tests in a fixed order. For `ssize_t`
indices `a`, `b`: `n < 2` gives `PAIRWISE_RETURN_ERROR_NCOLLECTIONS` whatever the
indices are; otherwise a resolved first index outside `[0, n)` gives
`PAIRWISE_RETURN_ERROR_ICOLLECTIONA` whatever the second index is; otherwise a
resolved second index outside `[0, n)` gives `PAIRWISE_RETURN_ERROR_ICOLLECTIONB`;
otherwise equal resolved indices give `PAIRWISE_RETURN_ERROR_ICOLLECTIONSAME` (so
do `-1` and `n - 1`, in either order, for `n <= 2 ^ 63`), and different ones give
success. The status does not depend on the content of `i_result`. The resolved
index is the function's own shift `i += n`, which is `a + n` for negative `a`
whenever `n <= 2 ^ 63`. -/
theorem pairwise_index_failure_order (n : Nat) (a b : Int) (old : Nat)
    (ha : in_ssize a) (hb : in_ssize b) :
    (n < 2 → ∀ a2 b2 : Int,
      (pairwise_index n a2 b2 old).1 = PAIRWISE_RETURN_ERROR_NCOLLECTIONS) ∧
    (2 ≤ n → ¬ (0 ≤ resolve_index n a ∧ resolve_index n a < (n : Int)) → ∀ b2 : Int,
      (pairwise_index n a b2 old).1 = PAIRWISE_RETURN_ERROR_ICOLLECTIONA) ∧
    (2 ≤ n → (0 ≤ resolve_index n a ∧ resolve_index n a < (n : Int)) →
      ¬ (0 ≤ resolve_index n b ∧ resolve_index n b < (n : Int)) →
      (pairwise_index n a b old).1 = PAIRWISE_RETURN_ERROR_ICOLLECTIONB) ∧
    (2 ≤ n → (0 ≤ resolve_index n a ∧ resolve_index n a < (n : Int)) →
      (0 ≤ resolve_index n b ∧ resolve_index n b < (n : Int)) →
      resolve_index n a = resolve_index n b →
      (pairwise_index n a b old).1 = PAIRWISE_RETURN_ERROR_ICOLLECTIONSAME) ∧
    (2 ≤ n → (0 ≤ resolve_index n a ∧ resolve_index n a < (n : Int)) →
      (0 ≤ resolve_index n b ∧ resolve_index n b < (n : Int)) →
      resolve_index n a ≠ resolve_index n b →
      (pairwise_index n a b old).1 = PAIRWISE_RETURN_SUCCESS) ∧
    (2 ≤ n → n ≤ 2 ^ 63 →
      (pairwise_index n (-1) ((n : Int) - 1) old).1 = PAIRWISE_RETURN_ERROR_ICOLLECTIONSAME ∧
      (pairwise_index n ((n : Int) - 1) (-1) old).1 = PAIRWISE_RETURN_ERROR_ICOLLECTIONSAME) ∧
    (∀ old2, (pairwise_index n a b old2).1 = (pairwise_index n a b old).1) ∧
    (n ≤ 2 ^ 63 → resolve_index n a = spec_resolved n a ∧
      resolve_index n b = spec_resolved n b) := by
  have hra := index_out_of_bounds_eq_false (n := n) (resolve_index_range (n := n) ha)
  have hrb := index_out_of_bounds_eq_false (n := n) (resolve_index_range (n := n) hb)
  refine ⟨?_, ?_, ?_, ?_, ?_, ?_, ?_, ?_⟩
  · intro hn a2 b2
    rw [(pairwise_index_exits n a2 b2 old).1 hn]
  · intro hn hna b2
    have h : index_out_of_bounds n (resolve_index n a) = true := by
      rcases Bool.eq_false_or_eq_true (index_out_of_bounds n (resolve_index n a)) with h | h
      · exact h
      · exact absurd (hra.1 h) hna
    rw [(pairwise_index_exits n a b2 old).2.1 hn h]
  · intro hn hia hnb
    have h : index_out_of_bounds n (resolve_index n b) = true := by
      rcases Bool.eq_false_or_eq_true (index_out_of_bounds n (resolve_index n b)) with h | h
      · exact h
      · exact absurd (hrb.1 h) hnb
    rw [(pairwise_index_exits n a b old).2.2.1 hn (hra.2 hia) h]
  · intro hn hia hib hab
    rw [(pairwise_index_exits n a b old).2.2.2.1 hn (hra.2 hia) (hrb.2 hib) hab]
  · intro hn hia hib hab
    exact (pairwise_index_exits n a b old).2.2.2.2 hn (hra.2 hia) (hrb.2 hib) hab
  · intro hn hn63
    have h1 : resolve_index n (-1) = (n : Int) - 1 := by
      rw [resolve_index_of_neg (by decide) (by decide) (by omega) (by omega)]
      ring
    have h2 : resolve_index n ((n : Int) - 1) = (n : Int) - 1 :=
      resolve_index_of_nonneg (by omega)
    have hs : in_ssize ((n : Int) - 1) := by
      unfold in_ssize
      constructor <;> omega
    have ho : index_out_of_bounds n ((n : Int) - 1) = false :=
      (index_out_of_bounds_eq_false hs).2 ⟨by omega, by omega⟩
    constructor
    · rw [(pairwise_index_exits n (-1) ((n : Int) - 1) old).2.2.2.1 hn (by rw [h1]; exact ho)
        (by rw [h2]; exact ho) (by rw [h1, h2])]
    · rw [(pairwise_index_exits n ((n : Int) - 1) (-1) old).2.2.2.1 hn (by rw [h2]; exact ho)
        (by rw [h1]; exact ho) (by rw [h1, h2])]
  · intro old2
    exact pairwise_index_status_old n a b old old2
  · intro hn63
    exact ⟨resolve_index_eq_spec_of_le hn63 ha, resolve_index_eq_spec_of_le hn63 hb⟩

theorem pairwise_index_failure_order_witness :
    ((4 : Nat) < 2 → ∀ a2 b2 : Int,
      (pairwise_index 4 a2 b2 7).1 = PAIRWISE_RETURN_ERROR_NCOLLECTIONS) ∧
    (2 ≤ (4 : Nat) → ¬ (0 ≤ resolve_index 4 (-1) ∧ resolve_index 4 (-1) < ((4 : Nat) : Int)) →
      ∀ b2 : Int, (pairwise_index 4 (-1) b2 7).1 = PAIRWISE_RETURN_ERROR_ICOLLECTIONA) ∧
    (2 ≤ (4 : Nat) → (0 ≤ resolve_index 4 (-1) ∧ resolve_index 4 (-1) < ((4 : Nat) : Int)) →
      ¬ (0 ≤ resolve_index 4 3 ∧ resolve_index 4 3 < ((4 : Nat) : Int)) →
      (pairwise_index 4 (-1) 3 7).1 = PAIRWISE_RETURN_ERROR_ICOLLECTIONB) ∧
    (2 ≤ (4 : Nat) → (0 ≤ resolve_index 4 (-1) ∧ resolve_index 4 (-1) < ((4 : Nat) : Int)) →
      (0 ≤ resolve_index 4 3 ∧ resolve_index 4 3 < ((4 : Nat) : Int)) →
      resolve_index 4 (-1) = resolve_index 4 3 →
      (pairwise_index 4 (-1) 3 7).1 = PAIRWISE_RETURN_ERROR_ICOLLECTIONSAME) ∧
    (2 ≤ (4 : Nat) → (0 ≤ resolve_index 4 (-1) ∧ resolve_index 4 (-1) < ((4 : Nat) : Int)) →
      (0 ≤ resolve_index 4 3 ∧ resolve_index 4 3 < ((4 : Nat) : Int)) →
      resolve_index 4 (-1) ≠ resolve_index 4 3 →
      (pairwise_index 4 (-1) 3 7).1 = PAIRWISE_RETURN_SUCCESS) ∧
    (2 ≤ (4 : Nat) → (4 : Nat) ≤ 2 ^ 63 →
      (pairwise_index 4 (-1) (((4 : Nat) : Int) - 1) 7).1 =
        PAIRWISE_RETURN_ERROR_ICOLLECTIONSAME ∧
      (pairwise_index 4 (((4 : Nat) : Int) - 1) (-1) 7).1 =
        PAIRWISE_RETURN_ERROR_ICOLLECTIONSAME) ∧
    (∀ old2, (pairwise_index 4 (-1) 3 old2).1 = (pairwise_index 4 (-1) 3 7).1) ∧
    ((4 : Nat) ≤ 2 ^ 63 → resolve_index 4 (-1) = spec_resolved 4 (-1) ∧
      resolve_index 4 3 = spec_resolved 4 3) :=
  pairwise_index_failure_order 4 (-1) 3 7 (by decide) (by decide)

/-- C34: `pairwise_index` is atomic on failure. For every input, if the returned
status is not success the content of `i_result` after the call is its content
before; if the status is success the content after the call is the computed
offset, the same whatever the content before; and the status itself does not
depend on the content before. -/
theorem pairwise_index_atomic (n : Nat) (a b : Int) (old : Nat) :
    ((pairwise_index n a b old).1 ≠ PAIRWISE_RETURN_SUCCESS ∧
        (pairwise_index n a b old).2 = old ∨
      (pairwise_index n a b old).1 = PAIRWISE_RETURN_SUCCESS ∧
        ∀ old2, pairwise_index n a b old2 = pairwise_index n a b old) ∧
    (∀ old2, (pairwise_index n a b old2).1 = (pairwise_index n a b old).1) := by
  refine ⟨?_, fun old2 => pairwise_index_status_old n a b old old2⟩
  by_cases h : (pairwise_index n a b old).1 = PAIRWISE_RETURN_SUCCESS
  · exact Or.inr ⟨h, (pairwise_index_result_old n a b old).2 h⟩
  · exact Or.inl ⟨h, (pairwise_index_result_old n a b old).1 h⟩


/-! ## The kernels: special case, symmetry, sign -/

theorem square_sub_comm {R : Type} [LinearOrderedField R] (x y : R) :
    _PAIRWISE_SQUARE (x - y) = _PAIRWISE_SQUARE (y - x) := by
  unfold _PAIRWISE_SQUARE
  ring

/-- The distance kernel is the RMSD kernel on one point per collection. -/
theorem single_distance_eq_rmsd_one {R : Type} [LinearOrderedField R] (sqrt : R → R)
    (p n_coordinates : Nat) (a b : Nat → R) :
    _pairwise_single_distance sqrt p n_coordinates a b =
      _pairwise_single_rmsd sqrt 1 n_coordinates a b := by
  unfold _pairwise_single_distance _pairwise_single_rmsd
  have h0 : wmul 0 n_coordinates = 0 := by simp [wmul]
  have h1 : List.range 1 = [0] := rfl
  simp only [h1, List.foldl_cons, List.foldl_nil, h0, Nat.zero_add, zero_add,
    Nat.cast_one, div_one]

theorem single_rmsd_symm {R : Type} [LinearOrderedField R] (sqrt : R → R)
    (n_points n_coordinates : Nat) (A B : Nat → R) :
    _pairwise_single_rmsd sqrt n_points n_coordinates A B =
      _pairwise_single_rmsd sqrt n_points n_coordinates B A := by
  unfold _pairwise_single_rmsd
  simp only [square_sub_comm (A _) (B _)]

theorem single_distance_symm {R : Type} [LinearOrderedField R] (sqrt : R → R)
    (n_points n_coordinates : Nat) (a b : Nat → R) :
    _pairwise_single_distance sqrt n_points n_coordinates a b =
      _pairwise_single_distance sqrt n_points n_coordinates b a := by
  unfold _pairwise_single_distance
  simp only [square_sub_comm (a _) (b _)]

/-- C37: for every `n_coordinates`, every two buffers `a`, `b` and every value
`p` of the argument `n_points`, `_pairwise_single_distance(p, n_coordinates, a, b)`
is `_pairwise_single_rmsd(1, n_coordinates, a, b)`; over the real numbers with
the exact root, and with the same proof over any ordered field and any root
function. -/
theorem distance_is_rmsd_of_one_point (p n_coordinates : Nat) (a b : Nat → ℝ) :
    _pairwise_single_distance Real.sqrt p n_coordinates a b =
      _pairwise_single_rmsd Real.sqrt 1 n_coordinates a b :=
  single_distance_eq_rmsd_one Real.sqrt p n_coordinates a b


/-- The RMSD of two collections that hold the same values is `0`. -/
theorem single_rmsd_same (n_points n_coordinates : Nat) (A B : Nat → ℝ)
    (hfit : n_points * n_coordinates < WORD)
    (hAB : ∀ t, t < n_points * n_coordinates → A t = B t) :
    _pairwise_single_rmsd Real.sqrt n_points n_coordinates A B = 0 := by
  rw [single_rmsd_eq Real.sqrt n_points n_coordinates A B hfit]
  unfold rmsd_spec
  have hsum : (∑ p in Finset.range n_points, ∑ k in Finset.range n_coordinates,
      (A (p * n_coordinates + k) - B (p * n_coordinates + k)) ^ 2) = 0 := by
    apply Finset.sum_eq_zero
    intro p hp
    apply Finset.sum_eq_zero
    intro k hk
    have hp2 := Finset.mem_range.1 hp
    have hk2 := Finset.mem_range.1 hk
    have hlt : p * n_coordinates + k < n_points * n_coordinates := by
      have h1 : (p + 1) * n_coordinates ≤ n_points * n_coordinates :=
        Nat.mul_le_mul_right _ hp2
      rw [Nat.add_mul] at h1
      omega
    rw [hAB _ hlt, sub_self]
    norm_num
  rw [hsum, mul_zero, Real.sqrt_zero]

/-- The distance of two points that hold the same values is `0`. -/
theorem single_distance_same (n_points n_coordinates : Nat) (a b : Nat → ℝ)
    (hab : ∀ k, k < n_coordinates → a k = b k) :
    _pairwise_single_distance Real.sqrt n_points n_coordinates a b = 0 := by
  rw [single_distance_eq Real.sqrt n_points n_coordinates a b]
  unfold distance_spec
  have hsum : (∑ k in Finset.range n_coordinates, (a k - b k) ^ 2) = 0 := by
    apply Finset.sum_eq_zero
    intro k hk
    rw [hab k (Finset.mem_range.1 hk), sub_self]
    norm_num
  rw [hsum, Real.sqrt_zero]

/-- C38: for every `n_points >= 1`, every `n_coordinates` and all collections
`A`, `B` (arrays of `n_points * n_coordinates` reals of the address space), both
kernels are symmetric, `f(A, B) = f(B, A)`, non-negative, and `0` when `A` and `B`
hold the same values (in particular `f(A, A) = 0`); exact real arithmetic. -/
theorem kernels_symmetric_nonneg_zero (n_points n_coordinates : Nat) (A B : Nat → ℝ)
    (_hp : 1 ≤ n_points) (hfit : n_points * n_coordinates < WORD) :
    (_pairwise_single_rmsd Real.sqrt n_points n_coordinates A B =
        _pairwise_single_rmsd Real.sqrt n_points n_coordinates B A ∧
      _pairwise_single_distance Real.sqrt n_points n_coordinates A B =
        _pairwise_single_distance Real.sqrt n_points n_coordinates B A) ∧
    (0 ≤ _pairwise_single_rmsd Real.sqrt n_points n_coordinates A B ∧
      0 ≤ _pairwise_single_distance Real.sqrt n_points n_coordinates A B) ∧
    ((∀ t, t < n_points * n_coordinates → A t = B t) →
      _pairwise_single_rmsd Real.sqrt n_points n_coordinates A B = 0) ∧
    ((∀ k, k < n_coordinates → A k = B k) →
      _pairwise_single_distance Real.sqrt n_points n_coordinates A B = 0) ∧
    _pairwise_single_rmsd Real.sqrt n_points n_coordinates A A = 0 ∧
    _pairwise_single_distance Real.sqrt n_points n_coordinates A A = 0 := by
  refine ⟨⟨single_rmsd_symm _ _ _ _ _, single_distance_symm _ _ _ _ _⟩, ⟨?_, ?_⟩,
    single_rmsd_same _ _ _ _ hfit, single_distance_same _ _ _ _,
    single_rmsd_same _ _ _ _ hfit (fun _ _ => rfl), single_distance_same _ _ _ _ (fun _ _ => rfl)⟩
  · unfold _pairwise_single_rmsd
    exact Real.sqrt_nonneg _
  · unfold _pairwise_single_distance
    exact Real.sqrt_nonneg _

theorem kernels_symmetric_nonneg_zero_witness :
    (_pairwise_single_rmsd Real.sqrt 2 2 (flat_buffer [0, 0, 0, 0]) (flat_buffer [1, 1, 1, 1]) =
        _pairwise_single_rmsd Real.sqrt 2 2 (flat_buffer [1, 1, 1, 1]) (flat_buffer [0, 0, 0, 0]) ∧
      _pairwise_single_distance Real.sqrt 2 2 (flat_buffer [0, 0, 0, 0])
          (flat_buffer [1, 1, 1, 1]) =
        _pairwise_single_distance Real.sqrt 2 2 (flat_buffer [1, 1, 1, 1])
          (flat_buffer [0, 0, 0, 0])) ∧
    (0 ≤ _pairwise_single_rmsd Real.sqrt 2 2 (flat_buffer [0, 0, 0, 0])
        (flat_buffer [1, 1, 1, 1]) ∧
      0 ≤ _pairwise_single_distance Real.sqrt 2 2 (flat_buffer [0, 0, 0, 0])
        (flat_buffer [1, 1, 1, 1])) ∧
    ((∀ t, t < 2 * 2 → flat_buffer [(0 : ℝ), 0, 0, 0] t = flat_buffer [1, 1, 1, 1] t) →
      _pairwise_single_rmsd Real.sqrt 2 2 (flat_buffer [0, 0, 0, 0])
        (flat_buffer [1, 1, 1, 1]) = 0) ∧
    ((∀ k, k < 2 → flat_buffer [(0 : ℝ), 0, 0, 0] k = flat_buffer [1, 1, 1, 1] k) →
      _pairwise_single_distance Real.sqrt 2 2 (flat_buffer [0, 0, 0, 0])
        (flat_buffer [1, 1, 1, 1]) = 0) ∧
    _pairwise_single_rmsd Real.sqrt 2 2 (flat_buffer [0, 0, 0, 0]) (flat_buffer [0, 0, 0, 0]) =
      0 ∧
    _pairwise_single_distance Real.sqrt 2 2 (flat_buffer [0, 0, 0, 0])
      (flat_buffer [0, 0, 0, 0]) = 0 :=
  kernels_symmetric_nonneg_zero 2 2 (flat_buffer [0, 0, 0, 0]) (flat_buffer [1, 1, 1, 1])
    (by decide) (by decide)


/-! ## The partitioner: safety of every iteration and the last share -/

theorem calculations_per_argument_set_eq {R : Type} [LinearOrderedField R] {n T : Nat}
    (hn : 1 ≤ n) (hnW : n < WORD) :
    (calculations_per_argument_set n T : R) = (n : R) * ((n : R) - 1) / (2 * (T : R)) := by
  unfold calculations_per_argument_set
  rw [wsub_of_le hn hnW, Nat.cast_sub hn, Nat.cast_one]
  ring

/-- C31: in exact real arithmetic, for every `n >= 2` and `T >= 1` (both
`size_t`) and every iteration `k < T` of `_pairwise_populate_argument_sets`, with
`c = n (n - 1) / (2 T)` the ideal share and `r = n_collections_remaining` at the
start of the iteration: `r >= 1`, the radicand `-8 c + 4 r r - 4 r + 1` is at
least `1`, `n_collections_used` is non-negative, `i_collection_upper` after the
iteration is not below its value before, and at the start of the iteration
`i_collection_lower <= i_collection_upper`, so that the `size_t` difference
`i_collection_upper - i_collection_lower` does not wrap. -/
theorem populate_iteration_safe (f : Nat → Nat → (Nat → ℝ) → (Nat → ℝ) → ℝ)
    (n n_points n_coordinates : Nat) (a_collections : Nat → ℝ) (a_results T k : Nat)
    (hn : 2 ≤ n) (hnW : n < WORD) (hT : 1 ≤ T) (hTW : T < WORD) (hk : k < T) :
    (calculations_per_argument_set n T : ℝ) = (n : ℝ) * ((n : ℝ) - 1) / (2 * (T : ℝ)) ∧
    1 ≤ (populate_loop Real.sqrt f n n_points n_coordinates a_collections a_results T
      k).n_collections_remaining ∧
    1 ≤ (-8 * (calculations_per_argument_set n T : ℝ)) +
      (4 * ((populate_loop Real.sqrt f n n_points n_coordinates a_collections a_results T
          k).n_collections_remaining *
        (populate_loop Real.sqrt f n n_points n_coordinates a_collections a_results T
          k).n_collections_remaining)) -
      (4 * (populate_loop Real.sqrt f n n_points n_coordinates a_collections a_results T
        k).n_collections_remaining) + 1 ∧
    0 ≤ collections_used Real.sqrt (calculations_per_argument_set n T)
      (populate_loop Real.sqrt f n n_points n_coordinates a_collections a_results T
        k).n_collections_remaining ∧
    (populate_loop Real.sqrt f n n_points n_coordinates a_collections a_results T
        k).i_collection_upper ≤
      (populate_loop Real.sqrt f n n_points n_coordinates a_collections a_results T
        (k + 1)).i_collection_upper ∧
    (populate_loop Real.sqrt f n n_points n_coordinates a_collections a_results T
        k).i_collection_lower ≤
      (populate_loop Real.sqrt f n n_points n_coordinates a_collections a_results T
        k).i_collection_upper ∧
    wsub (populate_loop Real.sqrt f n n_points n_coordinates a_collections a_results T
        k).i_collection_upper
      (populate_loop Real.sqrt f n n_points n_coordinates a_collections a_results T
        k).i_collection_lower =
      (populate_loop Real.sqrt f n n_points n_coordinates a_collections a_results T
        k).i_collection_upper -
      (populate_loop Real.sqrt f n n_points n_coordinates a_collections a_results T
        k).i_collection_lower := by
  have hinv := populate_inv_loop Real.sqrt exact_sqrt_real f n_points n_coordinates
    a_collections a_results (by omega : 1 ≤ n) hnW hT hTW k hk
  have hfields := populate_loop_fields Real.sqrt exact_sqrt_real f n_points n_coordinates
    a_collections a_results (by omega : 1 ≤ n) hnW hT hTW k hk
  have hlow := populate_loop_lower Real.sqrt f n n_points n_coordinates a_collections a_results
    T k
  obtain ⟨h1, hsq, hup, hlu, _⟩ := hinv
  have hc := calculations_per_argument_set_nonneg (R := ℝ) n T
  have hm : (1 : ℝ) ≤ (T : ℝ) - (k : ℝ) := by
    have : ((k + 1 : Nat) : ℝ) ≤ (T : ℝ) := by exact_mod_cast hk
    push_cast at this
    linarith
  obtain ⟨u0, _, _⟩ := collections_used_spec Real.sqrt exact_sqrt_real
    (calculations_per_argument_set n T) _ ((T : ℝ) - (k : ℝ)) hc hm h1 hsq
  have hupn : (populate_loop Real.sqrt f n n_points n_coordinates a_collections a_results T
      k).i_collection_upper ≤ n := by
    have : (((populate_loop Real.sqrt f n n_points n_coordinates a_collections a_results T
        k).i_collection_upper : Nat) : ℝ) ≤ (n : ℝ) := by linarith
    exact_mod_cast this
  refine ⟨calculations_per_argument_set_eq (by omega) hnW, h1, ?_, u0, ?_, hlu,
    wsub_of_le hlu (by omega)⟩
  · have hprod : 0 ≤ ((T : ℝ) - (k : ℝ) - 1) * (calculations_per_argument_set n T : ℝ) :=
      mul_nonneg (by linarith) hc
    nlinarith
  · by_cases hk0 : k = 0
    · subst hk0
      exact Nat.zero_le _
    · rw [if_neg hk0] at hlow
      rw [← hlow]
      exact hfields.1

theorem populate_iteration_safe_witness :
    (calculations_per_argument_set 4 2 : ℝ) =
      ((4 : Nat) : ℝ) * (((4 : Nat) : ℝ) - 1) / (2 * ((2 : Nat) : ℝ)) ∧
    1 ≤ (populate_loop Real.sqrt (fun _ _ a b => a 0 + b 0) 4 1 1 (fun _ => 1) 100 2
      1).n_collections_remaining ∧
    1 ≤ (-8 * (calculations_per_argument_set 4 2 : ℝ)) +
      (4 * ((populate_loop Real.sqrt (fun _ _ a b => a 0 + b 0) 4 1 1 (fun _ => 1) 100 2
          1).n_collections_remaining *
        (populate_loop Real.sqrt (fun _ _ a b => a 0 + b 0) 4 1 1 (fun _ => 1) 100 2
          1).n_collections_remaining)) -
      (4 * (populate_loop Real.sqrt (fun _ _ a b => a 0 + b 0) 4 1 1 (fun _ => 1) 100 2
        1).n_collections_remaining) + 1 ∧
    0 ≤ collections_used Real.sqrt (calculations_per_argument_set 4 2)
      (populate_loop Real.sqrt (fun _ _ a b => a 0 + b 0) 4 1 1 (fun _ => 1) 100 2
        1).n_collections_remaining ∧
    (populate_loop Real.sqrt (fun _ _ a b => a 0 + b 0) 4 1 1 (fun _ => 1) 100 2
        1).i_collection_upper ≤
      (populate_loop Real.sqrt (fun _ _ a b => a 0 + b 0) 4 1 1 (fun _ => 1) 100 2
        (1 + 1)).i_collection_upper ∧
    (populate_loop Real.sqrt (fun _ _ a b => a 0 + b 0) 4 1 1 (fun _ => 1) 100 2
        1).i_collection_lower ≤
      (populate_loop Real.sqrt (fun _ _ a b => a 0 + b 0) 4 1 1 (fun _ => 1) 100 2
        1).i_collection_upper ∧
    wsub (populate_loop Real.sqrt (fun _ _ a b => a 0 + b 0) 4 1 1 (fun _ => 1) 100 2
        1).i_collection_upper
      (populate_loop Real.sqrt (fun _ _ a b => a 0 + b 0) 4 1 1 (fun _ => 1) 100 2
        1).i_collection_lower =
      (populate_loop Real.sqrt (fun _ _ a b => a 0 + b 0) 4 1 1 (fun _ => 1) 100 2
        1).i_collection_upper -
      (populate_loop Real.sqrt (fun _ _ a b => a 0 + b 0) 4 1 1 (fun _ => 1) 100 2
        1).i_collection_lower :=
  populate_iteration_safe (fun _ _ a b => a 0 + b 0) 4 1 1 (fun _ => 1) 100 2 1 (by decide)
    (by decide) (by decide) (by decide) (by decide)


/-! ## The share of the last argument set -/

/-- The number of stores of the rows `[lo, lo + cnt)`, whatever the cursor and
the stores made before. -/
theorem foldl_rows_length {D : Type} (s : pairwise_as D) (lo : Nat) :
    ∀ (cnt : Nat) (st : Nat × List (Nat × D)), lo + cnt ≤ s.n_collections →
      ((List.range' lo cnt).foldl (fun st i => launch_bounded_row s i st) st).2.length =
        st.2.length + (tri s.n_collections (lo + cnt) - tri s.n_collections lo) := by
  intro cnt
  induction cnt with
  | zero => intro st _; simp
  | succ cnt ih =>
    intro st h
    rw [List.range'_1_concat, List.foldl_append, List.foldl_cons, List.foldl_nil]
    have hrow := launch_bounded_row_eq s (lo + cnt)
      ((List.range' lo cnt).foldl (fun st i => launch_bounded_row s i st) st).1
      ((List.range' lo cnt).foldl (fun st i => launch_bounded_row s i st) st).2
    rw [Prod.mk.eta] at hrow
    rw [hrow]
    simp only [List.length_append, List.length_map, List.length_range']
    rw [ih st (by omega)]
    have h1 := tri_succ (by omega : lo + cnt < s.n_collections)
    have h2 := tri_mono (n := s.n_collections) (Nat.le_add_right lo cnt) (by omega)
    rw [show lo + (cnt + 1) = lo + cnt + 1 from rfl, h1]
    omega

/-- The number of results that the worker of an argument set computes. -/
theorem launch_bounded_stores_length {D : Type} (s : pairwise_as D)
    (hlu : s.i_collection_lower ≤ s.i_collection_upper)
    (hun : s.i_collection_upper ≤ s.n_collections) :
    (launch_bounded_stores s).2.length =
      tri s.n_collections s.i_collection_upper - tri s.n_collections s.i_collection_lower := by
  unfold launch_bounded_stores
  rw [foldl_rows_length s s.i_collection_lower _ _ (by omega)]
  rw [show s.i_collection_lower + (s.i_collection_upper - s.i_collection_lower) =
    s.i_collection_upper by omega]
  simp

/-- Twice the number of pairs whose first index is in the rows `[L, n)`. -/
theorem two_mul_tri_tail {n L : Nat} (h : L + 1 ≤ n) :
    2 * (tri n n - tri n L) = (n - L) * (n - L - 1) := by
  have h1 := two_mul_tri (le_refl n)
  have h2 := two_mul_tri (show L ≤ n by omega)
  have h3 := tri_mono (n := n) (show L ≤ n by omega) (le_refl n)
  obtain ⟨e, rfl⟩ : ∃ e, n = L + 1 + e := ⟨n - (L + 1), by omega⟩
  have e1 : 2 * (L + 1 + e) - (L + 1 + e) - 1 = L + e := by omega
  have e2 : 2 * (L + 1 + e) - L - 1 = L + 1 + 2 * e := by omega
  have e3 : L + 1 + e - L = 1 + e := by omega
  have e4 : 1 + e - 1 = e := by omega
  rw [e1] at h1
  rw [e2] at h2
  rw [e3, e4, Nat.mul_sub, h1, h2]
  have : (L + 1 + e) * (L + e) = L * (L + 1 + 2 * e) + (1 + e) * e := by ring
  omega


/-- The last argument set built by the partitioner, in exact arithmetic: its
rows end at `n`, and the number of results of its worker is at least the ideal
share. -/
theorem populate_last_share {R : Type} [LinearOrderedField R] [FloorSemiring R]
    (sqrt : R → R) (hs : exact_sqrt sqrt) (f : Nat → Nat → (Nat → R) → (Nat → R) → R)
    (n np nc : Nat) (cols : Nat → R) (base T : Nat)
    (hn : 2 ≤ n) (hnW : n < WORD) (hT : 1 ≤ T) (hTW : T < WORD) :
    ∃ d, (_pairwise_populate_argument_sets sqrt f n np nc cols base T)[T - 1]? = some d ∧
      d.n_collections = n ∧ d.i_collection_upper = n ∧ d.i_collection_lower < n ∧
      (launch_bounded_stores d).2.length = tri n n - tri n d.i_collection_lower ∧
      (calculations_per_argument_set n T : R) ≤
        (((launch_bounded_stores d).2.length : Nat) : R) := by
  obtain ⟨j, rfl⟩ : ∃ j, T = j + 1 := ⟨T - 1, by omega⟩
  have hinv := populate_inv_loop sqrt hs f np nc cols base (by omega : 1 ≤ n) hnW hT hTW j
    (Nat.lt_succ_self j)
  have hfields := populate_loop_fields sqrt hs f np nc cols base (by omega : 1 ≤ n) hnW hT hTW j
    (Nat.lt_succ_self j)
  have hlow := populate_loop_lower sqrt f n np nc cols base (j + 1) j
  obtain ⟨h1, hsq, hup, _, _⟩ := hinv
  have hupper := hfields.2.2.2 rfl
  have hL : (populate_loop sqrt f n np nc cols base (j + 1) (j + 1)).i_collection_lower =
      (populate_loop sqrt f n np nc cols base (j + 1) j).i_collection_upper := by
    rw [hlow]
    by_cases hj : j = 0
    · subst hj
      rfl
    · rw [if_neg hj]
  have hLn : ((populate_loop sqrt f n np nc cols base (j + 1) j).i_collection_upper : R) + 1 ≤
      (n : R) := by linarith
  have hLn2 : (populate_loop sqrt f n np nc cols base (j + 1) j).i_collection_upper + 1 ≤ n := by
    exact_mod_cast hLn
  refine ⟨argument_set_of f n np nc cols base
    (populate_loop sqrt f n np nc cols base (j + 1) (j + 1)).i_results_offset
    (populate_loop sqrt f n np nc cols base (j + 1) (j + 1)).i_collection_lower
    (populate_loop sqrt f n np nc cols base (j + 1) (j + 1)).i_collection_upper, ?_, rfl,
    hupper, ?_, ?_, ?_⟩
  · unfold _pairwise_populate_argument_sets
    rw [populate_loop_sets, List.getElem?_map, Nat.add_sub_cancel,
      List.getElem?_range (Nat.lt_succ_self j)]
    rfl
  · show (populate_loop sqrt f n np nc cols base (j + 1) (j + 1)).i_collection_lower < n
    rw [hL]
    omega
  · rw [launch_bounded_stores_length _ hfields.1 hfields.2.1]
    show tri n (populate_loop sqrt f n np nc cols base (j + 1) (j + 1)).i_collection_upper -
      tri n (populate_loop sqrt f n np nc cols base (j + 1) (j + 1)).i_collection_lower = _
    rw [hupper]
    rfl
  · rw [launch_bounded_stores_length _ hfields.1 hfields.2.1]
    show _ ≤ (((tri n (populate_loop sqrt f n np nc cols base (j + 1) (j + 1)).i_collection_upper -
      tri n (populate_loop sqrt f n np nc cols base (j + 1) (j + 1)).i_collection_lower : Nat)
      : Nat) : R)
    rw [hupper, hL]
    generalize (populate_loop sqrt f n np nc cols base (j + 1) j).i_collection_upper = L at *
    generalize (populate_loop sqrt f n np nc cols base (j + 1) j).n_collections_remaining = r at *
    generalize (calculations_per_argument_set n (j + 1) : R) = c at *
    have hcast : (((j + 1 : Nat) : R) - (j : R)) = 1 := by
      push_cast
      ring
    rw [hcast] at hsq
    have h2P := two_mul_tri_tail hLn2
    have h2PR : 2 * (((tri n n - tri n L : Nat) : Nat) : R) =
        ((n : R) - (L : R)) * ((n : R) - (L : R) - 1) := by
      have := congrArg (fun x : Nat => (x : R)) h2P
      simp only [Nat.cast_mul, Nat.cast_ofNat] at this
      rw [this, Nat.cast_sub (by omega : 1 ≤ n - L), Nat.cast_sub (by omega : L ≤ n),
        Nat.cast_one]
    have hr : r ≤ (n : R) - (L : R) := by linarith
    nlinarith


/-- C32: for every `n >= 2` and `T >= 1` (both `size_t`; exact real arithmetic,
truncation toward zero), the last argument set built by
`_pairwise_populate_argument_sets` ends at row `n`, and the number of pairs
assigned to it (the pairs `(i, j)`, `i < j < n`, with `i` in its row range, which
is the number of results its worker computes) is at least the ideal share
`n (n - 1) / (2 T)`; in particular it is at least `1`. -/
theorem last_partition_share (f : Nat → Nat → (Nat → ℝ) → (Nat → ℝ) → ℝ)
    (n n_points n_coordinates : Nat) (a_collections : Nat → ℝ) (a_results T : Nat)
    (hn : 2 ≤ n) (hnW : n < WORD) (hT : 1 ≤ T) (hTW : T < WORD) :
    ∃ d, (_pairwise_populate_argument_sets Real.sqrt f n n_points n_coordinates a_collections
        a_results T).getLast? = some d ∧
      d.i_collection_upper = n ∧ d.i_collection_lower < n ∧
      (launch_bounded_stores d).2.length =
        pair_count n d.i_collection_lower d.i_collection_upper ∧
      (n : ℝ) * ((n : ℝ) - 1) / (2 * (T : ℝ)) ≤
        ((pair_count n d.i_collection_lower d.i_collection_upper : Nat) : ℝ) ∧
      1 ≤ pair_count n d.i_collection_lower d.i_collection_upper := by
  obtain ⟨d, hd, hdn, hup, hlo, hlen, hshare⟩ := populate_last_share Real.sqrt exact_sqrt_real f n
    n_points n_coordinates a_collections a_results T hn hnW hT hTW
  have hlenT : (_pairwise_populate_argument_sets Real.sqrt f n n_points n_coordinates
      a_collections a_results T).length = T := by
    unfold _pairwise_populate_argument_sets
    rw [populate_loop_sets, List.length_map, List.length_range]
  have hpc : pair_count n d.i_collection_lower d.i_collection_upper =
      tri n n - tri n d.i_collection_lower := by
    rw [pair_count_eq (by omega) (by omega), hup]
  have hc := calculations_per_argument_set_eq (R := ℝ) (T := T) (by omega : 1 ≤ n) hnW
  have hcpos : (0 : ℝ) < (n : ℝ) * ((n : ℝ) - 1) / (2 * (T : ℝ)) := by
    have h1 : (2 : ℝ) ≤ (n : ℝ) := by exact_mod_cast hn
    have h2 : (1 : ℝ) ≤ (T : ℝ) := by exact_mod_cast hT
    apply div_pos
    · nlinarith
    · linarith
  refine ⟨d, ?_, hup, hlo, ?_, ?_, ?_⟩
  · rw [List.getLast?_eq_getElem?, hlenT]
    exact hd
  · rw [hlen, hpc]
  · rw [hpc, ← hlen, ← hc]
    exact hshare
  · have hpos : (0 : ℝ) < ((pair_count n d.i_collection_lower d.i_collection_upper : Nat) : ℝ) := by
      rw [hpc, ← hlen]
      rw [hc] at hshare
      linarith
    have : 0 < pair_count n d.i_collection_lower d.i_collection_upper := by
      exact_mod_cast hpos
    omega

theorem last_partition_share_witness :
    ∃ d, (_pairwise_populate_argument_sets Real.sqrt (fun _ _ a b => a 0 + b 0) 4 1 1
        (fun _ => 1) 100 3).getLast? = some d ∧
      d.i_collection_upper = 4 ∧ d.i_collection_lower < 4 ∧
      (launch_bounded_stores d).2.length =
        pair_count 4 d.i_collection_lower d.i_collection_upper ∧
      ((4 : Nat) : ℝ) * (((4 : Nat) : ℝ) - 1) / (2 * ((3 : Nat) : ℝ)) ≤
        ((pair_count 4 d.i_collection_lower d.i_collection_upper : Nat) : ℝ) ∧
      1 ≤ pair_count 4 d.i_collection_lower d.i_collection_upper :=
  last_partition_share (fun _ _ a b => a 0 + b 0) 4 1 1 (fun _ => 1) 100 3 (by decide)
    (by decide) (by decide) (by decide)


/-! ## The launcher reads the kernel at its own extents only -/

theorem launch_bounded_stores_kernel {D : Type} (s : pairwise_as D)
    (g : Nat → Nat → (Nat → D) → (Nat → D) → D)
    (h : ∀ a b, g s.n_points s.n_coordinates a b =
      s.f_calculation s.n_points s.n_coordinates a b) :
    launch_bounded_stores { s with f_calculation := g } = launch_bounded_stores s := by
  unfold launch_bounded_stores launch_bounded_row
  simp only [h]

theorem launch_bounded_kernel {D : Type} (s : pairwise_as D)
    (g : Nat → Nat → (Nat → D) → (Nat → D) → D)
    (h : ∀ a b, g s.n_points s.n_coordinates a b =
      s.f_calculation s.n_points s.n_coordinates a b) (results : Nat → D) :
    _pairwise_launch_bounded { s with f_calculation := g } results =
      _pairwise_launch_bounded s results := by
  unfold _pairwise_launch_bounded
  rw [launch_bounded_stores_kernel s g h]

section LauncherKernel

variable {R : Type} [LinearOrderedField R] [FloorSemiring R]

/-- The rows and offsets computed by the partitioner do not depend on the
kernel. -/
theorem populate_loop_kernel (sqrt : R → R) (f g : Nat → Nat → (Nat → R) → (Nat → R) → R)
    (n np nc : Nat) (cols : Nat → R) (base T : Nat) :
    ∀ k, (populate_loop sqrt g n np nc cols base T k).i_collection_lower =
        (populate_loop sqrt f n np nc cols base T k).i_collection_lower ∧
      (populate_loop sqrt g n np nc cols base T k).i_collection_upper =
        (populate_loop sqrt f n np nc cols base T k).i_collection_upper ∧
      (populate_loop sqrt g n np nc cols base T k).i_results_offset =
        (populate_loop sqrt f n np nc cols base T k).i_results_offset ∧
      (populate_loop sqrt g n np nc cols base T k).n_collections_remaining =
        (populate_loop sqrt f n np nc cols base T k).n_collections_remaining := by
  intro k
  induction k with
  | zero => exact ⟨rfl, rfl, rfl, rfl⟩
  | succ k ih =>
    obtain ⟨h1, h2, h3, h4⟩ := ih
    rw [populate_loop_succ, populate_loop_succ]
    simp only [populate_step, h1, h2, h3, h4]
    exact ⟨trivial, trivial, trivial, trivial⟩

/-- Running the argument sets of the partitioner gives the same buffer for two
kernels that agree at the extents passed to the launcher. -/
theorem populated_kernel (sqrt : R → R) (f g : Nat → Nat → (Nat → R) → (Nat → R) → R)
    (n np nc : Nat) (cols : Nat → R) (base T : Nat) (results : Nat → R)
    (h : ∀ a b, g np nc a b = f np nc a b) :
    (_pairwise_populate_argument_sets sqrt g n np nc cols base T).foldl
        (fun r d => _pairwise_launch_bounded d r) results =
      (_pairwise_populate_argument_sets sqrt f n np nc cols base T).foldl
        (fun r d => _pairwise_launch_bounded d r) results := by
  unfold _pairwise_populate_argument_sets
  rw [populate_loop_sets, populate_loop_sets, List.foldl_map, List.foldl_map]
  congr 1
  funext r j
  obtain ⟨h1, h2, h3, _⟩ := populate_loop_kernel sqrt f g n np nc cols base T (j + 1)
  rw [h1, h2, h3]
  exact launch_bounded_kernel (argument_set_of f n np nc cols base _ _ _) g h r

/-- The outcome of `_pairwise_launch` is the same for two kernels that agree at
the extents passed to the launcher. -/
theorem launch_kernel (env : launch_env) (sqrt : R → R)
    (f g : Nat → Nat → (Nat → R) → (Nat → R) → R) (n np nc : Nat) (cols results : Nat → R)
    (T : Nat) (h : ∀ a b, g np nc a b = f np nc a b) :
    _pairwise_launch env sqrt g n np nc cols results T =
      _pairwise_launch env sqrt f n np nc cols results T := by
  have hs : _pairwise_launch_bounded (single_argument_set g n np nc cols 0) results =
      _pairwise_launch_bounded (single_argument_set f n np nc cols 0) results :=
    launch_bounded_kernel (single_argument_set f n np nc cols 0) g h results
  unfold _pairwise_launch
  rw [hs, populated_kernel sqrt f g n np nc cols 0 T results h]

/-- With no point per collection the launcher returns before any call of the
kernel: the outcome is the same for every kernel. -/
theorem launch_kernel_zero_points (env : launch_env) (sqrt : R → R)
    (f g : Nat → Nat → (Nat → R) → (Nat → R) → R) (n nc : Nat) (cols results : Nat → R)
    (T : Nat) :
    _pairwise_launch env sqrt g n 0 nc cols results T =
      _pairwise_launch env sqrt f n 0 nc cols results T := by
  rw [launch_zero_work env sqrt g n 0 nc cols results T (Or.inr (Or.inl rfl)),
    launch_zero_work env sqrt f n 0 nc cols results T (Or.inr (Or.inl rfl))]

/-- C36: in every execution of `pairwise_rmsds` (any extents, any number of
threads, any answers of the allocations, starts and joins) the kernel is only
called with `n_points >= 1`: replacing `_pairwise_single_rmsd` by any function
`g` that agrees with it whenever `n_points >= 1`, whatever `g` does at
`n_points = 0`, leaves the status, the events and the result buffer of the call
unchanged; and with `n_points = 0` the call returns success at once, without
worker and without change to the buffer. -/
theorem rmsd_kernel_division_guarded (env : launch_env) (sqrt : R → R)
    (g : Nat → Nat → (Nat → R) → (Nat → R) → R)
    (n_collections n_points n_coordinates : Nat) (a_collections results : Nat → R)
    (n_threads : Nat)
    (hg : ∀ p c a b, 1 ≤ p → g p c a b = _pairwise_single_rmsd sqrt p c a b) :
    _pairwise_launch env sqrt g n_collections n_points n_coordinates a_collections results
        n_threads =
      pairwise_rmsds env sqrt n_collections n_points n_coordinates a_collections results
        n_threads ∧
    (n_points = 0 →
      pairwise_rmsds env sqrt n_collections n_points n_coordinates a_collections results
          n_threads =
        { n_return := PAIRWISE_RETURN_SUCCESS, events := [], a_results := some results }) := by
  constructor
  · unfold pairwise_rmsds
    rcases Nat.eq_zero_or_pos n_points with h0 | h0
    · subst h0
      exact launch_kernel_zero_points env sqrt _ g n_collections n_coordinates a_collections
        results n_threads
    · exact launch_kernel env sqrt _ g n_collections n_points n_coordinates a_collections results
        n_threads (fun a b => hg n_points n_coordinates a b h0)
  · intro h0
    unfold pairwise_rmsds
    exact launch_zero_work env sqrt _ n_collections n_points n_coordinates a_collections results
      n_threads (Or.inr (Or.inl h0))

end LauncherKernel

theorem rmsd_kernel_division_guarded_witness :
    _pairwise_launch ⟨true, true, fun _ => 0, fun _ => 0⟩ Real.sqrt
        (fun p c a b => if 1 ≤ p then _pairwise_single_rmsd Real.sqrt p c a b else 12345)
        4 0 3 (fun _ => 1) (fun _ => 7) 2 =
      pairwise_rmsds ⟨true, true, fun _ => 0, fun _ => 0⟩ Real.sqrt 4 0 3 (fun _ => 1)
        (fun _ => 7) 2 ∧
    ((0 : Nat) = 0 →
      pairwise_rmsds ⟨true, true, fun _ => 0, fun _ => 0⟩ Real.sqrt 4 0 3 (fun _ => 1)
          (fun _ => 7) 2 =
        { n_return := PAIRWISE_RETURN_SUCCESS, events := [], a_results := some (fun _ => 7) }) :=
  rmsd_kernel_division_guarded ⟨true, true, fun _ => 0, fun _ => 0⟩ Real.sqrt
    (fun p c a b => if 1 ≤ p then _pairwise_single_rmsd Real.sqrt p c a b else 12345)
    4 0 3 (fun _ => 1) (fun _ => 7) 2 (fun _ _ _ _ hp => if_pos hp)


/-! ## The entry points and the number of threads -/

section EntryThreads

variable {R : Type} [LinearOrderedField R] [FloorSemiring R]

theorem pywise_rmsds_negative (env : rmsds_env R) (sqrt : R → R) (o : PyObject R) (t : Int)
    (ht : t < 0) :
    pywise_rmsds env sqrt (py_arguments.parsed o (some t)) =
      { returned := none, exception := some py_exception.ValueError, events := [] } := by
  unfold pywise_rmsds
  simp only
  rw [if_pos ht]

theorem pywise_rmsds_zero (env : rmsds_env R) (sqrt : R → R) (o : PyObject R) :
    pywise_rmsds env sqrt (py_arguments.parsed o (some 0)) =
      { returned := none, exception := some py_exception.NotImplementedError, events := [] } := by
  unfold pywise_rmsds
  simp only
  rw [if_neg (by decide), if_pos trivial]

theorem pywise_distances_negative (env : distances_env R) (sqrt : R → R) (o : PyObject R)
    (t : Int) (ht : t < 0) :
    pywise_distances env sqrt (py_arguments.parsed o (some t)) =
      { returned := none, exception := some py_exception.ValueError, events := [] } := by
  unfold pywise_distances
  simp only
  rw [if_pos ht]

theorem pywise_distances_zero (env : distances_env R) (sqrt : R → R) (o : PyObject R) :
    pywise_distances env sqrt (py_arguments.parsed o (some 0)) =
      { returned := none, exception := some py_exception.NotImplementedError, events := [] } := by
  unfold pywise_distances
  simp only
  rw [if_neg (by decide), if_pos trivial]

/-- The calls into libpairwise made by `pywise_rmsds` carry the number of
threads that was parsed (or the default). -/
theorem pywise_rmsds_calculate (env : rmsds_env R) (sqrt : R → R) (o : PyObject R)
    (threads : Option Int) (a b c T : Nat)
    (h : entry_event.calculate a b c T ∈
      (pywise_rmsds env sqrt (py_arguments.parsed o threads)).events) :
    0 < threads.getD PYWISE_DEFAULT_THREADS ∧
      T = to_size (threads.getD PYWISE_DEFAULT_THREADS) := by
  cases threads with
  | none =>
    unfold pywise_rmsds at h
    simp only at h
    rw [if_neg (by decide), if_neg (by decide)] at h
    generalize pywise_build_collections_array env.build o env.n_collections env.n_points
      env.n_coordinates = built at h
    rcases built with ⟨ret, n1, n2, n3, exc⟩
    cases ret with
    | none => simp at h
    | some sv =>
      simp only at h
      by_cases h3 : env.malloc_results_ok = false
      · rw [if_pos h3] at h
        simp at h
      rw [if_neg h3] at h
      split_ifs at h
      · simp at h
        exact ⟨by decide, h.2.2.2⟩
      · simp at h
        exact ⟨by decide, h.2.2.2⟩
  | some t =>
    unfold pywise_rmsds at h
    simp only at h
    by_cases h1 : t < 0
    · rw [if_pos h1] at h
      simp at h
    rw [if_neg h1] at h
    by_cases h2 : t = 0
    · rw [if_pos h2] at h
      simp at h
    rw [if_neg h2] at h
    generalize pywise_build_collections_array env.build o env.n_collections env.n_points
      env.n_coordinates = built at h
    rcases built with ⟨ret, n1, n2, n3, exc⟩
    cases ret with
    | none => simp at h
    | some sv =>
      simp only at h
      by_cases h3 : env.malloc_results_ok = false
      · rw [if_pos h3] at h
        simp at h
      rw [if_neg h3] at h
      split_ifs at h
      · simp at h
        exact ⟨show 0 < t by omega, h.2.2.2⟩
      · simp at h
        exact ⟨show 0 < t by omega, h.2.2.2⟩

theorem pywise_distances_calculate (env : distances_env R) (sqrt : R → R) (o : PyObject R)
    (threads : Option Int) (a b c T : Nat)
    (h : entry_event.calculate a b c T ∈
      (pywise_distances env sqrt (py_arguments.parsed o threads)).events) :
    0 < threads.getD PYWISE_DEFAULT_THREADS ∧
      T = to_size (threads.getD PYWISE_DEFAULT_THREADS) := by
  cases threads with
  | none =>
    unfold pywise_distances at h
    simp only at h
    rw [if_neg (by decide), if_neg (by decide)] at h
    generalize pywise_build_points_array env.build o env.n_points env.n_coordinates = built at h
    rcases built with ⟨ret, n1, n2, exc⟩
    cases ret with
    | none => simp at h
    | some sv =>
      simp only at h
      by_cases h3 : env.malloc_results_ok = false
      · rw [if_pos h3] at h
        simp at h
      rw [if_neg h3] at h
      split_ifs at h
      · simp at h
        exact ⟨by decide, h.2.2.2⟩
      · simp at h
        exact ⟨by decide, h.2.2.2⟩
  | some t =>
    unfold pywise_distances at h
    simp only at h
    by_cases h1 : t < 0
    · rw [if_pos h1] at h
      simp at h
    rw [if_neg h1] at h
    by_cases h2 : t = 0
    · rw [if_pos h2] at h
      simp at h
    rw [if_neg h2] at h
    generalize pywise_build_points_array env.build o env.n_points env.n_coordinates = built at h
    rcases built with ⟨ret, n1, n2, exc⟩
    cases ret with
    | none => simp at h
    | some sv =>
      simp only at h
      by_cases h3 : env.malloc_results_ok = false
      · rw [if_pos h3] at h
        simp at h
      rw [if_neg h3] at h
      split_ifs at h
      · simp at h
        exact ⟨show 0 < t by omega, h.2.2.2⟩
      · simp at h
        exact ⟨show 0 < t by omega, h.2.2.2⟩

theorem pywise_rmsds_default (env : rmsds_env R) (sqrt : R → R) (o : PyObject R) :
    pywise_rmsds env sqrt (py_arguments.parsed o none) =
      pywise_rmsds env sqrt (py_arguments.parsed o (some 1)) := rfl

theorem pywise_distances_default (env : distances_env R) (sqrt : R → R) (o : PyObject R) :
    pywise_distances env sqrt (py_arguments.parsed o none) =
      pywise_distances env sqrt (py_arguments.parsed o (some 1)) := rfl

/-- When the marshalling returns an array and the result array is allocated,
`pywise_rmsds` with `threads` left out calls `pairwise_rmsds` with one thread. -/
theorem pywise_rmsds_reaches (env : rmsds_env R) (sqrt : R → R) (o : PyObject R)
    (s : Nat) (values : List R)
    (hb : (pywise_build_collections_array env.build o env.n_collections env.n_points
      env.n_coordinates).returned = some (s, values))
    (hm : env.malloc_results_ok = true) :
    entry_event.calculate
        (pywise_build_collections_array env.build o env.n_collections env.n_points
          env.n_coordinates).n_collections
        (pywise_build_collections_array env.build o env.n_collections env.n_points
          env.n_coordinates).n_points
        (pywise_build_collections_array env.build o env.n_collections env.n_points
          env.n_coordinates).n_coordinates 1 ∈
      (pywise_rmsds env sqrt (py_arguments.parsed o none)).events := by
  unfold pywise_rmsds
  simp only
  rw [if_neg (by decide), if_neg (by decide)]
  generalize pywise_build_collections_array env.build o env.n_collections env.n_points
    env.n_coordinates = built at hb ⊢
  rcases built with ⟨ret, n1, n2, n3, exc⟩
  simp only at hb
  subst hb
  simp only
  rw [if_neg (by simp [hm])]
  split_ifs
  · exact List.mem_cons_of_mem _ (List.mem_cons_of_mem _ (List.mem_cons_self _ _))
  · exact List.mem_cons_of_mem _ (List.mem_cons_of_mem _ (List.mem_cons_self _ _))

theorem pywise_distances_reaches (env : distances_env R) (sqrt : R → R) (o : PyObject R)
    (s : Nat) (values : List R)
    (hb : (pywise_build_points_array env.build o env.n_points env.n_coordinates).returned =
      some (s, values))
    (hm : env.malloc_results_ok = true) :
    entry_event.calculate
        (pywise_build_points_array env.build o env.n_points env.n_coordinates).n_points 1
        (pywise_build_points_array env.build o env.n_points env.n_coordinates).n_coordinates 1 ∈
      (pywise_distances env sqrt (py_arguments.parsed o none)).events := by
  unfold pywise_distances
  simp only
  rw [if_neg (by decide), if_neg (by decide)]
  generalize pywise_build_points_array env.build o env.n_points env.n_coordinates = built
    at hb ⊢
  rcases built with ⟨ret, n1, n2, exc⟩
  simp only at hb
  subst hb
  simp only
  rw [if_neg (by simp [hm])]
  split_ifs
  · exact List.mem_cons_of_mem _ (List.mem_cons_of_mem _ (List.mem_cons_self _ _))
  · exact List.mem_cons_of_mem _ (List.mem_cons_of_mem _ (List.mem_cons_self _ _))

/-- C35: the entry points never call libpairwise with a thread count that is not
positive. For arguments that parse, `pywise_rmsds` and `pywise_distances` with
`threads < 0` set `ValueError` and with `threads = 0` set `NotImplementedError`,
returning `NULL` with no event at all (no marshalling, no allocation, no call
into libpairwise); with `threads` left out they behave as with `threads = 1`:
every call into libpairwise they make is made with `n_threads = 1`, and one is
made as soon as the marshalling and the allocation of the result array succeed;
and whatever `threads` is, a call into libpairwise happens only for
`threads > 0`, with that number of threads. -/
theorem entry_points_thread_count (env_r : rmsds_env R) (env_d : distances_env R)
    (sqrt : R → R) (o_collections o_points : PyObject R) (t : Int) (ht : t < 0) :
    (pywise_rmsds env_r sqrt (py_arguments.parsed o_collections (some t)) =
        { returned := none, exception := some py_exception.ValueError, events := [] } ∧
      pywise_distances env_d sqrt (py_arguments.parsed o_points (some t)) =
        { returned := none, exception := some py_exception.ValueError, events := [] }) ∧
    (pywise_rmsds env_r sqrt (py_arguments.parsed o_collections (some 0)) =
        { returned := none, exception := some py_exception.NotImplementedError,
          events := [] } ∧
      pywise_distances env_d sqrt (py_arguments.parsed o_points (some 0)) =
        { returned := none, exception := some py_exception.NotImplementedError,
          events := [] }) ∧
    (pywise_rmsds env_r sqrt (py_arguments.parsed o_collections none) =
        pywise_rmsds env_r sqrt (py_arguments.parsed o_collections (some 1)) ∧
      pywise_distances env_d sqrt (py_arguments.parsed o_points none) =
        pywise_distances env_d sqrt (py_arguments.parsed o_points (some 1))) ∧
    (∀ a b c T, entry_event.calculate a b c T ∈
        (pywise_rmsds env_r sqrt (py_arguments.parsed o_collections none)).events ∨
      entry_event.calculate a b c T ∈
        (pywise_distances env_d sqrt (py_arguments.parsed o_points none)).events → T = 1) ∧
    (∀ s values, (pywise_build_collections_array env_r.build o_collections env_r.n_collections
        env_r.n_points env_r.n_coordinates).returned = some (s, values) →
      env_r.malloc_results_ok = true →
      entry_event.calculate
          (pywise_build_collections_array env_r.build o_collections env_r.n_collections
            env_r.n_points env_r.n_coordinates).n_collections
          (pywise_build_collections_array env_r.build o_collections env_r.n_collections
            env_r.n_points env_r.n_coordinates).n_points
          (pywise_build_collections_array env_r.build o_collections env_r.n_collections
            env_r.n_points env_r.n_coordinates).n_coordinates 1 ∈
        (pywise_rmsds env_r sqrt (py_arguments.parsed o_collections none)).events) ∧
    (∀ s values, (pywise_build_points_array env_d.build o_points env_d.n_points
        env_d.n_coordinates).returned = some (s, values) →
      env_d.malloc_results_ok = true →
      entry_event.calculate
          (pywise_build_points_array env_d.build o_points env_d.n_points
            env_d.n_coordinates).n_points 1
          (pywise_build_points_array env_d.build o_points env_d.n_points
            env_d.n_coordinates).n_coordinates 1 ∈
        (pywise_distances env_d sqrt (py_arguments.parsed o_points none)).events) ∧
    (∀ threads a b c T, entry_event.calculate a b c T ∈
        (pywise_rmsds env_r sqrt (py_arguments.parsed o_collections threads)).events ∨
      entry_event.calculate a b c T ∈
        (pywise_distances env_d sqrt (py_arguments.parsed o_points threads)).events →
      0 < threads.getD PYWISE_DEFAULT_THREADS ∧
        T = to_size (threads.getD PYWISE_DEFAULT_THREADS)) := by
  refine ⟨⟨pywise_rmsds_negative env_r sqrt o_collections t ht,
      pywise_distances_negative env_d sqrt o_points t ht⟩,
    ⟨pywise_rmsds_zero env_r sqrt o_collections, pywise_distances_zero env_d sqrt o_points⟩,
    ⟨rfl, rfl⟩, ?_, pywise_rmsds_reaches env_r sqrt o_collections,
    pywise_distances_reaches env_d sqrt o_points, ?_⟩
  · intro a b c T h
    rcases h with h | h
    · exact (pywise_rmsds_calculate env_r sqrt o_collections none a b c T h).2
    · exact (pywise_distances_calculate env_d sqrt o_points none a b c T h).2
  · intro threads a b c T h
    rcases h with h | h
    · exact pywise_rmsds_calculate env_r sqrt o_collections threads a b c T h
    · exact pywise_distances_calculate env_d sqrt o_points threads a b c T h

end EntryThreads

theorem entry_points_thread_count_witness :
    (pywise_rmsds
      (⟨⟨true, true⟩, true, ⟨true, true, fun _ => 0, fun _ => 0⟩, fun _ => 7, 0, 0, 0⟩ :
        rmsds_env ℝ)
      Real.sqrt (py_arguments.parsed
      (py_source [[[PyObject.int 0]], [[PyObject.int 1]]] : PyObject ℝ)
      (some (-1))) =
        { returned := none, exception := some py_exception.ValueError, events := [] } ∧
      pywise_distances
      (⟨⟨true, true⟩, true, ⟨true, true, fun _ => 0, fun _ => 0⟩, fun _ => 7, 0, 0⟩ :
        distances_env ℝ)
      Real.sqrt (py_arguments.parsed
      (PyObject.sequence [PyObject.sequence [PyObject.int 0],
        PyObject.sequence [PyObject.int 1]] : PyObject ℝ)
      (some (-1))) =
        { returned := none, exception := some py_exception.ValueError, events := [] }) ∧
    (pywise_rmsds
      (⟨⟨true, true⟩, true, ⟨true, true, fun _ => 0, fun _ => 0⟩, fun _ => 7, 0, 0, 0⟩ :
        rmsds_env ℝ)
      Real.sqrt (py_arguments.parsed
      (py_source [[[PyObject.int 0]], [[PyObject.int 1]]] : PyObject ℝ)
      (some 0)) =
        { returned := none, exception := some py_exception.NotImplementedError,
          events := [] } ∧
      pywise_distances
      (⟨⟨true, true⟩, true, ⟨true, true, fun _ => 0, fun _ => 0⟩, fun _ => 7, 0, 0⟩ :
        distances_env ℝ)
      Real.sqrt (py_arguments.parsed
      (PyObject.sequence [PyObject.sequence [PyObject.int 0],
        PyObject.sequence [PyObject.int 1]] : PyObject ℝ)
      (some 0)) =
        { returned := none, exception := some py_exception.NotImplementedError,
          events := [] }) ∧
    (pywise_rmsds
      (⟨⟨true, true⟩, true, ⟨true, true, fun _ => 0, fun _ => 0⟩, fun _ => 7, 0, 0, 0⟩ :
        rmsds_env ℝ)
      Real.sqrt (py_arguments.parsed
      (py_source [[[PyObject.int 0]], [[PyObject.int 1]]] : PyObject ℝ)
      none) =
        pywise_rmsds
      (⟨⟨true, true⟩, true, ⟨true, true, fun _ => 0, fun _ => 0⟩, fun _ => 7, 0, 0, 0⟩ :
        rmsds_env ℝ)
      Real.sqrt (py_arguments.parsed
      (py_source [[[PyObject.int 0]], [[PyObject.int 1]]] : PyObject ℝ)
      (some 1)) ∧
      pywise_distances
      (⟨⟨true, true⟩, true, ⟨true, true, fun _ => 0, fun _ => 0⟩, fun _ => 7, 0, 0⟩ :
        distances_env ℝ)
      Real.sqrt (py_arguments.parsed
      (PyObject.sequence [PyObject.sequence [PyObject.int 0],
        PyObject.sequence [PyObject.int 1]] : PyObject ℝ)
      none) =
        pywise_distances
      (⟨⟨true, true⟩, true, ⟨true, true, fun _ => 0, fun _ => 0⟩, fun _ => 7, 0, 0⟩ :
        distances_env ℝ)
      Real.sqrt (py_arguments.parsed
      (PyObject.sequence [PyObject.sequence [PyObject.int 0],
        PyObject.sequence [PyObject.int 1]] : PyObject ℝ)
      (some 1))) ∧
    (∀ a b c T, entry_event.calculate a b c T ∈
        (pywise_rmsds
      (⟨⟨true, true⟩, true, ⟨true, true, fun _ => 0, fun _ => 0⟩, fun _ => 7, 0, 0, 0⟩ :
        rmsds_env ℝ)
      Real.sqrt (py_arguments.parsed
      (py_source [[[PyObject.int 0]], [[PyObject.int 1]]] : PyObject ℝ)
      none)).events ∨
      entry_event.calculate a b c T ∈
        (pywise_distances
      (⟨⟨true, true⟩, true, ⟨true, true, fun _ => 0, fun _ => 0⟩, fun _ => 7, 0, 0⟩ :
        distances_env ℝ)
      Real.sqrt (py_arguments.parsed
      (PyObject.sequence [PyObject.sequence [PyObject.int 0],
        PyObject.sequence [PyObject.int 1]] : PyObject ℝ)
      none)).events → T = 1) ∧
    (∀ s values, (pywise_build_collections_array
      (⟨⟨true, true⟩, true, ⟨true, true, fun _ => 0, fun _ => 0⟩, fun _ => 7, 0, 0, 0⟩ :
        rmsds_env ℝ).build
      (py_source [[[PyObject.int 0]], [[PyObject.int 1]]] : PyObject ℝ)

      (⟨⟨true, true⟩, true, ⟨true, true, fun _ => 0, fun _ => 0⟩, fun _ => 7, 0, 0, 0⟩ :
        rmsds_env ℝ).n_collections

      (⟨⟨true, true⟩, true, ⟨true, true, fun _ => 0, fun _ => 0⟩, fun _ => 7, 0, 0, 0⟩ :
        rmsds_env ℝ).n_points
      (⟨⟨true, true⟩, true, ⟨true, true, fun _ => 0, fun _ => 0⟩, fun _ => 7, 0, 0, 0⟩ :
        rmsds_env ℝ).n_coordinates).returned = some (s, values) →

      (⟨⟨true, true⟩, true, ⟨true, true, fun _ => 0, fun _ => 0⟩, fun _ => 7, 0, 0, 0⟩ :
        rmsds_env ℝ).malloc_results_ok = true →
      entry_event.calculate
          (pywise_build_collections_array
      (⟨⟨true, true⟩, true, ⟨true, true, fun _ => 0, fun _ => 0⟩, fun _ => 7, 0, 0, 0⟩ :
        rmsds_env ℝ).build
      (py_source [[[PyObject.int 0]], [[PyObject.int 1]]] : PyObject ℝ)

      (⟨⟨true, true⟩, true, ⟨true, true, fun _ => 0, fun _ => 0⟩, fun _ => 7, 0, 0, 0⟩ :
        rmsds_env ℝ).n_collections

      (⟨⟨true, true⟩, true, ⟨true, true, fun _ => 0, fun _ => 0⟩, fun _ => 7, 0, 0, 0⟩ :
        rmsds_env ℝ).n_points
      (⟨⟨true, true⟩, true, ⟨true, true, fun _ => 0, fun _ => 0⟩, fun _ => 7, 0, 0, 0⟩ :
        rmsds_env ℝ).n_coordinates).n_collections
          (pywise_build_collections_array
      (⟨⟨true, true⟩, true, ⟨true, true, fun _ => 0, fun _ => 0⟩, fun _ => 7, 0, 0, 0⟩ :
        rmsds_env ℝ).build
      (py_source [[[PyObject.int 0]], [[PyObject.int 1]]] : PyObject ℝ)

      (⟨⟨true, true⟩, true, ⟨true, true, fun _ => 0, fun _ => 0⟩, fun _ => 7, 0, 0, 0⟩ :
        rmsds_env ℝ).n_collections

      (⟨⟨true, true⟩, true, ⟨true, true, fun _ => 0, fun _ => 0⟩, fun _ => 7, 0, 0, 0⟩ :
        rmsds_env ℝ).n_points
      (⟨⟨true, true⟩, true, ⟨true, true, fun _ => 0, fun _ => 0⟩, fun _ => 7, 0, 0, 0⟩ :
        rmsds_env ℝ).n_coordinates).n_points
          (pywise_build_collections_array
      (⟨⟨true, true⟩, true, ⟨true, true, fun _ => 0, fun _ => 0⟩, fun _ => 7, 0, 0, 0⟩ :
        rmsds_env ℝ).build
      (py_source [[[PyObject.int 0]], [[PyObject.int 1]]] : PyObject ℝ)

      (⟨⟨true, true⟩, true, ⟨true, true, fun _ => 0, fun _ => 0⟩, fun _ => 7, 0, 0, 0⟩ :
        rmsds_env ℝ).n_collections

      (⟨⟨true, true⟩, true, ⟨true, true, fun _ => 0, fun _ => 0⟩, fun _ => 7, 0, 0, 0⟩ :
        rmsds_env ℝ).n_points
      (⟨⟨true, true⟩, true, ⟨true, true, fun _ => 0, fun _ => 0⟩, fun _ => 7, 0, 0, 0⟩ :
        rmsds_env ℝ).n_coordinates).n_coordinates 1 ∈
        (pywise_rmsds
      (⟨⟨true, true⟩, true, ⟨true, true, fun _ => 0, fun _ => 0⟩, fun _ => 7, 0, 0, 0⟩ :
        rmsds_env ℝ)
      Real.sqrt (py_arguments.parsed
      (py_source [[[PyObject.int 0]], [[PyObject.int 1]]] : PyObject ℝ)
      none)).events) ∧
    (∀ s values, (pywise_build_points_array
      (⟨⟨true, true⟩, true, ⟨true, true, fun _ => 0, fun _ => 0⟩, fun _ => 7, 0, 0⟩ :
        distances_env ℝ).build
      (PyObject.sequence [PyObject.sequence [PyObject.int 0],
        PyObject.sequence [PyObject.int 1]] : PyObject ℝ)

      (⟨⟨true, true⟩, true, ⟨true, true, fun _ => 0, fun _ => 0⟩, fun _ => 7, 0, 0⟩ :
        distances_env ℝ).n_points

      (⟨⟨true, true⟩, true, ⟨true, true, fun _ => 0, fun _ => 0⟩, fun _ => 7, 0, 0⟩ :
        distances_env ℝ).n_coordinates).returned = some (s, values) →

      (⟨⟨true, true⟩, true, ⟨true, true, fun _ => 0, fun _ => 0⟩, fun _ => 7, 0, 0⟩ :
        distances_env ℝ).malloc_results_ok = true →
      entry_event.calculate
          (pywise_build_points_array
      (⟨⟨true, true⟩, true, ⟨true, true, fun _ => 0, fun _ => 0⟩, fun _ => 7, 0, 0⟩ :
        distances_env ℝ).build
      (PyObject.sequence [PyObject.sequence [PyObject.int 0],
        PyObject.sequence [PyObject.int 1]] : PyObject ℝ)

      (⟨⟨true, true⟩, true, ⟨true, true, fun _ => 0, fun _ => 0⟩, fun _ => 7, 0, 0⟩ :
        distances_env ℝ).n_points

      (⟨⟨true, true⟩, true, ⟨true, true, fun _ => 0, fun _ => 0⟩, fun _ => 7, 0, 0⟩ :
        distances_env ℝ).n_coordinates).n_points 1
          (pywise_build_points_array
      (⟨⟨true, true⟩, true, ⟨true, true, fun _ => 0, fun _ => 0⟩, fun _ => 7, 0, 0⟩ :
        distances_env ℝ).build
      (PyObject.sequence [PyObject.sequence [PyObject.int 0],
        PyObject.sequence [PyObject.int 1]] : PyObject ℝ)

      (⟨⟨true, true⟩, true, ⟨true, true, fun _ => 0, fun _ => 0⟩, fun _ => 7, 0, 0⟩ :
        distances_env ℝ).n_points

      (⟨⟨true, true⟩, true, ⟨true, true, fun _ => 0, fun _ => 0⟩, fun _ => 7, 0, 0⟩ :
        distances_env ℝ).n_coordinates).n_coordinates 1 ∈
        (pywise_distances
      (⟨⟨true, true⟩, true, ⟨true, true, fun _ => 0, fun _ => 0⟩, fun _ => 7, 0, 0⟩ :
        distances_env ℝ)
      Real.sqrt (py_arguments.parsed
      (PyObject.sequence [PyObject.sequence [PyObject.int 0],
        PyObject.sequence [PyObject.int 1]] : PyObject ℝ)
      none)).events) ∧
    (∀ threads a b c T, entry_event.calculate a b c T ∈
        (pywise_rmsds
      (⟨⟨true, true⟩, true, ⟨true, true, fun _ => 0, fun _ => 0⟩, fun _ => 7, 0, 0, 0⟩ :
        rmsds_env ℝ)
      Real.sqrt (py_arguments.parsed
      (py_source [[[PyObject.int 0]], [[PyObject.int 1]]] : PyObject ℝ)
      threads)).events ∨
      entry_event.calculate a b c T ∈
        (pywise_distances
      (⟨⟨true, true⟩, true, ⟨true, true, fun _ => 0, fun _ => 0⟩, fun _ => 7, 0, 0⟩ :
        distances_env ℝ)
      Real.sqrt (py_arguments.parsed
      (PyObject.sequence [PyObject.sequence [PyObject.int 0],
        PyObject.sequence [PyObject.int 1]] : PyObject ℝ)
      threads)).events →
      0 < threads.getD PYWISE_DEFAULT_THREADS ∧
        T = to_size (threads.getD PYWISE_DEFAULT_THREADS)) :=
  entry_points_thread_count
    ⟨⟨true, true⟩, true, ⟨true, true, fun _ => 0, fun _ => 0⟩, fun _ => 7, 0, 0, 0⟩
    ⟨⟨true, true⟩, true, ⟨true, true, fun _ => 0, fun _ => 0⟩, fun _ => 7, 0, 0⟩
    Real.sqrt (py_source [[[PyObject.int 0]], [[PyObject.int 1]]])
    (PyObject.sequence [PyObject.sequence [PyObject.int 0], PyObject.sequence [PyObject.int 1]])
    (-1) (by decide)

end Pairwise
